import Mathlib

/-!
# ArtFlow brush helper: ribbon-mesh synthesis

A shallow embedding of `src/modules/tool/helper/brush-helper.js`.

Numbers are modelled by an arbitrary linearly ordered field `K` with a floor
function (`ℚ` for evaluation, `ℝ` for Euclidean statements): JavaScript
doubles are idealised as exact numbers, so rounding, `NaN` and the infinities
are outside the model.  The one infinity the helper relies on, the
`-Infinity` sentinel stored in `_lastPoint`, is modelled by `none`.

`Math.sqrt` is not a field operation; every function that reaches it takes the
square root as an explicit argument `sqrt : K → K`.

The renderer side of the helper (material, mesh list, the `needsUpdate`
flags) carries no data the synthesis reads back and is left out.

Four smaller parts of the application follow the helper: the index allocator of
`PrimitivesRenderer` (`src/modules/tool/particle-tool.js`), the module
`EventDispatcher` (`src/utils/event-dispatcher.js`), the boolean buttons of
`ViveController` (`src/controller/vive-controller.js`) and the turtle of the tree
tool (`src/modules/tool/tree-tool.js`).  The turtle states share mutable objects,
so they are modelled over a heap of references; loops that may fail to end are
given a bound on their number of steps.
-/

set_option autoImplicit false
set_option linter.unusedSectionVars false

namespace THREE

/-- Vector of three numbers, as `THREE.Vector3`. -/
structure Vector3 (K : Type) where
  x : K
  y : K
  z : K

/-- Rotation as `THREE.Quaternion`. -/
structure Quaternion (K : Type) where
  x : K
  y : K
  z : K
  w : K

/-- Fixed-length numeric array, as a JavaScript `Float32Array`: `length` cells,
cell `i` holding `data i`.  Cells at or beyond `length` do not exist; `data`
is never changed there. -/
structure Float32Array (K : Type) where
  length : Nat
  data : Nat → K

/-- Active draw range of a `THREE.BufferGeometry` (`setDrawRange(start, count)`). -/
structure DrawRange (K : Type) where
  start : K
  count : K

variable {K : Type} [LinearOrderedField K]

/-- Fresh zero-filled array, `new Float32Array(n)`. -/
def Float32Array.alloc (n : Nat) : Float32Array K :=
  { length := n, data := fun _ => 0 }

/-- Assignment `a[i] = v`: a typed array silently drops a write at an index
outside `[0, length)`. -/
@[irreducible]
def Float32Array.write (a : Float32Array K) (i : Nat) (v : K) : Float32Array K :=
  if i < a.length then { a with data := Function.update a.data i v } else a

/-- Read `a[i]` (meaningful for `i < length`; beyond it JavaScript yields
`undefined`, which the model does not represent). -/
def Float32Array.read (a : Float32Array K) (i : Nat) : K :=
  a.data i

namespace Vector3

/-- Component-wise difference, `Vector3.sub`. -/
def sub (a b : Vector3 K) : Vector3 K :=
  ⟨a.x - b.x, a.y - b.y, a.z - b.z⟩

/-- Component-wise sum, `Vector3.add`. -/
def add (a b : Vector3 K) : Vector3 K :=
  ⟨a.x + b.x, a.y + b.y, a.z + b.z⟩

/-- Scaling, `Vector3.multiplyScalar`. -/
def multiplyScalar (a : Vector3 K) (s : K) : Vector3 K :=
  ⟨a.x * s, a.y * s, a.z * s⟩

/-- Division by a scalar; `Vector3.divideScalar(s)` is `multiplyScalar(1 / s)`. -/
def divideScalar (a : Vector3 K) (s : K) : Vector3 K :=
  a.multiplyScalar (1 / s)

/-- Cross product `a × b`, `Vector3.cross`. -/
def cross (a b : Vector3 K) : Vector3 K :=
  ⟨a.y * b.z - a.z * b.y, a.z * b.x - a.x * b.z, a.x * b.y - a.y * b.x⟩

/-- Squared Euclidean distance, `Vector3.distanceToSquared`. -/
def distanceToSquared (a v : Vector3 K) : K :=
  let dx := a.x - v.x
  let dy := a.y - v.y
  let dz := a.z - v.z
  dx * dx + dy * dy + dz * dz

/-- Euclidean distance, `Vector3.distanceTo`: `Math.sqrt` of the squared distance. -/
def distanceTo (sqrt : K → K) (a v : Vector3 K) : K :=
  sqrt (a.distanceToSquared v)

/-- Euclidean length, `Vector3.length`: `Math.sqrt(x*x + y*y + z*z)`. -/
def length (sqrt : K → K) (a : Vector3 K) : K :=
  sqrt (a.x * a.x + a.y * a.y + a.z * a.z)

/-- Rotation of a vector by a quaternion, `Vector3.applyQuaternion`:
first `q * v`, then the product with the inverse of `q`. -/
def applyQuaternion (v : Vector3 K) (q : Quaternion K) : Vector3 K :=
  let ix := q.w * v.x + q.y * v.z - q.z * v.y
  let iy := q.w * v.y + q.z * v.x - q.x * v.z
  let iz := q.w * v.z + q.x * v.y - q.y * v.x
  let iw := -q.x * v.x - q.y * v.y - q.z * v.z
  ⟨ix * q.w + iw * -q.x + iy * -q.z - iz * -q.y,
   iy * q.w + iw * -q.y + iz * -q.x - ix * -q.z,
   iz * q.w + iw * -q.z + ix * -q.y - iy * -q.x⟩

/-- Three consecutive cells of an array read as a vector, `Vector3.fromArray`. -/
def fromArray (a : Float32Array K) (offset : Nat) : Vector3 K :=
  ⟨a.read offset, a.read (offset + 1), a.read (offset + 2)⟩

end Vector3

/-- The library routine `BufferGeometry.normalizeNormals`: every complete triple
`(x, y, z)` of the normal array is multiplied by `1 / Math.sqrt(x*x + y*y + z*z)`.
The triples are independent, so the loop over them is written cell by cell. -/
def normalizeNormals (sqrt : K → K) (normals : Float32Array K) : Float32Array K :=
  { normals with
    data := fun j =>
      if j < 3 * (normals.length / 3) then
        let x := normals.data (3 * (j / 3))
        let y := normals.data (3 * (j / 3) + 1)
        let z := normals.data (3 * (j / 3) + 2)
        let n := 1 / sqrt (x * x + y * y + z * z)
        normals.data j * n
      else normals.data j }

/-- Matrix of three rows and three columns, as `THREE.Matrix3`, by its entries
`n<row><column>`.  The array `elements` holds them column by column:
`elements[0]`, `elements[1]`, `elements[2]` are `n11`, `n21`, `n31`. -/
structure Matrix3 (K : Type) where
  n11 : K
  n12 : K
  n13 : K
  n21 : K
  n22 : K
  n23 : K
  n31 : K
  n32 : K
  n33 : K

namespace Matrix3

/-- `a.multiply( b )`: the matrix `a` becomes the product `a * b`. -/
def multiply (a b : Matrix3 K) : Matrix3 K :=
  { n11 := a.n11 * b.n11 + a.n12 * b.n21 + a.n13 * b.n31
    n12 := a.n11 * b.n12 + a.n12 * b.n22 + a.n13 * b.n32
    n13 := a.n11 * b.n13 + a.n12 * b.n23 + a.n13 * b.n33
    n21 := a.n21 * b.n11 + a.n22 * b.n21 + a.n23 * b.n31
    n22 := a.n21 * b.n12 + a.n22 * b.n22 + a.n23 * b.n32
    n23 := a.n21 * b.n13 + a.n22 * b.n23 + a.n23 * b.n33
    n31 := a.n31 * b.n11 + a.n32 * b.n21 + a.n33 * b.n31
    n32 := a.n31 * b.n12 + a.n32 * b.n22 + a.n33 * b.n32
    n33 := a.n31 * b.n13 + a.n32 * b.n23 + a.n33 * b.n33 }

end Matrix3

end THREE

namespace ArtFlow

open THREE

/-- Configuration object handed to the constructor (the fields the synthesis reads). -/
structure Options (K : Type) where
  delta : K
  brushThickness : K
  enablePressure : Bool
  maxSpread : Nat

/-- State of a `BrushHelper`.  `_lastPoint = none` stands for the sentinel
`new THREE.Vector3(Number.NEGATIVE_INFINITY)`, the point `(-∞, 0, 0)`. -/
structure BrushHelper (K : Type) where
  options : Options K
  _verticesCount : Nat
  _normalsCount : Nat
  _uvCount : Nat
  _vboLimit : Nat
  _vertices : Float32Array K
  _normals : Float32Array K
  _uvs : Float32Array K
  _uv : Nat
  _delta : K
  _axisLock : Vector3 K
  _pointA : Vector3 K
  _pointB : Vector3 K
  _lastPoint : Option (Vector3 K)
  _lastPressure : K
  _thickness : K
  drawRange : DrawRange K

variable {K : Type} [LinearOrderedField K] [FloorRing K]

namespace BrushHelper

/-- The constructor, lines 32-77.  The arrays are `null` until `createMesh`
runs; they are modelled by empty arrays. -/
def construct (options : Options K) : BrushHelper K :=
  { options := options
    _verticesCount := 0
    _normalsCount := 0
    _uvCount := 0
    _vboLimit := 10000
    _vertices := Float32Array.alloc 0
    _normals := Float32Array.alloc 0
    _uvs := Float32Array.alloc 0
    _uv := 0
    _delta := options.delta
    _axisLock := ⟨0, 0, -1⟩
    _pointA := ⟨0, 0, 0⟩
    _pointB := ⟨0, 0, 0⟩
    _lastPoint := none
    _lastPressure := 0
    _thickness := options.brushThickness / 2
    drawRange := ⟨0, 0⟩ }

/-- Method `createMesh`, lines 79-117: fresh zeroed arrays, cursors and draw
range reset, `_lastPoint` back to the sentinel. -/
def createMesh (s : BrushHelper K) : BrushHelper K :=
  { s with
    _vertices := Float32Array.alloc (s._vboLimit * 3 * 3)
    _normals := Float32Array.alloc (s._vboLimit * 3 * 3)
    _uvs := Float32Array.alloc (s._vboLimit * 2 * 2)
    drawRange := ⟨0, 0⟩
    _verticesCount := 0
    _normalsCount := 0
    _uvCount := 0
    _uv := 0
    _lastPoint := none }

/-- Method `setThickness`, lines 126-130. -/
def setThickness (s : BrushHelper K) (thickness : K) : BrushHelper K :=
  { s with _thickness := thickness / 2 }

/-- The local `test` of `_computeThicknessWithPressure` (lines 263-264):
`1.0 - Math.abs(this._lastPressure - pressureValue)` with the pressure capped at 0.8. -/
def test (s : BrushHelper K) (pressure : K) : K :=
  let pressureValue := if pressure ≥ 0.8 then 0.8 else pressure
  1 - |s._lastPressure - pressureValue|

/-- Method `_computeThicknessWithPressure`, lines 261-269: the returned
thickness and the state with `_lastPressure` updated. -/
def _computeThicknessWithPressure (s : BrushHelper K) (pressure : K) : K × BrushHelper K :=
  let pressureValue := if pressure ≥ 0.8 then 0.8 else pressure
  let test := 1 - |s._lastPressure - pressureValue|
  let v := s._thickness * pressureValue * test * test
  (v, { s with _lastPressure := pressureValue })

/-- The field `_computeThickness`: the constant policy of lines 60-64, replaced
by the pressure policy when `options.enablePressure` is set (lines 66-68). -/
def _computeThickness (s : BrushHelper K) (pressure : K) : K × BrushHelper K :=
  if s.options.enablePressure then s._computeThicknessWithPressure pressure
  else (s._thickness, s)

/-- One `this._uvs[ this._uv++ ] = v`. -/
def pushUV (s : BrushHelper K) (v : K) : BrushHelper K :=
  { s with _uvs := s._uvs.write s._uv v, _uv := s._uv + 1 }

/-- Method `_computeUVWithPressure`, lines 271-279. -/
def _computeUVWithPressure (s : BrushHelper K) (_max : K) (pressureValue : K) : BrushHelper K :=
  (((s.pushUV pressureValue).pushUV 0).pushUV pressureValue).pushUV 1

/-- The loop of `_computeUVWithoutPressure`, lines 284-290, from counter `i`
on, bounded by `fuel` iterations. -/
def uvLoop (max : K) : Nat → Nat → BrushHelper K → BrushHelper K
  | 0, _, s => s
  | fuel + 1, i, s =>
    if (i : K) ≤ max then
      uvLoop max fuel (i + 1)
        ((((s.pushUV ((i : K) / max)).pushUV 0).pushUV ((i : K) / max)).pushUV 1)
    else s

/-- Method `_computeUVWithoutPressure`, lines 281-292.  The loop
`for (i = 0; i <= max; i++)` runs `⌊max⌋ + 1` times when `max ≥ 0` and not at
all otherwise, so that many iterations of fuel are enough. -/
def _computeUVWithoutPressure (s : BrushHelper K) (max : K) : BrushHelper K :=
  uvLoop max (⌊max⌋₊ + 1) 0 { s with _uv := 0 }

/-- The field `_computeUV`, chosen at construction (lines 66-70). -/
def _computeUV (s : BrushHelper K) (max : K) (pressureValue : K) : BrushHelper K :=
  if s.options.enablePressure then s._computeUVWithPressure max pressureValue
  else s._computeUVWithoutPressure max

/-- Lines 172-197 of `_processPoint`: the rotated, scaled axis and the two rung
vertices written at `verticesCount`. -/
def emitRung (s : BrushHelper K) (pointCoords : Vector3 K) (orientation : THREE.Quaternion K)
    (verticesCount : Nat) (pressure : K) : BrushHelper K :=
  let axisLock := (Vector3.mk 1 0 0 : Vector3 K).applyQuaternion orientation
  let r := s._computeThickness pressure
  let thickness := r.1
  let s := r.2
  let axisLock := axisLock.multiplyScalar thickness
  let pointA := (Vector3.mk pointCoords.x pointCoords.y pointCoords.z).sub axisLock
  let vertices := s._vertices.write verticesCount pointA.x
  let vertices := vertices.write (verticesCount + 1) pointA.y
  let vertices := vertices.write (verticesCount + 2) pointA.z
  let pointB := (Vector3.mk pointCoords.x pointCoords.y pointCoords.z).add axisLock
  let vertices := vertices.write (verticesCount + 3) pointB.x
  let vertices := vertices.write (verticesCount + 4) pointB.y
  let vertices := vertices.write (verticesCount + 5) pointB.z
  { s with _axisLock := axisLock, _pointA := pointA, _pointB := pointB, _vertices := vertices }

/-- The local `it` of `_processPoint`, lines 201-205, from the local
`verticesCount` (already advanced past the new rung). -/
def it (verticesCount : Nat) : Nat :=
  if (verticesCount : Int) - 3 * 3 = 0 then 1
  else if (verticesCount : Int) - 4 * 3 = 3 then 2
  else 3

/-- Body of the loop of lines 208-225 for loop counter `i`: the cross product
`(v0 - v1) × (v2 - v1)` of the vertices read at `verticesCount - 9 - i`,
`verticesCount - 6 - i` and `verticesCount - 3 - i`. -/
def triangleCross (vertices : Float32Array K) (verticesCount i : Nat) : Vector3 K :=
  let v0 := Vector3.fromArray vertices (verticesCount - 9 - i)
  let v1 := Vector3.fromArray vertices (verticesCount - 6 - i)
  let v2 := Vector3.fromArray vertices (verticesCount - 3 - i)
  let v0Subv1 := v0.sub v1
  let v2Subv1 := v2.sub v1
  v0Subv1.cross v2Subv1

/-- Lines 207-227: the accumulator `n` after the loop
`for (i = 0; i < it * 3; i += 3)` (counter `i = 3 * j`, `j < it`) and the
division by `it`. -/
def smoothedNormal (vertices : Float32Array K) (verticesCount it : Nat) : Vector3 K :=
  Vector3.divideScalar
    ((List.range it).foldl
      (fun (n : Vector3 K) j => n.add (triangleCross vertices verticesCount (3 * j)))
      (Vector3.mk 0 0 0))
    (it : K)

/-- One triple of lines 229-251: `n.x`, `n.y`, `n.z` at `normalsCount`. -/
def writeTriple (a : Float32Array K) (normalsCount : Nat) (n : Vector3 K) : Float32Array K :=
  ((a.write normalsCount n.x).write (normalsCount + 1) n.y).write (normalsCount + 2) n.z

/-- Lines 229-251: the vector `n` written six times from `normalsCount` on. -/
def writeNormal (a : Float32Array K) (normalsCount : Nat) (n : Vector3 K) : Float32Array K :=
  writeTriple
    (writeTriple
      (writeTriple
        (writeTriple
          (writeTriple (writeTriple a normalsCount n) (normalsCount + 3) n)
          (normalsCount + 6) n)
        (normalsCount + 9) n)
      (normalsCount + 12) n)
    (normalsCount + 15) n

/-- Method `_processPoint` up to line 251, that is, before `normalizeNormals`
runs: the rung is emitted and, when `this._verticesCount >= 3 * 4`, the
averaged normal is written.  The guard tests the field `_verticesCount`; the
reads use the local cursor, which stands six cells further. -/
def processPointRaw (s : BrushHelper K) (pointCoords : Vector3 K) (orientation : THREE.Quaternion K)
    (verticesCount_ normalsCount_ : Nat) (pressure : K) : BrushHelper K :=
  let s := s.emitRung pointCoords orientation verticesCount_ pressure
  let verticesCount := verticesCount_ + 6
  if s._verticesCount ≥ 3 * 4 then
    let n := smoothedNormal s._vertices verticesCount (it verticesCount)
    { s with _normals := writeNormal s._normals normalsCount_ n }
  else s

/-- Method `_processPoint`, lines 166-259. -/
def _processPoint (sqrt : K → K) (s : BrushHelper K) (pointCoords : Vector3 K)
    (orientation : THREE.Quaternion K) (verticesCount_ normalsCount_ : Nat) (pressure : K) :
    BrushHelper K :=
  let t := s.processPointRaw pointCoords orientation verticesCount_ normalsCount_ pressure
  if s._verticesCount ≥ 3 * 4 then
    { t with
      _normals := normalizeNormals sqrt t._normals
      _normalsCount := t._normalsCount + 3 * 2 }
  else t

/-- The test of line 141, `this._lastPoint.distanceTo(pointCoords) < this._delta`.
From the sentinel `(-∞, 0, 0)` the distance to any point is `+∞`, which is
below no `_delta`. -/
def tooClose (sqrt : K → K) (s : BrushHelper K) (pointCoords : Vector3 K) : Bool :=
  match s._lastPoint with
  | none => false
  | some last => decide (last.distanceTo sqrt pointCoords < s._delta)

/-- The bound `max` of lines 144-147. -/
def uvBound (s : BrushHelper K) : K :=
  if s.options.maxSpread > 0 ∧ (s._verticesCount : K) / 6 ≥ (s.options.maxSpread : K) then
    (s._verticesCount : K) / 6
  else (s.options.maxSpread : K)

/-- Method `addPoint`, lines 139-164. -/
def addPoint (sqrt : K → K) (s : BrushHelper K) (pointCoords : Vector3 K)
    (orientation : THREE.Quaternion K) (pressureValue : K) : BrushHelper K :=
  if s.tooClose sqrt pointCoords then s
  else
    let max := s.uvBound
    let s := s._computeUV max pressureValue
    let s := s._processPoint sqrt pointCoords orientation s._verticesCount s._normalsCount
      pressureValue
    let s := { s with _verticesCount := s._verticesCount + 6, _uvCount := s._uvCount + 4 }
    let s := { s with drawRange := ⟨0, (s._verticesCount : K) / 3⟩ }
    { s with _lastPoint := some pointCoords }

end BrushHelper

/-- One call of `addPoint`: position, orientation, pressure. -/
structure Sample (K : Type) where
  position : Vector3 K
  orientation : THREE.Quaternion K
  pressure : K

/-- A sequence of `addPoint` calls, in order. -/
def run (sqrt : K → K) (s : BrushHelper K) : List (Sample K) → BrushHelper K
  | [] => s
  | c :: cs => run sqrt (s.addPoint sqrt c.position c.orientation c.pressure) cs

/-- The calls of a sequence that pass the distance test of line 141 when they
are made, in order. -/
def accepted (sqrt : K → K) (s : BrushHelper K) : List (Sample K) → List (Sample K)
  | [] => []
  | c :: cs =>
    if s.tooClose sqrt c.position then accepted sqrt s cs
    else c :: accepted sqrt (s.addPoint sqrt c.position c.orientation c.pressure) cs

/-! ## The specification's formula for the smoothed normal -/

/-- Stated from the specification: the sum of a list of vectors. -/
def vectorSum : List (Vector3 K) → Vector3 K
  | [] => ⟨0, 0, 0⟩
  | v :: l => v.add (vectorSum l)

/-- Stated from the specification: vertex `k` of a position array, three floats per vertex. -/
def vertexAt (a : Float32Array K) (k : Nat) : Vector3 K :=
  Vector3.fromArray a (3 * k)

/-- Stated from the specification: the average over the last `T` triangles of a
list of `m` vertices of the cross products
`(V[m-3-j] - V[m-2-j]) × (V[m-1-j] - V[m-2-j])`, `j = 0 .. T-1`. -/
def windowNormal (a : Float32Array K) (m T : Nat) : Vector3 K :=
  (vectorSum ((List.range T).map fun j =>
    ((vertexAt a (m - 3 - j)).sub (vertexAt a (m - 2 - j))).cross
      ((vertexAt a (m - 1 - j)).sub (vertexAt a (m - 2 - j))))).multiplyScalar (1 / (T : K))

/-! ## Example inputs -/

/-- A configuration with spacing `delta = 2`, constant thickness 1 and `maxSpread = 5`. -/
def spacedOptions : Options K :=
  { delta := 2, brushThickness := 2, enablePressure := false, maxSpread := 5 }

/-- A helper configured by `spacedOptions` whose segment holds one accepted
sample, at the origin. -/
def spacedHelper (sqrt : K → K) : BrushHelper K :=
  (BrushHelper.construct spacedOptions).createMesh.addPoint sqrt ⟨0, 0, 0⟩ ⟨0, 0, 0, 1⟩ 1

/-- A configuration with spacing `delta = 0` (every sample is accepted), constant
thickness 1 and `maxSpread = 5`. -/
def denseOptions : Options K :=
  { delta := 0, brushThickness := 2, enablePressure := false, maxSpread := 5 }

/-- A configuration with spacing `delta = 0`, pressure-driven, base thickness 1. -/
def pressureOptions : Options K :=
  { delta := 0, brushThickness := 2, enablePressure := true, maxSpread := 5 }

/-- A straight stroke of `n` samples along the y axis, one unit apart, identity
orientation, pressure 1. -/
def strokeSamples (n : Nat) : List (Sample K) :=
  (List.range n).map fun (i : Nat) => ⟨⟨0, (i : K), 0⟩, ⟨0, 0, 0, 1⟩, 1⟩

/-- A configuration with `maxSpread = 0` ("unbounded"), spacing 0, constant
thickness 1. -/
def unboundedOptions : Options K :=
  { delta := 0, brushThickness := 2, enablePressure := false, maxSpread := 0 }

/-- One call made on a helper between construction and the end of a stroke. -/
inductive Op (K : Type) where
  | createMesh : Op K
  | addPoint (pointCoords : Vector3 K) (orientation : THREE.Quaternion K) (pressureValue : K) :
      Op K
  | setThickness (thickness : K) : Op K

/-- The effect of one call. -/
def Op.apply (sqrt : K → K) (s : BrushHelper K) : Op K → BrushHelper K
  | Op.createMesh => s.createMesh
  | Op.addPoint p q pr => s.addPoint sqrt p q pr
  | Op.setThickness v => s.setThickness v

/-- A sequence of `createMesh`, `addPoint` and `setThickness` calls, in order. -/
def exec (sqrt : K → K) (s : BrushHelper K) : List (Op K) → BrushHelper K
  | [] => s
  | o :: os => exec sqrt (o.apply sqrt s) os

/-- Two calls that are the same call up to the pressure argument of `addPoint`. -/
def Op.samePressureless : Op K → Op K → Prop
  | Op.createMesh, Op.createMesh => True
  | Op.addPoint p q _, Op.addPoint p' q' _ => p = p' ∧ q = q'
  | Op.setThickness v, Op.setThickness v' => v = v'
  | _, _ => False

/-- A straight stroke of `n` samples along the x axis, three units apart,
identity orientation, pressure 1: the stroke runs along its own rungs. -/
def flatSamples (n : Nat) : List (Sample K) :=
  (List.range n).map fun (i : Nat) => ⟨⟨3 * (i : K), 0, 0⟩, ⟨0, 0, 0, 1⟩, 1⟩

/-- The cells of `_uvs` the loop of `_computeUVWithoutPressure` (lines 284-290)
assigns, from counter `i` and UV cursor `uv` on; it follows `uvLoop` step by step. -/
def BrushHelper.uvLoopIndices (max : K) : Nat → Nat → Nat → List Nat
  | 0, _, _ => []
  | fuel + 1, i, uv =>
    if (i : K) ≤ max then
      uv :: (uv + 1) :: (uv + 2) :: (uv + 3) :: uvLoopIndices max fuel (i + 1) (uv + 4)
    else []

/-- The cells of `_uvs` that `_computeUV(max, pressureValue)` assigns: the four at
`_uv` for the pressure policy (lines 273-277), those of the loop restarted at
`_uv = 0` otherwise (lines 283-290). -/
def BrushHelper.uvIndices (s : BrushHelper K) (max : K) : List Nat :=
  if s.options.enablePressure then [s._uv, s._uv + 1, s._uv + 2, s._uv + 3]
  else uvLoopIndices max (⌊max⌋₊ + 1) 0 0

/-- The cells of `_vertices` that `_processPoint` touches: the six it assigns at the
cursor (lines 186-197) and, when the guard of line 199 holds, the three triples
per triangle it reads back through `fromArray` (lines 214-216), the local cursor
standing six cells further. -/
def BrushHelper.vertexIndices (s : BrushHelper K) : List Nat :=
  [s._verticesCount, s._verticesCount + 1, s._verticesCount + 2, s._verticesCount + 3,
    s._verticesCount + 4, s._verticesCount + 5] ++
  (if s._verticesCount ≥ 3 * 4 then
    (List.range (it (s._verticesCount + 6))).flatMap fun j =>
      [s._verticesCount + 6 - 9 - 3 * j, s._verticesCount + 6 - 9 - 3 * j + 1,
        s._verticesCount + 6 - 9 - 3 * j + 2,
        s._verticesCount + 6 - 6 - 3 * j, s._verticesCount + 6 - 6 - 3 * j + 1,
        s._verticesCount + 6 - 6 - 3 * j + 2,
        s._verticesCount + 6 - 3 - 3 * j, s._verticesCount + 6 - 3 - 3 * j + 1,
        s._verticesCount + 6 - 3 - 3 * j + 2]
  else [])

/-- The cells of `_normals` that `_processPoint` touches when the guard of line 199
holds: the eighteen it assigns from the normal cursor on (lines 229-251) and the
complete triples `normalizeNormals` goes through. -/
def BrushHelper.normalIndices (s : BrushHelper K) : List Nat :=
  if s._verticesCount ≥ 3 * 4 then
    (List.range 18).map (fun e => s._normalsCount + e) ++
      List.range (3 * (s._normals.length / 3))
  else []

/-- Every cell an accepted `addPoint` touches in the three arrays is a cell of the
array. -/
def BrushHelper.withinBuffers (s : BrushHelper K) : Prop :=
  (∀ i ∈ s.vertexIndices, i < s._vertices.length) ∧
  (∀ i ∈ s.normalIndices, i < s._normals.length) ∧
  (∀ i ∈ s.uvIndices s.uvBound, i < s._uvs.length)

/-- The end of the draw range does not exceed the number of vertices the position
array has room for (three floats per vertex). -/
def BrushHelper.drawRangeWithin (s : BrushHelper K) : Prop :=
  s.drawRange.start + s.drawRange.count ≤ ((s._vertices.length / 3 : Nat) : K)

/-- Every accepted call of a run stays inside the arrays and leaves the draw
range inside the allocated vertices. -/
def runWithinBuffers (sqrt : K → K) (s : BrushHelper K) : List (Sample K) → Prop
  | [] => True
  | c :: cs =>
    (s.tooClose sqrt c.position = false →
      s.withinBuffers ∧
        (s.addPoint sqrt c.position c.orientation c.pressure).drawRangeWithin) ∧
    runWithinBuffers sqrt (s.addPoint sqrt c.position c.orientation c.pressure) cs

/-- A configuration with `maxSpread = 10000`, the capacity of a segment in rungs;
spacing 0, constant thickness 1. -/
def wideOptions : Options K :=
  { delta := 0, brushThickness := 2, enablePressure := false, maxSpread := 10000 }

/-- Successive calls of `_computeThicknessWithPressure` on one helper, in order:
each call as the state it finds paired with the pressure it is given. -/
def thicknessCalls (s : BrushHelper K) : List K → List (BrushHelper K × K)
  | [] => []
  | p :: ps => (s, p) :: thicknessCalls (s._computeThicknessWithPressure p).2 ps

/-! ## The particle renderer (`particle-tool.js`) -/

/-- State of a `PrimitivesRenderer` as far as the index allocator reads or writes
it: the side of the square particle texture and the array of free cell indices
(the last element of the list is the last element of the array). -/
structure PrimitivesRenderer where
  _bufferSide : Nat
  _indices : List Nat

/-- A texture cell `{ x, y }` as returned by `getAvailableIndex`. -/
structure Cell where
  x : Nat
  y : Nat
  deriving DecidableEq

namespace PrimitivesRenderer

/-- The loop `while ( i < nb ) i *= 2` of `_getNextPowerTwo`, lines 58-59, from
the value `i` on, bounded by `fuel` evaluations of the loop test; `none` when the
bound is reached before the test fails. -/
def nextPowerTwoLoop (nb : Int) : Nat → Int → Option Int
  | 0, _ => none
  | fuel + 1, i => if i < nb then nextPowerTwoLoop nb fuel (i * 2) else some i

/-- Static method `_getNextPowerTwo`, lines 55-62, on an integer argument, run for
at most `fuel` evaluations of the loop test.  Integers are unbounded here: the
doublings are exact, as they are in JavaScript for every power of two up to
`2 ^ 1023`. -/
def _getNextPowerTwo (fuel : Nat) (nb : Int) : Option Int :=
  nextPowerTwoLoop nb fuel 1

/-- The inner loop of `initIndicesArray`, line 67:
`for ( j = side - 1; j >= 0; j-- ) indices.push( i * side + j )`, with `count`
iterations left (the loop variable is `count - 1`). -/
def pushRow (side i : Nat) : Nat → List Nat → List Nat
  | 0, indices => indices
  | j + 1, indices => pushRow side i j (indices ++ [i * side + j])

/-- The outer loop of `initIndicesArray`, line 66, with `count` iterations left
(the loop variable is `count - 1`). -/
def pushRows (side : Nat) : Nat → List Nat → List Nat
  | 0, indices => indices
  | i + 1, indices => pushRows side i (pushRow side i side indices)

/-- Method `initIndicesArray`, lines 64-70. -/
def initIndicesArray (r : PrimitivesRenderer) : PrimitivesRenderer :=
  { r with _indices := pushRows r._bufferSide r._bufferSide r._indices }

/-- The constructor, lines 41-53, for `options.bufferSide = bufferSide`: the
index array starts empty and is filled by `initIndicesArray`. -/
def construct (bufferSide : Nat) : PrimitivesRenderer :=
  initIndicesArray { _bufferSide := bufferSide, _indices := [] }

/-- Method `getAvailableIndex`, lines 72-77: the returned cell and the renderer
after the `pop`.  On an empty array `pop` yields `undefined` and both coordinates
are `NaN`; that result is `none`. -/
def getAvailableIndex (r : PrimitivesRenderer) : Option Cell × PrimitivesRenderer :=
  match r._indices.getLast? with
  | none => (none, r)
  | some idx =>
    (some { x := idx % r._bufferSide, y := idx / r._bufferSide },
      { r with _indices := r._indices.dropLast })

/-- The renderer after `n` calls of `getAvailableIndex`. -/
def afterCalls (r : PrimitivesRenderer) : Nat → PrimitivesRenderer
  | 0 => r
  | n + 1 => (afterCalls r n).getAvailableIndex.2

/-- The result of the `n`-th call of `getAvailableIndex`, counting from 0. -/
def nthCall (r : PrimitivesRenderer) (n : Nat) : Option Cell :=
  (afterCalls r n).getAvailableIndex.1

end PrimitivesRenderer

/-! ## The event dispatcher (`event-dispatcher.js`) -/

/-- The module object `EventDispatcher`: `_events` maps an event id to its array of
callbacks, `none` for an id without entry (`undefined` or `null`).  Event ids are
the keys of the object `_events`, taken from a type `E` of keys the empty object
does not answer for; callbacks are values of a type `C`, told apart only by the
calls the dispatcher makes. -/
structure EventDispatcher (E C : Type) where
  _events : E → Option (List C)

namespace EventDispatcher

variable {E C D : Type} [DecidableEq E]

/-- `EventDispatcher._events = {}`, line 5. -/
def initial : EventDispatcher E C :=
  { _events := fun _ => none }

/-- `register`, lines 7-16: an absent entry is first set to the empty array, then
the callback is pushed at the end. -/
def register (s : EventDispatcher E C) (eventID : E) (callback : C) : EventDispatcher E C :=
  let events : List C :=
    match s._events eventID with
    | none => []
    | some events => events
  { _events := Function.update s._events eventID (some (events ++ [callback])) }

/-- `dispatch`, lines 18-25: the calls it makes, in order, each as the callback
called and the argument passed.  The loop `for ( callbackID in events )` visits
the indices of the array in ascending order. -/
def dispatch (s : EventDispatcher E C) (eventID : E) (data : D) : List (C × D) :=
  match s._events eventID with
  | none => []
  | some events => events.map fun callback => (callback, data)

/-- A sequence of `register` calls, in order. -/
def registerAll (s : EventDispatcher E C) : List (E × C) → EventDispatcher E C
  | [] => s
  | r :: rs => registerAll (s.register r.1 r.2) rs

end EventDispatcher

/-! ## The controller buttons (`vive-controller.js`) -/

/-- The keys of `this.buttons`, lines 42-104. -/
inductive ButtonID where
  | thumbpad
  | trigger
  | menu
  deriving DecidableEq

/-- The two values of the `status` property of a button event. -/
inductive Status where
  | Down
  | Up
  deriving DecidableEq

/-- An event object handed to `dispatchEvent` by `_triggerBoolButton`:
`{ type, status }`, or `{ type }` when `status` is `none`. -/
structure ButtonEvent where
  type : ButtonID
  status : Option Status
  deriving DecidableEq

/-- An entry of `this.buttons`, as far as `_triggerBoolButton` reads or writes it. -/
structure Button where
  pressed : Bool

/-- State of a `ViveController`, as far as `_triggerBoolButton` reads or writes it. -/
structure ViveController where
  buttons : ButtonID → Button

namespace ViveController

/-- The constructor, lines 42-104: every button starts with `pressed: false`. -/
def construct : ViveController :=
  { buttons := fun _ => { pressed := false } }

/-- Method `_triggerBoolButton`, lines 159-174: the controller after the call and
the events handed to `dispatchEvent`, in order. -/
def _triggerBoolButton (c : ViveController) (buttonID : ButtonID) (newValue : Bool) :
    ViveController × List ButtonEvent :=
  let button := c.buttons buttonID
  if button.pressed ≠ newValue then
    ({ buttons := Function.update c.buttons buttonID { button with pressed := newValue } },
      [{ type := buttonID, status := some (if newValue then Status.Down else Status.Up) }])
  else if button.pressed then
    (c, [{ type := buttonID, status := none }])
  else (c, [])

/-- A sequence of readings fed to `_triggerBoolButton` for one button, in order:
the controller after the last call and all events dispatched. -/
def feed (c : ViveController) (buttonID : ButtonID) : List Bool → ViveController × List ButtonEvent
  | [] => (c, [])
  | v :: vs =>
    ((feed (c._triggerBoolButton buttonID v).1 buttonID vs).1,
      (c._triggerBoolButton buttonID v).2 ++
        (feed (c._triggerBoolButton buttonID v).1 buttonID vs).2)

end ViveController

/-! ## The turtle of the tree tool (`tree-tool.js`) -/

/-- The library functions and the constant of `Math` the tree tool and the brush
helper call. -/
structure JSMath (K : Type) where
  sqrt : K → K
  cos : K → K
  sin : K → K
  PI : K

/-- The objects the turtle states refer to.  A reference is a number; the object
behind a reference is found in `vectors`, `matrices` or `quaternions` according to
its class, and `next` is the first reference no object has been given yet. -/
structure Heap (K : Type) where
  vectors : Nat → Vector3 K
  matrices : Nat → Matrix3 K
  quaternions : Nat → THREE.Quaternion K
  next : Nat

/-- Class `State`, lines 33-46: `pos`, `hlu` and `orientation` are references to a
`Vector3`, a `Matrix3` and a `Quaternion`; `angle`, `step` and `pressure` are
numbers. -/
structure State (K : Type) where
  pos : Nat
  angle : K
  hlu : Nat
  step : K
  orientation : Nat
  pressure : K

/-- Class `Tree`, lines 48-97: the array `states` (the last element of the list is
the last element of the array) and the brush helper, together with the objects
the states refer to. -/
structure Tree (K : Type) where
  states : List (State K)
  helper : BrushHelper K
  heap : Heap K

namespace Heap

/-- `v.clone()` on the `Vector3` behind `ref`: a new object with the same
coordinates; the reference to it and the heap that holds it. -/
def cloneVector (h : Heap K) (ref : Nat) : Nat × Heap K :=
  (h.next,
    { h with vectors := Function.update h.vectors h.next (h.vectors ref), next := h.next + 1 })

/-- `m.clone()` on the `Matrix3` behind `ref`. -/
def cloneMatrix (h : Heap K) (ref : Nat) : Nat × Heap K :=
  (h.next,
    { h with matrices := Function.update h.matrices h.next (h.matrices ref), next := h.next + 1 })

/-- `q.clone()` on the `Quaternion` behind `ref`. -/
def cloneQuaternion (h : Heap K) (ref : Nat) : Nat × Heap K :=
  (h.next,
    { h with
      quaternions := Function.update h.quaternions h.next (h.quaternions ref)
      next := h.next + 1 })

end Heap

namespace Tree

/-- The constructor of `Tree`, lines 50-59, on a heap `heap`. -/
def construct (options : Options K) (heap : Heap K) : Tree K :=
  { states := [], helper := BrushHelper.construct options, heap := heap }

/-- Method `Tree.pushState`, lines 77-84: the three objects are cloned, in the
order of the arguments, and the new state is pushed. -/
def pushState (t : Tree K) (pos : Nat) (angle : K) (hlu : Nat) (step : K) (orientation : Nat)
    (pressure : K) : Tree K :=
  let p := t.heap.cloneVector pos
  let m := p.2.cloneMatrix hlu
  let o := m.2.cloneQuaternion orientation
  { t with
    heap := o.2
    states := t.states ++
      [{ pos := p.1, angle := angle, hlu := m.1, step := step, orientation := o.1,
         pressure := pressure }] }

/-- Method `Tree.popState`, lines 86-90. -/
def popState (t : Tree K) : Tree K :=
  { t with states := t.states.dropLast }

/-- Method `Tree.peekState`, lines 92-96; `none` is `undefined`. -/
def peekState (t : Tree K) : Option (State K) :=
  t.states.getLast?

/-- Method `Tree.init`, lines 61-75, as far as the states go: a new matrix is
set to `(0,-1,0; 1,0,0; 0,0,1)` and the first state is pushed from the position
and orientation objects behind `position` and `orientation`. -/
def init (t : Tree K) (position : Nat) (orientation : Nat) (pressure angle step : K) : Tree K :=
  let m := t.heap.next
  let t : Tree K :=
    { t with
      heap :=
        { t.heap with
          matrices := Function.update t.heap.matrices m ⟨0, -1, 0, 1, 0, 0, 0, 0, 1⟩
          next := m + 1 } }
  t.pushState position angle m step orientation pressure

end Tree

namespace TreeTool

/-- Method `_addMesh`, lines 217-223, as far as the tree goes. -/
def _addMesh (t : Tree K) : Tree K :=
  { t with helper := t.helper.createMesh }

/-- Method `_movePos`, lines 273-280; `none` when there is no state to peek at
(a `TypeError` in JavaScript). -/
def _movePos (t : Tree K) : Option (Tree K) :=
  match t.peekState with
  | none => none
  | some state =>
    let pos := t.heap.vectors state.pos
    let hlu := t.heap.matrices state.hlu
    some { t with
      heap :=
        { t.heap with
          vectors := Function.update t.heap.vectors state.pos
            { x := pos.x + state.step * hlu.n11
              y := pos.y + state.step * hlu.n21
              z := pos.z + state.step * hlu.n31 } } }

/-- Method `_draw`, lines 282-289. -/
def _draw (M : JSMath K) (t : Tree K) : Option (Tree K) :=
  match t.peekState with
  | none => none
  | some state =>
    some { t with
      helper := t.helper.addPoint M.sqrt (t.heap.vectors state.pos)
        (t.heap.quaternions state.orientation) state.pressure }

/-- Method `drawForward`, lines 291-296. -/
def drawForward (M : JSMath K) (t : Tree K) : Option (Tree K) :=
  match _movePos t with
  | none => none
  | some t => _draw M t

/-- Method `moveForward`, lines 298-303. -/
def moveForward (t : Tree K) : Option (Tree K) :=
  _movePos (_addMesh t)

/-- Method `_updateAngle`, lines 305-309: the matrix behind `hlu` of the top state
is multiplied, in place, by `rmat`. -/
def _updateAngle (t : Tree K) (rmat : Matrix3 K) : Option (Tree K) :=
  match t.peekState with
  | none => none
  | some state =>
    some { t with
      heap :=
        { t.heap with
          matrices := Function.update t.heap.matrices state.hlu
            ((t.heap.matrices state.hlu).multiply rmat) } }

/-- Method `_getRuMatrix`, lines 311-325; the matrix is a new object that only
the caller holds. -/
def _getRuMatrix (M : JSMath K) (angle : K) : Matrix3 K :=
  let c := M.cos angle
  let s := M.sin angle
  ⟨c, s, 0, -s, c, 0, 0, 0, 1⟩

/-- Method `turnLeft`, lines 327-333. -/
def turnLeft (M : JSMath K) (sign : K) (t : Tree K) : Option (Tree K) :=
  match t.peekState with
  | none => none
  | some state =>
    let a := state.angle * sign
    let m := _getRuMatrix M a
    _updateAngle t m

/-- Method `turnAround`, lines 335-339. -/
def turnAround (M : JSMath K) (t : Tree K) : Option (Tree K) :=
  let m := _getRuMatrix M M.PI
  _updateAngle t m

/-- Method `turnDown`, lines 342-356. -/
def turnDown (M : JSMath K) (sign : K) (t : Tree K) : Option (Tree K) :=
  match t.peekState with
  | none => none
  | some state =>
    let a := sign * state.angle
    let c := M.cos a
    let s := M.sin a
    _updateAngle t ⟨c, 0, -s, 0, 1, 0, s, 0, c⟩

/-- Method `rollLeft`, lines 358-372. -/
def rollLeft (M : JSMath K) (sign : K) (t : Tree K) : Option (Tree K) :=
  match t.peekState with
  | none => none
  | some state =>
    let a := sign * state.angle
    let c := M.cos a
    let s := M.sin a
    _updateAngle t ⟨1, 0, 0, 0, c, -s, 0, s, c⟩

/-- Method `TreeTool.pushState`, lines 374-387. -/
def pushState (M : JSMath K) (t : Tree K) (newMesh : Bool) : Option (Tree K) :=
  match t.peekState with
  | none => none
  | some state =>
    let t := t.pushState state.pos state.angle state.hlu state.step state.orientation
      state.pressure
    if newMesh then _draw M (_addMesh t) else some t

/-- Method `TreeTool.popState`, lines 389-398. -/
def popState (M : JSMath K) (t : Tree K) (newMesh : Bool) : Option (Tree K) :=
  let t := t.popState
  if newMesh then _draw M (_addMesh t) else some t

end TreeTool

/-- One call of a turtle method of `TreeTool` on a tree. -/
inductive Cmd (K : Type) where
  | movePos : Cmd K
  | drawForward : Cmd K
  | moveForward : Cmd K
  | turnLeft (sign : K) : Cmd K
  | turnDown (sign : K) : Cmd K
  | rollLeft (sign : K) : Cmd K
  | turnAround : Cmd K
  | pushState (newMesh : Bool) : Cmd K
  | popState (newMesh : Bool) : Cmd K

/-- The effect of one call. -/
def Cmd.apply (M : JSMath K) (t : Tree K) : Cmd K → Option (Tree K)
  | Cmd.movePos => TreeTool._movePos t
  | Cmd.drawForward => TreeTool.drawForward M t
  | Cmd.moveForward => TreeTool.moveForward t
  | Cmd.turnLeft sign => TreeTool.turnLeft M sign t
  | Cmd.turnDown sign => TreeTool.turnDown M sign t
  | Cmd.rollLeft sign => TreeTool.rollLeft M sign t
  | Cmd.turnAround => TreeTool.turnAround M t
  | Cmd.pushState newMesh => TreeTool.pushState M t newMesh
  | Cmd.popState newMesh => TreeTool.popState M t newMesh

/-- A sequence of calls, in order; `none` as soon as one of them fails. -/
def interpret (M : JSMath K) : Tree K → List (Cmd K) → Option (Tree K)
  | t, [] => some t
  | t, c :: cs =>
    match c.apply M t with
    | none => none
    | some t => interpret M t cs

/-- The bracket depth after a sequence of calls that starts at depth `d`:
`pushState` opens a bracket, `popState` closes one; `none` when a `popState`
closes a bracket the sequence has not opened. -/
def depthAfter : Nat → List (Cmd K) → Option Nat
  | d, [] => some d
  | d, Cmd.pushState _ :: w => depthAfter (d + 1) w
  | 0, Cmd.popState _ :: _ => none
  | d + 1, Cmd.popState _ :: w => depthAfter d w
  | d, _ :: w => depthAfter d w

/-- Stated from the specification: a sequence of calls whose brackets are
balanced. -/
def balanced (w : List (Cmd K)) : Bool :=
  depthAfter 0 w == some 0

/-- The trees that stand `d` brackets above a reference point, given by the states
`S₀` and the heap `H₀` found there: the states are those of `S₀` followed by
`d + 1` states whose position and `hlu` objects were made after the reference
point, and every object that existed at the reference point is as it was. -/
def Tree.Above (S₀ : List (State K)) (H₀ : Heap K) (d : Nat) (t : Tree K) : Prop :=
  ∃ G : List (State K), t.states = S₀ ++ G ∧ G.length = d + 1 ∧
    (∀ st ∈ G, H₀.next ≤ st.pos ∧ H₀.next ≤ st.hlu) ∧
    (∀ a, a < H₀.next →
      t.heap.vectors a = H₀.vectors a ∧ t.heap.matrices a = H₀.matrices a ∧
        t.heap.quaternions a = H₀.quaternions a) ∧
    H₀.next ≤ t.heap.next

/-- A heap that holds a position at reference 0 and an orientation at reference 1. -/
def turtleHeap : Heap K :=
  { vectors := fun _ => ⟨0, 0, 0⟩
    matrices := fun _ => ⟨1, 0, 0, 0, 1, 0, 0, 0, 1⟩
    quaternions := fun _ => ⟨0, 0, 0, 1⟩
    next := 2 }

/-- A tree as `release` leaves it before the string is interpreted: constructed,
then initialised from the position and orientation of `turtleHeap` with pressure
1, angle 1 and step 1. -/
def turtleTree : Tree K :=
  (Tree.construct pressureOptions turtleHeap).init 0 1 1 1 1

/-! ## Frame lemmas -/

namespace BrushHelper

/-- The UV loop changes only `_uvs` and `_uv`. -/
theorem uvLoop_frame (max : K) (fuel i : Nat) (s : BrushHelper K) :
    uvLoop max fuel i s =
      { s with _uvs := (uvLoop max fuel i s)._uvs, _uv := (uvLoop max fuel i s)._uv } := by
  induction fuel generalizing i s with
  | zero => rfl
  | succ f ih =>
    unfold uvLoop
    split
    · rw [ih]
      simp [pushUV]
    · rfl

/-- Either UV policy changes only `_uvs` and `_uv`. -/
theorem computeUV_frame (s : BrushHelper K) (max p : K) :
    s._computeUV max p =
      { s with _uvs := (s._computeUV max p)._uvs, _uv := (s._computeUV max p)._uv } := by
  unfold _computeUV
  split
  · rfl
  · unfold _computeUVWithoutPressure
    rw [uvLoop_frame]

/-- What `_computeUV` leaves alone. -/
theorem computeUV_fields (s : BrushHelper K) (max p : K) :
    (s._computeUV max p).options = s.options ∧
    (s._computeUV max p)._verticesCount = s._verticesCount ∧
    (s._computeUV max p)._normalsCount = s._normalsCount ∧
    (s._computeUV max p)._uvCount = s._uvCount ∧
    (s._computeUV max p)._vboLimit = s._vboLimit ∧
    (s._computeUV max p)._vertices = s._vertices ∧
    (s._computeUV max p)._normals = s._normals ∧
    (s._computeUV max p)._delta = s._delta ∧
    (s._computeUV max p)._lastPoint = s._lastPoint ∧
    (s._computeUV max p)._lastPressure = s._lastPressure ∧
    (s._computeUV max p)._thickness = s._thickness ∧
    (s._computeUV max p).drawRange = s.drawRange := by
  rw [computeUV_frame]
  simp

/-- What either thickness policy leaves alone (everything but `_lastPressure`). -/
theorem computeThickness_fields (s : BrushHelper K) (p : K) :
    (s._computeThickness p).2.options = s.options ∧
    (s._computeThickness p).2._verticesCount = s._verticesCount ∧
    (s._computeThickness p).2._normalsCount = s._normalsCount ∧
    (s._computeThickness p).2._uvCount = s._uvCount ∧
    (s._computeThickness p).2._vboLimit = s._vboLimit ∧
    (s._computeThickness p).2._vertices = s._vertices ∧
    (s._computeThickness p).2._normals = s._normals ∧
    (s._computeThickness p).2._uvs = s._uvs ∧
    (s._computeThickness p).2._uv = s._uv ∧
    (s._computeThickness p).2._delta = s._delta ∧
    (s._computeThickness p).2._lastPoint = s._lastPoint ∧
    (s._computeThickness p).2._thickness = s._thickness ∧
    (s._computeThickness p).2.drawRange = s.drawRange := by
  unfold _computeThickness _computeThicknessWithPressure
  split <;> simp

/-- What `emitRung` leaves alone. -/
theorem emitRung_fields (s : BrushHelper K) (p : Vector3 K)
    (q : THREE.Quaternion K) (vc : Nat) (pr : K) :
    (s.emitRung p q vc pr).options = s.options ∧
    (s.emitRung p q vc pr)._verticesCount = s._verticesCount ∧
    (s.emitRung p q vc pr)._normalsCount = s._normalsCount ∧
    (s.emitRung p q vc pr)._uvCount = s._uvCount ∧
    (s.emitRung p q vc pr)._vboLimit = s._vboLimit ∧
    (s.emitRung p q vc pr)._normals = s._normals ∧
    (s.emitRung p q vc pr)._uvs = s._uvs ∧
    (s.emitRung p q vc pr)._uv = s._uv ∧
    (s.emitRung p q vc pr)._delta = s._delta ∧
    (s.emitRung p q vc pr)._lastPoint = s._lastPoint ∧
    (s.emitRung p q vc pr)._thickness = s._thickness ∧
    (s.emitRung p q vc pr).drawRange = s.drawRange := by
  have h := computeThickness_fields s pr
  unfold emitRung
  generalize s._computeThickness pr = r at h ⊢
  exact ⟨h.1, h.2.1, h.2.2.1, h.2.2.2.1, h.2.2.2.2.1, h.2.2.2.2.2.2.1, h.2.2.2.2.2.2.2.1,
    h.2.2.2.2.2.2.2.2.1, h.2.2.2.2.2.2.2.2.2.1, h.2.2.2.2.2.2.2.2.2.2.1,
    h.2.2.2.2.2.2.2.2.2.2.2.1, h.2.2.2.2.2.2.2.2.2.2.2.2⟩

/-- What `processPointRaw` leaves alone. -/
theorem processPointRaw_fields (s : BrushHelper K) (p : Vector3 K)
    (q : THREE.Quaternion K) (vc nc : Nat) (pr : K) :
    (s.processPointRaw p q vc nc pr).options = s.options ∧
    (s.processPointRaw p q vc nc pr)._verticesCount = s._verticesCount ∧
    (s.processPointRaw p q vc nc pr)._normalsCount = s._normalsCount ∧
    (s.processPointRaw p q vc nc pr)._uvCount = s._uvCount ∧
    (s.processPointRaw p q vc nc pr)._vboLimit = s._vboLimit ∧
    (s.processPointRaw p q vc nc pr)._vertices = (s.emitRung p q vc pr)._vertices ∧
    (s.processPointRaw p q vc nc pr)._uvs = s._uvs ∧
    (s.processPointRaw p q vc nc pr)._uv = s._uv ∧
    (s.processPointRaw p q vc nc pr)._delta = s._delta ∧
    (s.processPointRaw p q vc nc pr)._lastPoint = s._lastPoint ∧
    (s.processPointRaw p q vc nc pr)._thickness = s._thickness ∧
    (s.processPointRaw p q vc nc pr).drawRange = s.drawRange := by
  have h := emitRung_fields s p q vc pr
  unfold processPointRaw
  generalize s.emitRung p q vc pr = e at h ⊢
  by_cases hg : e._verticesCount ≥ 3 * 4
  · rw [if_pos hg]
    exact ⟨h.1, h.2.1, h.2.2.1, h.2.2.2.1, h.2.2.2.2.1, rfl, h.2.2.2.2.2.2.1,
      h.2.2.2.2.2.2.2.1, h.2.2.2.2.2.2.2.2.1, h.2.2.2.2.2.2.2.2.2.1,
      h.2.2.2.2.2.2.2.2.2.2.1, h.2.2.2.2.2.2.2.2.2.2.2⟩
  · rw [if_neg hg]
    exact ⟨h.1, h.2.1, h.2.2.1, h.2.2.2.1, h.2.2.2.2.1, rfl, h.2.2.2.2.2.2.1,
      h.2.2.2.2.2.2.2.1, h.2.2.2.2.2.2.2.2.1, h.2.2.2.2.2.2.2.2.2.1,
      h.2.2.2.2.2.2.2.2.2.2.1, h.2.2.2.2.2.2.2.2.2.2.2⟩

/-- What `_processPoint` leaves alone. -/
theorem processPoint_fields (sqrt : K → K) (s : BrushHelper K) (p : Vector3 K)
    (q : THREE.Quaternion K) (vc nc : Nat) (pr : K) :
    (s._processPoint sqrt p q vc nc pr).options = s.options ∧
    (s._processPoint sqrt p q vc nc pr)._verticesCount = s._verticesCount ∧
    (s._processPoint sqrt p q vc nc pr)._uvCount = s._uvCount ∧
    (s._processPoint sqrt p q vc nc pr)._vboLimit = s._vboLimit ∧
    (s._processPoint sqrt p q vc nc pr)._vertices = (s.emitRung p q vc pr)._vertices ∧
    (s._processPoint sqrt p q vc nc pr)._uvs = s._uvs ∧
    (s._processPoint sqrt p q vc nc pr)._uv = s._uv ∧
    (s._processPoint sqrt p q vc nc pr)._delta = s._delta ∧
    (s._processPoint sqrt p q vc nc pr)._lastPoint = s._lastPoint ∧
    (s._processPoint sqrt p q vc nc pr)._thickness = s._thickness ∧
    (s._processPoint sqrt p q vc nc pr).drawRange = s.drawRange := by
  have h := processPointRaw_fields s p q vc nc pr
  unfold _processPoint
  generalize s.processPointRaw p q vc nc pr = e at h ⊢
  by_cases hg : s._verticesCount ≥ 3 * 4
  · rw [if_pos hg]
    exact ⟨h.1, h.2.1, h.2.2.2.1, h.2.2.2.2.1, h.2.2.2.2.2.1, h.2.2.2.2.2.2.1,
      h.2.2.2.2.2.2.2.1, h.2.2.2.2.2.2.2.2.1, h.2.2.2.2.2.2.2.2.2.1,
      h.2.2.2.2.2.2.2.2.2.2.1, h.2.2.2.2.2.2.2.2.2.2.2⟩
  · rw [if_neg hg]
    exact ⟨h.1, h.2.1, h.2.2.2.1, h.2.2.2.2.1, h.2.2.2.2.2.1, h.2.2.2.2.2.2.1,
      h.2.2.2.2.2.2.2.1, h.2.2.2.2.2.2.2.2.1, h.2.2.2.2.2.2.2.2.2.1,
      h.2.2.2.2.2.2.2.2.2.2.1, h.2.2.2.2.2.2.2.2.2.2.2⟩

/-- The cursors, draw range and last point after an accepted call. -/
theorem addPoint_accept (sqrt : K → K) (s : BrushHelper K) (p : Vector3 K)
    (q : THREE.Quaternion K) (pr : K) (h : s.tooClose sqrt p = false) :
    (s.addPoint sqrt p q pr)._verticesCount = s._verticesCount + 6 ∧
    (s.addPoint sqrt p q pr)._uvCount = s._uvCount + 4 ∧
    (s.addPoint sqrt p q pr).drawRange = ⟨0, ((s._verticesCount + 6 : Nat) : K) / 3⟩ ∧
    (s.addPoint sqrt p q pr)._lastPoint = some p ∧
    (s.addPoint sqrt p q pr)._delta = s._delta ∧
    (s.addPoint sqrt p q pr).options = s.options ∧
    (s.addPoint sqrt p q pr)._vboLimit = s._vboLimit ∧
    (s.addPoint sqrt p q pr)._thickness = s._thickness := by
  unfold addPoint
  simp [h, processPoint_fields, computeUV_fields]

/-- A call that fails the distance test returns the state as it was. -/
theorem addPoint_reject (sqrt : K → K) (s : BrushHelper K) (p : Vector3 K)
    (q : THREE.Quaternion K) (pr : K) (h : s.tooClose sqrt p = true) :
    s.addPoint sqrt p q pr = s := by
  unfold addPoint
  simp [h]

end BrushHelper

/-- Cursors after a sequence of calls, from any start state. -/
theorem run_cursors (sqrt : K → K) (s : BrushHelper K) (cs : List (Sample K)) :
    (run sqrt s cs)._verticesCount = s._verticesCount + 6 * (accepted sqrt s cs).length ∧
    (run sqrt s cs)._uvCount = s._uvCount + 4 * (accepted sqrt s cs).length := by
  induction cs generalizing s with
  | nil => simp [run, accepted]
  | cons c cs ih =>
    unfold run accepted
    cases h : s.tooClose sqrt c.position
    · have ha := BrushHelper.addPoint_accept sqrt s c.position c.orientation c.pressure h
      simp only [Bool.false_eq_true, if_false, List.length_cons]
      rw [(ih _).1, (ih _).2, ha.1, ha.2.1]
      constructor <;> ring
    · rw [BrushHelper.addPoint_reject sqrt s _ _ _ h]
      simpa using ih s

/-- The draw range covers all vertices written: once it is `(0, _verticesCount / 3)` it stays so. -/
theorem run_drawRange (sqrt : K → K) (s : BrushHelper K) (cs : List (Sample K))
    (h : s.drawRange = ⟨0, (s._verticesCount : K) / 3⟩) :
    (run sqrt s cs).drawRange = ⟨0, ((run sqrt s cs)._verticesCount : K) / 3⟩ := by
  induction cs generalizing s with
  | nil => simpa [run] using h
  | cons c cs ih =>
    unfold run
    apply ih
    cases ht : s.tooClose sqrt c.position
    · have ha := BrushHelper.addPoint_accept sqrt s c.position c.orientation c.pressure ht
      rw [ha.2.2.1, ha.1]
    · rw [BrushHelper.addPoint_reject sqrt s _ _ _ ht]
      exact h

/-- The helper `spacedHelper` remembers the origin and keeps its spacing. -/
theorem spacedHelper_fields (sqrt : K → K) :
    (spacedHelper sqrt)._lastPoint = some ⟨0, 0, 0⟩ ∧ (spacedHelper sqrt)._delta = 2 ∧
    (spacedHelper sqrt)._verticesCount = 6 := by
  have ha := BrushHelper.addPoint_accept sqrt
    (BrushHelper.construct (spacedOptions : Options K)).createMesh ⟨0, 0, 0⟩ ⟨0, 0, 0, 1⟩ 1 rfl
  exact ⟨ha.2.2.2.1, ha.2.2.2.2.1, ha.1⟩

end ArtFlow

namespace THREE

variable {K : Type} [LinearOrderedField K]

/-- A write keeps the length. -/
theorem Float32Array.write_length (a : Float32Array K) (i : Nat) (v : K) :
    (a.write i v).length = a.length := by
  unfold Float32Array.write
  split <;> rfl

/-- Reading after a write: the written value at the written cell when it exists,
the old content elsewhere. -/
theorem Float32Array.read_write (a : Float32Array K) (i j : Nat) (v : K) :
    (a.write i v).read j = if j = i ∧ i < a.length then v else a.read j := by
  unfold Float32Array.write Float32Array.read
  by_cases hi : i < a.length
  · by_cases hj : j = i
    · subst hj; simp [hi]
    · simp [hi, hj, Function.update_noteq hj]
  · simp [hi]

end THREE

namespace ArtFlow

open THREE

variable {K : Type} [LinearOrderedField K] [FloorRing K]

namespace BrushHelper

/-- The thickness policy reads only `options`, `_thickness` and `_lastPressure`. -/
theorem computeThickness_congr (s u : BrushHelper K) (pr : K) (ho : u.options = s.options)
    (ht : u._thickness = s._thickness) (hp : u._lastPressure = s._lastPressure) :
    (u._computeThickness pr).1 = (s._computeThickness pr).1 ∧
    (u._computeThickness pr).2._lastPressure = (s._computeThickness pr).2._lastPressure := by
  unfold _computeThickness _computeThicknessWithPressure
  rw [ho, ht, hp]
  split <;> exact ⟨rfl, by first | rfl | exact hp⟩

/-- The arrays after an accepted call: the position array is the one `emitRung`
leaves, the UV array and its cursor are the ones the UV policy leaves. -/
theorem addPoint_arrays (sqrt : K → K) (s : BrushHelper K) (p : Vector3 K)
    (q : THREE.Quaternion K) (pr : K) (h : s.tooClose sqrt p = false) :
    (s.addPoint sqrt p q pr)._vertices =
      ((s._computeUV s.uvBound pr).emitRung p q s._verticesCount pr)._vertices ∧
    (s.addPoint sqrt p q pr)._uvs = (s._computeUV s.uvBound pr)._uvs ∧
    (s.addPoint sqrt p q pr)._uv = (s._computeUV s.uvBound pr)._uv := by
  unfold addPoint
  simp [h, processPoint_fields, computeUV_fields]

/-- The six cells `emitRung` writes, and the cells it leaves alone. -/
theorem emitRung_vertices (s : BrushHelper K) (p : Vector3 K) (q : THREE.Quaternion K)
    (c : Nat) (pr : K) (hb : c + 6 ≤ s._vertices.length) :
    Vector3.fromArray (s.emitRung p q c pr)._vertices c =
      p.sub (((Vector3.mk 1 0 0).applyQuaternion q).multiplyScalar (s._computeThickness pr).1) ∧
    Vector3.fromArray (s.emitRung p q c pr)._vertices (c + 3) =
      p.add (((Vector3.mk 1 0 0).applyQuaternion q).multiplyScalar (s._computeThickness pr).1) ∧
    (∀ i, i < c ∨ c + 6 ≤ i →
      (s.emitRung p q c pr)._vertices.read i = s._vertices.read i) ∧
    (s.emitRung p q c pr)._vertices.length = s._vertices.length := by
  have hv := (computeThickness_fields s pr).2.2.2.2.2.1
  unfold emitRung
  generalize s._computeThickness pr = r at hv ⊢
  obtain ⟨t, s'⟩ := r
  simp only at hv
  have hb' : c + 6 ≤ s'._vertices.length := by rw [hv]; exact hb
  refine ⟨?_, ?_, ?_, ?_⟩
  · simp only [Vector3.fromArray, Float32Array.read_write, Float32Array.write_length,
      Vector3.sub]
    have h0 : c < s'._vertices.length := by omega
    have h1 : c + 1 < s'._vertices.length := by omega
    have h2 : c + 2 < s'._vertices.length := by omega
    simp [h0, h1, h2]
  · simp only [Vector3.fromArray, Float32Array.read_write, Float32Array.write_length,
      Vector3.add]
    have h3 : c + 3 < s'._vertices.length := by omega
    have h4 : c + 4 < s'._vertices.length := by omega
    have h5 : c + 5 < s'._vertices.length := by omega
    simp [h3, h4, h5, Nat.add_assoc]
  · intro i hi
    simp only [Float32Array.read_write, Float32Array.write_length]
    have e0 : i ≠ c := by omega
    have e1 : i ≠ c + 1 := by omega
    have e2 : i ≠ c + 2 := by omega
    have e3 : i ≠ c + 3 := by omega
    have e4 : i ≠ c + 4 := by omega
    have e5 : i ≠ c + 5 := by omega
    simp [e0, e1, e2, e3, e4, e5, hv]
  · simp only [Float32Array.write_length, hv]

/-- The capped pressure of line 263 is `min pressure 0.8`. -/
theorem cap_eq_min (p : K) : (if p ≥ 0.8 then (0.8 : K) else p) = min p 0.8 := by
  by_cases h : p ≥ 0.8
  · rw [if_pos h, min_eq_right h]
  · rw [if_neg h, min_eq_left (le_of_lt (not_le.mp h))]

/-- Four consecutive pushes: the cursor, the length and the cells afterwards. -/
theorem push4 (s : BrushHelper K) (a b c d : K) :
    ((((s.pushUV a).pushUV b).pushUV c).pushUV d)._uv = s._uv + 4 ∧
    ((((s.pushUV a).pushUV b).pushUV c).pushUV d)._uvs.length = s._uvs.length ∧
    (∀ k, k < s._uv ∨ s._uv + 4 ≤ k →
      ((((s.pushUV a).pushUV b).pushUV c).pushUV d)._uvs.read k = s._uvs.read k) ∧
    (s._uv + 4 ≤ s._uvs.length →
      ((((s.pushUV a).pushUV b).pushUV c).pushUV d)._uvs.read s._uv = a ∧
      ((((s.pushUV a).pushUV b).pushUV c).pushUV d)._uvs.read (s._uv + 1) = b ∧
      ((((s.pushUV a).pushUV b).pushUV c).pushUV d)._uvs.read (s._uv + 2) = c ∧
      ((((s.pushUV a).pushUV b).pushUV c).pushUV d)._uvs.read (s._uv + 3) = d) := by
  refine ⟨rfl, ?_, ?_, ?_⟩
  · simp only [pushUV, Float32Array.write_length]
  · intro k hk
    simp only [pushUV, Float32Array.write_length, Float32Array.read_write]
    have e0 : k ≠ s._uv := by omega
    have e1 : k ≠ s._uv + 1 := by omega
    have e2 : k ≠ s._uv + 1 + 1 := by omega
    have e3 : k ≠ s._uv + 1 + 1 + 1 := by omega
    simp [e0, e1, e2, e3]
  · intro hb
    simp only [pushUV, Float32Array.write_length, Float32Array.read_write]
    have h0 : s._uv < s._uvs.length := by omega
    have h1 : s._uv + 1 < s._uvs.length := by omega
    have h2 : s._uv + 1 + 1 < s._uvs.length := by omega
    have h3 : s._uv + 1 + 1 + 1 < s._uvs.length := by omega
    simp [h0, h1, h2, h3, Nat.add_assoc]

/-- The UV loop keeps the length of the UV array. -/
theorem uvLoop_length (max : K) (fuel : Nat) : ∀ (i : Nat) (s : BrushHelper K),
    (uvLoop max fuel i s)._uvs.length = s._uvs.length := by
  induction fuel with
  | zero => intro i s; rfl
  | succ f ih =>
    intro i s
    unfold uvLoop
    by_cases hi : (i : K) ≤ max
    · rw [if_pos hi, ih, (push4 s _ _ _ _).2.1]
    · rw [if_neg hi]

/-- The UV loop never touches a cell below the cursor it starts from. -/
theorem uvLoop_below (max : K) (fuel : Nat) : ∀ (i : Nat) (s : BrushHelper K) (k : Nat),
    k < s._uv → (uvLoop max fuel i s)._uvs.read k = s._uvs.read k := by
  induction fuel with
  | zero => intro i s k _; rfl
  | succ f ih =>
    intro i s k hk
    unfold uvLoop
    by_cases hi : (i : K) ≤ max
    · obtain ⟨p1, -, p3, -⟩ := push4 s ((i : K) / max) 0 ((i : K) / max) 1
      rw [if_pos hi, ih _ _ k (by rw [p1]; omega), p3 k (Or.inl hk)]
    · rw [if_neg hi]

/-- What the UV loop writes: started at counter `i` with the cursor at `4 * i`, it
fills the four cells of every rung `j` with `i ≤ j < i + fuel` and `j ≤ max`
that lies inside the array. -/
theorem uvLoop_written (max : K) (fuel : Nat) : ∀ (i : Nat) (s : BrushHelper K),
    s._uv = 4 * i → ∀ j, i ≤ j → j < i + fuel → (j : K) ≤ max → 4 * j + 4 ≤ s._uvs.length →
    (uvLoop max fuel i s)._uvs.read (4 * j) = (j : K) / max ∧
    (uvLoop max fuel i s)._uvs.read (4 * j + 1) = 0 ∧
    (uvLoop max fuel i s)._uvs.read (4 * j + 2) = (j : K) / max ∧
    (uvLoop max fuel i s)._uvs.read (4 * j + 3) = 1 := by
  induction fuel with
  | zero => intro i s _ j h1 h2; omega
  | succ f ih =>
    intro i s hs j hij hjf hj hlen
    have hi : (i : K) ≤ max := le_trans (by exact_mod_cast hij) hj
    obtain ⟨p1, p2, -, p4⟩ := push4 s ((i : K) / max) 0 ((i : K) / max) 1
    unfold uvLoop
    rw [if_pos hi]
    by_cases hji : j = i
    · subst hji
      have hb : s._uv + 4 ≤ s._uvs.length := by omega
      obtain ⟨w0, w1, w2, w3⟩ := p4 hb
      rw [hs] at w0 w1 w2 w3
      rw [uvLoop_below _ _ _ _ _ (by rw [p1]; omega), uvLoop_below _ _ _ _ _ (by rw [p1]; omega),
        uvLoop_below _ _ _ _ _ (by rw [p1]; omega), uvLoop_below _ _ _ _ _ (by rw [p1]; omega)]
      exact ⟨w0, w1, w2, w3⟩
    · exact ih (i + 1) _ (by rw [p1, hs]; ring) j (by omega) (by omega) hj (by rw [p2]; exact hlen)

/-- Fuel beyond `⌊max⌋ + 1 - i` is never used: the loop has already left through
its guard `i <= max`. -/
theorem uvLoop_fuel (max : K) (fuel : Nat) : ∀ (i : Nat) (s : BrushHelper K),
    ⌊max⌋₊ < i + fuel → uvLoop max (fuel + 1) i s = uvLoop max fuel i s := by
  induction fuel with
  | zero =>
    intro i s h
    have hi : ¬ (i : K) ≤ max := fun hle => by
      have := Nat.le_floor hle
      omega
    show (if (i : K) ≤ max then _ else s) = s
    rw [if_neg hi]
  | succ f ih =>
    intro i s h
    show (if (i : K) ≤ max then uvLoop max (f + 1) (i + 1) _ else s) =
      (if (i : K) ≤ max then uvLoop max f (i + 1) _ else s)
    by_cases hi : (i : K) ≤ max
    · rw [if_pos hi, if_pos hi]
      exact ih (i + 1) _ (by omega)
    · rw [if_neg hi, if_neg hi]

/-- The fuel `⌊max⌋ + 1` of `_computeUVWithoutPressure` is enough: any larger
amount gives the same result. -/
theorem computeUVWithoutPressure_fuel (s : BrushHelper K) (max : K) (extra : Nat) :
    uvLoop max (⌊max⌋₊ + 1 + extra) 0 { s with _uv := 0 } = s._computeUVWithoutPressure max := by
  induction extra with
  | zero => rfl
  | succ e ih =>
    rw [← ih]
    exact uvLoop_fuel max (⌊max⌋₊ + 1 + e) 0 _ (by omega)

/-- The bound handed to the UV policy when `maxSpread ≥ 1` and the segment holds
`r` rungs: the larger of `maxSpread` and `r`. -/
theorem uvBound_eq (s : BrushHelper K) (r : Nat) (hm : 1 ≤ s.options.maxSpread)
    (hr : s._verticesCount = 6 * r) :
    s.uvBound = ((max s.options.maxSpread r : Nat) : K) := by
  unfold uvBound
  have h6 : ((6 * r : Nat) : K) / 6 = (r : K) := by
    push_cast
    field_simp
  rw [hr, h6]
  by_cases h : s.options.maxSpread ≤ r
  · have hc : (r : K) ≥ (s.options.maxSpread : K) := by exact_mod_cast h
    rw [if_pos ⟨hm, hc⟩, max_eq_right h]
  · have hc : ¬ (r : K) ≥ (s.options.maxSpread : K) := by
      intro hc
      exact h (by exact_mod_cast hc)
    rw [if_neg (fun hh => hc hh.2), max_eq_left (by omega)]

/-- Neither UV policy changes the length of the UV array. -/
theorem computeUV_length (s : BrushHelper K) (max p : K) :
    (s._computeUV max p)._uvs.length = s._uvs.length := by
  unfold _computeUV
  split
  · exact (push4 s p 0 p 1).2.1
  · unfold _computeUVWithoutPressure
    rw [uvLoop_length]

/-- The position array keeps its length through `emitRung`. -/
theorem emitRung_length (s : BrushHelper K) (p : Vector3 K) (q : THREE.Quaternion K)
    (c : Nat) (pr : K) : (s.emitRung p q c pr)._vertices.length = s._vertices.length := by
  have hv := (computeThickness_fields s pr).2.2.2.2.2.1
  unfold emitRung
  generalize s._computeThickness pr = r at hv ⊢
  simp only [Float32Array.write_length, hv]

/-- Writing a normal keeps the length of the normal array. -/
theorem writeNormal_length (a : Float32Array K) (nc : Nat) (n : Vector3 K) :
    (writeNormal a nc n).length = a.length := by
  simp only [writeNormal, writeTriple, Float32Array.write_length]

/-- The normal array keeps its length through `_processPoint`. -/
theorem processPoint_normals_length (sqrt : K → K) (s : BrushHelper K) (p : Vector3 K)
    (q : THREE.Quaternion K) (vc nc : Nat) (pr : K) :
    (s._processPoint sqrt p q vc nc pr)._normals.length = s._normals.length := by
  have hn := (emitRung_fields s p q vc pr).2.2.2.2.2.1
  have hraw : (s.processPointRaw p q vc nc pr)._normals.length = s._normals.length := by
    unfold processPointRaw
    generalize s.emitRung p q vc pr = e at hn ⊢
    by_cases hg : e._verticesCount ≥ 3 * 4
    · rw [if_pos hg]
      simp only [writeNormal_length, hn]
    · rw [if_neg hg, hn]
  unfold _processPoint
  generalize s.processPointRaw p q vc nc pr = e at hraw ⊢
  by_cases hg : s._verticesCount ≥ 3 * 4
  · rw [if_pos hg]
    exact hraw
  · rw [if_neg hg]
    exact hraw

/-- A call of `addPoint`, accepted or not, keeps the configuration and the
lengths of the three arrays. -/
theorem addPoint_static (sqrt : K → K) (s : BrushHelper K) (p : Vector3 K)
    (q : THREE.Quaternion K) (pr : K) :
    (s.addPoint sqrt p q pr).options = s.options ∧
    (s.addPoint sqrt p q pr)._delta = s._delta ∧
    (s.addPoint sqrt p q pr)._vboLimit = s._vboLimit ∧
    (s.addPoint sqrt p q pr)._thickness = s._thickness ∧
    (s.addPoint sqrt p q pr)._vertices.length = s._vertices.length ∧
    (s.addPoint sqrt p q pr)._normals.length = s._normals.length ∧
    (s.addPoint sqrt p q pr)._uvs.length = s._uvs.length := by
  cases h : s.tooClose sqrt p
  · have ha := addPoint_accept sqrt s p q pr h
    have hr := addPoint_arrays sqrt s p q pr h
    refine ⟨ha.2.2.2.2.2.1, ha.2.2.2.2.1, ha.2.2.2.2.2.2.1, ha.2.2.2.2.2.2.2, ?_, ?_, ?_⟩
    · rw [hr.1, emitRung_length, (computeUV_fields s s.uvBound pr).2.2.2.2.2.1]
    · unfold addPoint
      simp only [h, Bool.false_eq_true, if_false]
      simp only [processPoint_normals_length, (computeUV_fields s s.uvBound pr).2.2.2.2.2.2.1]
    · rw [hr.2.1, computeUV_length]
  · rw [addPoint_reject sqrt s p q pr h]
    exact ⟨rfl, rfl, rfl, rfl, rfl, rfl, rfl⟩

/-- With a spacing `_delta ≤ 0` and a square root that is never negative no
sample is too close. -/
theorem tooClose_of_delta_nonpos (sqrt : K → K) (hs : ∀ x, 0 ≤ sqrt x) (s : BrushHelper K)
    (hd : s._delta ≤ 0) (p : Vector3 K) : s.tooClose sqrt p = false := by
  unfold tooClose
  cases s._lastPoint with
  | none => rfl
  | some last =>
    simp only [decide_eq_false_iff_not, not_lt]
    exact le_trans hd (hs _)

/-- One written triple: the length, the triple itself, the other cells. -/
theorem writeTriple_spec (a : Float32Array K) (c : Nat) (n : Vector3 K) :
    (writeTriple a c n).length = a.length ∧
    (c + 3 ≤ a.length → Vector3.fromArray (writeTriple a c n) c = n) ∧
    (∀ i, i < c ∨ c + 3 ≤ i → (writeTriple a c n).read i = a.read i) ∧
    (∀ d, d + 3 ≤ c ∨ c + 3 ≤ d →
      Vector3.fromArray (writeTriple a c n) d = Vector3.fromArray a d) := by
  have hother : ∀ i, i < c ∨ c + 3 ≤ i → (writeTriple a c n).read i = a.read i := by
    intro i hi
    simp only [writeTriple, Float32Array.read_write, Float32Array.write_length]
    have e0 : i ≠ c := by omega
    have e1 : i ≠ c + 1 := by omega
    have e2 : i ≠ c + 2 := by omega
    simp [e0, e1, e2]
  refine ⟨?_, ?_, hother, ?_⟩
  · simp only [writeTriple, Float32Array.write_length]
  · intro hb
    simp only [writeTriple, Vector3.fromArray, Float32Array.read_write,
      Float32Array.write_length]
    have h0 : c < a.length := by omega
    have h1 : c + 1 < a.length := by omega
    have h2 : c + 2 < a.length := by omega
    simp [h0, h1, h2]
  · intro d hd
    unfold Vector3.fromArray
    rw [hother d (by omega), hother (d + 1) (by omega), hother (d + 2) (by omega)]

/-- The normal written six times: each of the six triples from `normalsCount` on
holds `n` when the eighteen cells exist, and no other cell changes. -/
theorem writeNormal_spec (a : Float32Array K) (c : Nat) (n : Vector3 K) :
    (c + 18 ≤ a.length → ∀ t, t < 6 → Vector3.fromArray (writeNormal a c n) (c + 3 * t) = n) ∧
    (∀ i, i < c ∨ c + 18 ≤ i → (writeNormal a c n).read i = a.read i) := by
  constructor
  · intro hb t ht
    unfold writeNormal
    have L := fun (b : Float32Array K) (d : Nat) => (writeTriple_spec b d n).1
    have W := fun (b : Float32Array K) (d : Nat) => (writeTriple_spec b d n).2.1
    have O := fun (b : Float32Array K) (d : Nat) => (writeTriple_spec b d n).2.2.2
    interval_cases t
    · rw [O _ _ _ (by omega), O _ _ _ (by omega), O _ _ _ (by omega), O _ _ _ (by omega),
        O _ _ _ (by omega)]
      exact W _ _ (by omega)
    · rw [O _ _ _ (by omega), O _ _ _ (by omega), O _ _ _ (by omega), O _ _ _ (by omega)]
      exact W _ _ (by rw [L]; omega)
    · rw [O _ _ _ (by omega), O _ _ _ (by omega), O _ _ _ (by omega)]
      exact W _ _ (by rw [L, L]; omega)
    · rw [O _ _ _ (by omega), O _ _ _ (by omega)]
      exact W _ _ (by rw [L, L, L]; omega)
    · rw [O _ _ _ (by omega)]
      exact W _ _ (by rw [L, L, L, L]; omega)
    · exact W _ _ (by rw [L, L, L, L, L]; omega)
  · intro i hi
    unfold writeNormal
    have O := fun (b : Float32Array K) (d : Nat) => (writeTriple_spec b d n).2.2.1
    rw [O _ _ i (by omega), O _ _ i (by omega), O _ _ i (by omega), O _ _ i (by omega),
      O _ _ i (by omega), O _ _ i (by omega)]

/-- The normal array and the normal cursor after an accepted call: untouched while
the segment holds fewer than two rungs; from then on the averaged normal is written
at the cursor, the whole array is normalised and the cursor advances by six. -/
theorem addPoint_normals (sqrt : K → K) (s : BrushHelper K) (p : Vector3 K)
    (q : THREE.Quaternion K) (pr : K) (h : s.tooClose sqrt p = false) :
    (s._verticesCount < 12 →
      (s.addPoint sqrt p q pr)._normals = s._normals ∧
      (s.addPoint sqrt p q pr)._normalsCount = s._normalsCount) ∧
    (12 ≤ s._verticesCount →
      ((s._computeUV s.uvBound pr).processPointRaw p q s._verticesCount s._normalsCount
        pr)._normals =
        writeNormal s._normals s._normalsCount
          (smoothedNormal (s.addPoint sqrt p q pr)._vertices (s._verticesCount + 6)
            (it (s._verticesCount + 6))) ∧
      (s.addPoint sqrt p q pr)._normals =
        normalizeNormals sqrt ((s._computeUV s.uvBound pr).processPointRaw p q s._verticesCount
          s._normalsCount pr)._normals ∧
      (s.addPoint sqrt p q pr)._normalsCount = s._normalsCount + 6) := by
  have hu := computeUV_fields s s.uvBound pr
  have hv := (addPoint_arrays sqrt s p q pr h).1
  have he := emitRung_fields (s._computeUV s.uvBound pr) p q s._verticesCount pr
  have hadd : (s.addPoint sqrt p q pr)._normals =
      ((s._computeUV s.uvBound pr)._processPoint sqrt p q s._verticesCount s._normalsCount
        pr)._normals ∧
      (s.addPoint sqrt p q pr)._normalsCount =
      ((s._computeUV s.uvBound pr)._processPoint sqrt p q s._verticesCount s._normalsCount
        pr)._normalsCount := by
    unfold addPoint
    simp [h, hu]
  rw [hadd.1, hadd.2, hv]
  unfold _processPoint processPointRaw
  simp only [he.2.1, hu.2.1]
  generalize (s._computeUV s.uvBound pr).emitRung p q s._verticesCount pr = e at he ⊢
  have hn : e._normals = s._normals := he.2.2.2.2.2.1.trans hu.2.2.2.2.2.2.1
  have hc : e._normalsCount = s._normalsCount := he.2.2.1.trans hu.2.2.1
  constructor
  · intro hlt
    have hg : ¬ s._verticesCount ≥ 3 * 4 := by omega
    rw [if_neg hg, if_neg hg]
    exact ⟨hn, hc⟩
  · intro hge
    have hg : s._verticesCount ≥ 3 * 4 := by omega
    rw [if_pos hg, if_pos hg]
    refine ⟨?_, rfl, ?_⟩
    · show writeNormal e._normals _ _ = _
      rw [hn]
    · show e._normalsCount + 3 * 2 = _
      rw [hc]

end BrushHelper

/-- A sequence of calls keeps the configuration and the lengths of the arrays. -/
theorem run_static (sqrt : K → K) (s : BrushHelper K) (cs : List (Sample K)) :
    (run sqrt s cs).options = s.options ∧
    (run sqrt s cs)._delta = s._delta ∧
    (run sqrt s cs)._vboLimit = s._vboLimit ∧
    (run sqrt s cs)._thickness = s._thickness ∧
    (run sqrt s cs)._vertices.length = s._vertices.length ∧
    (run sqrt s cs)._normals.length = s._normals.length ∧
    (run sqrt s cs)._uvs.length = s._uvs.length := by
  induction cs generalizing s with
  | nil => exact ⟨rfl, rfl, rfl, rfl, rfl, rfl, rfl⟩
  | cons c cs ih =>
    unfold run
    have h := BrushHelper.addPoint_static sqrt s c.position c.orientation c.pressure
    have h2 := ih (s.addPoint sqrt c.position c.orientation c.pressure)
    exact ⟨h2.1.trans h.1, h2.2.1.trans h.2.1, h2.2.2.1.trans h.2.2.1,
      h2.2.2.2.1.trans h.2.2.2.1, h2.2.2.2.2.1.trans h.2.2.2.2.1,
      h2.2.2.2.2.2.1.trans h.2.2.2.2.2.1, h2.2.2.2.2.2.2.trans h.2.2.2.2.2.2⟩

/-- With a spacing `_delta ≤ 0` every call of a sequence is accepted. -/
theorem accepted_all (sqrt : K → K) (hs : ∀ x, 0 ≤ sqrt x) (s : BrushHelper K)
    (hd : s._delta ≤ 0) (cs : List (Sample K)) : accepted sqrt s cs = cs := by
  induction cs generalizing s with
  | nil => rfl
  | cons c cs ih =>
    unfold accepted
    rw [BrushHelper.tooClose_of_delta_nonpos sqrt hs s hd]
    simp only [Bool.false_eq_true, if_false]
    rw [ih _ (by rw [(BrushHelper.addPoint_static sqrt s _ _ _).2.1]; exact hd)]

/-- The look-back window never exceeds three triangles. -/
theorem it_le_three (vc : Nat) : BrushHelper.it vc ≤ 3 := by
  unfold BrushHelper.it
  split
  · omega
  · split <;> omega

/-- The normal cursor on a fresh segment: it starts to move with the third
accepted sample, six cells per sample. -/
theorem run_normalsCount (sqrt : K → K) (cs : List (Sample K)) : ∀ (s : BrushHelper K) (k : Nat),
    s._verticesCount = 6 * k → s._normalsCount = 6 * (k - 2) →
    (run sqrt s cs)._normalsCount = 6 * (k + (accepted sqrt s cs).length - 2) := by
  induction cs with
  | nil => intro s k _ hn; simpa [run, accepted] using hn
  | cons c cs ih =>
    intro s k hv hn
    cases ht : s.tooClose sqrt c.position
    · have hacc : accepted sqrt s (c :: cs) =
          c :: accepted sqrt (s.addPoint sqrt c.position c.orientation c.pressure) cs := by
        rw [accepted, ht]
        rfl
      have ha := BrushHelper.addPoint_accept sqrt s c.position c.orientation c.pressure ht
      have hN := BrushHelper.addPoint_normals sqrt s c.position c.orientation c.pressure ht
      have hn1 : (s.addPoint sqrt c.position c.orientation c.pressure)._normalsCount =
          6 * (k + 1 - 2) := by
        by_cases h12 : 12 ≤ s._verticesCount
        · rw [(hN.2 h12).2.2, hn]; omega
        · rw [(hN.1 (by omega)).2, hn]; omega
      have := ih (s.addPoint sqrt c.position c.orientation c.pressure) (k + 1)
        (by rw [ha.1, hv]; ring) hn1
      rw [hacc, List.length_cons]
      show (run sqrt (s.addPoint sqrt c.position c.orientation c.pressure) cs)._normalsCount = _
      rw [this]
      congr 2
      omega
    · have hacc : accepted sqrt s (c :: cs) = accepted sqrt s cs := by
        rw [accepted, ht]
        rfl
      have hrun : run sqrt s (c :: cs) = run sqrt s cs := by
        show run sqrt (s.addPoint sqrt c.position c.orientation c.pressure) cs = _
        rw [BrushHelper.addPoint_reject sqrt s _ _ _ ht]
      rw [hacc, hrun]
      exact ih s k hv hn

/-- The state after the first `n` samples of the straight stroke on a fresh
segment configured by `denseOptions`. -/
theorem denseRun_fields (n : Nat) :
    (run Real.sqrt (BrushHelper.construct (denseOptions : Options ℝ)).createMesh
      (strokeSamples n)).options = denseOptions ∧
    (run Real.sqrt (BrushHelper.construct (denseOptions : Options ℝ)).createMesh
      (strokeSamples n))._verticesCount = 6 * n ∧
    (run Real.sqrt (BrushHelper.construct (denseOptions : Options ℝ)).createMesh
      (strokeSamples n))._uvs.length = 40000 ∧
    ∀ p, (run Real.sqrt (BrushHelper.construct (denseOptions : Options ℝ)).createMesh
      (strokeSamples n)).tooClose Real.sqrt p = false := by
  have hs := run_static Real.sqrt (BrushHelper.construct (denseOptions : Options ℝ)).createMesh
    (strokeSamples n)
  have hc := run_cursors Real.sqrt (BrushHelper.construct (denseOptions : Options ℝ)).createMesh
    (strokeSamples n)
  have hd : (BrushHelper.construct (denseOptions : Options ℝ)).createMesh._delta ≤ 0 :=
    le_refl (0 : ℝ)
  rw [accepted_all Real.sqrt Real.sqrt_nonneg _ hd] at hc
  refine ⟨hs.1, ?_, hs.2.2.2.2.2.2, fun p => ?_⟩
  · have hl : (strokeSamples n : List (Sample ℝ)).length = n := by
      unfold strokeSamples
      rw [List.length_map, List.length_range]
    rw [hc.1, hl]
    exact Nat.zero_add _
  · exact BrushHelper.tooClose_of_delta_nonpos Real.sqrt Real.sqrt_nonneg _
      (by rw [hs.2.1]; exact hd) p

/-- The UV array and its cursor after an accepted call under the pressure policy:
four pushes `pressure, 0, pressure, 1`. -/
theorem addPoint_uv_pressure (sqrt : K → K) (s : BrushHelper K) (p : Vector3 K)
    (q : THREE.Quaternion K) (pr : K) (hp : s.options.enablePressure = true)
    (h : s.tooClose sqrt p = false) :
    (s.addPoint sqrt p q pr)._uv = s._uv + 4 ∧
    (s.addPoint sqrt p q pr)._uvs.length = s._uvs.length ∧
    (∀ k, k < s._uv ∨ s._uv + 4 ≤ k →
      (s.addPoint sqrt p q pr)._uvs.read k = s._uvs.read k) ∧
    (s._uv + 4 ≤ s._uvs.length →
      (s.addPoint sqrt p q pr)._uvs.read s._uv = pr ∧
      (s.addPoint sqrt p q pr)._uvs.read (s._uv + 1) = 0 ∧
      (s.addPoint sqrt p q pr)._uvs.read (s._uv + 2) = pr ∧
      (s.addPoint sqrt p q pr)._uvs.read (s._uv + 3) = 1) := by
  have ha := BrushHelper.addPoint_arrays sqrt s p q pr h
  have hc : s._computeUV s.uvBound pr = (((s.pushUV pr).pushUV 0).pushUV pr).pushUV 1 := by
    unfold BrushHelper._computeUV
    rw [hp]
    rfl
  rw [ha.2.1, ha.2.2, hc]
  exact BrushHelper.push4 s pr 0 pr 1

/-- The UV array under the pressure policy after a sequence of calls from any
state: the cursor advances by four per accepted call, the `j`-th accepted call
fills the four cells at `_uv + 4j`, and every other cell is left alone. -/
theorem run_uv_pressure (sqrt : K → K) (cs : List (Sample K)) : ∀ (s : BrushHelper K),
    s.options.enablePressure = true →
    (run sqrt s cs)._uv = s._uv + 4 * (accepted sqrt s cs).length ∧
    (∀ k, k < s._uv ∨ s._uv + 4 * (accepted sqrt s cs).length ≤ k →
      (run sqrt s cs)._uvs.read k = s._uvs.read k) ∧
    (∀ j c, (accepted sqrt s cs)[j]? = some c → s._uv + 4 * j + 4 ≤ s._uvs.length →
      (run sqrt s cs)._uvs.read (s._uv + 4 * j) = c.pressure ∧
      (run sqrt s cs)._uvs.read (s._uv + 4 * j + 1) = 0 ∧
      (run sqrt s cs)._uvs.read (s._uv + 4 * j + 2) = c.pressure ∧
      (run sqrt s cs)._uvs.read (s._uv + 4 * j + 3) = 1) := by
  induction cs with
  | nil =>
    intro s _
    refine ⟨rfl, fun _ _ => rfl, ?_⟩
    intro j c hj
    simp [accepted] at hj
  | cons c cs ih =>
    intro s hp
    cases ht : s.tooClose sqrt c.position
    · obtain ⟨u1, u2, u3, u4⟩ :=
        addPoint_uv_pressure sqrt s c.position c.orientation c.pressure hp ht
      have hp1 : (s.addPoint sqrt c.position c.orientation c.pressure).options.enablePressure
          = true := by
        rw [(BrushHelper.addPoint_static sqrt s _ _ _).1]; exact hp
      obtain ⟨i1, i2, i3⟩ := ih (s.addPoint sqrt c.position c.orientation c.pressure) hp1
      have hacc : accepted sqrt s (c :: cs) =
          c :: accepted sqrt (s.addPoint sqrt c.position c.orientation c.pressure) cs := by
        rw [accepted, ht]
        rfl
      have hrun : run sqrt s (c :: cs) =
          run sqrt (s.addPoint sqrt c.position c.orientation c.pressure) cs := rfl
      rw [hacc, hrun]
      rw [u1] at i1 i2 i3
      rw [u2] at i3
      refine ⟨?_, ?_, ?_⟩
      · rw [i1, List.length_cons]; ring
      · intro k hk
        rw [List.length_cons] at hk
        rw [i2 k (by omega), u3 k (by omega)]
      · intro j d hj hb
        cases j with
        | zero =>
          simp only [List.getElem?_cons_zero, Option.some.injEq] at hj
          subst hj
          obtain ⟨w0, w1, w2, w3⟩ := u4 (by omega)
          rw [i2 _ (by omega), i2 _ (by omega), i2 _ (by omega), i2 _ (by omega)]
          exact ⟨w0, w1, w2, w3⟩
        | succ j =>
          simp only [List.getElem?_cons_succ] at hj
          have := i3 j d hj (by omega)
          have e : s._uv + 4 + 4 * j = s._uv + 4 * (j + 1) := by ring
          rw [e] at this
          exact this
    · have hacc : accepted sqrt s (c :: cs) = accepted sqrt s cs := by
        rw [accepted, ht]
        rfl
      have hrun : run sqrt s (c :: cs) = run sqrt s cs := by
        show run sqrt (s.addPoint sqrt c.position c.orientation c.pressure) cs = _
        rw [BrushHelper.addPoint_reject sqrt s _ _ _ ht]
      rw [hacc, hrun]
      exact ih s hp

/-- Accumulating with `add` from a start value is adding the sum of the list. -/
theorem foldl_add_eq (l : List (Vector3 K)) : ∀ z : Vector3 K,
    l.foldl (fun n v => n.add v) z = z.add (vectorSum l) := by
  induction l with
  | nil =>
    intro z
    obtain ⟨x, y, w⟩ := z
    simp [vectorSum, Vector3.add]
  | cons v l ih =>
    intro z
    rw [List.foldl_cons, ih, vectorSum]
    obtain ⟨x, y, w⟩ := z
    simp only [Vector3.add, Vector3.mk.injEq]
    exact ⟨by ring, by ring, by ring⟩

/-- The accumulator of `_processPoint` is the window average of the specification
when the local cursor stands at `3 * m` and the window fits (`T + 2 ≤ m`). -/
theorem smoothedNormal_eq (a : Float32Array K) (m T : Nat) (hm : T + 2 ≤ m) :
    BrushHelper.smoothedNormal a (3 * m) T = windowNormal a m T := by
  unfold BrushHelper.smoothedNormal windowNormal Vector3.divideScalar
  congr 1
  have hf : ∀ z : Vector3 K, (List.range T).foldl
      (fun (n : Vector3 K) j => n.add (BrushHelper.triangleCross a (3 * m) (3 * j))) z =
      ((List.range T).map fun j => BrushHelper.triangleCross a (3 * m) (3 * j)).foldl
        (fun n v => n.add v) z := by
    intro z
    rw [List.foldl_map]
  rw [hf, foldl_add_eq]
  have hz : ∀ v : Vector3 K, (Vector3.mk 0 0 0 : Vector3 K).add v = v := by
    intro v
    obtain ⟨x, y, w⟩ := v
    simp [Vector3.add]
  rw [hz]
  congr 1
  apply List.map_congr_left
  intro j hj
  have hjT : j < T := List.mem_range.mp hj
  unfold BrushHelper.triangleCross vertexAt
  have e0 : 3 * m - 9 - 3 * j = 3 * (m - 3 - j) := by omega
  have e1 : 3 * m - 6 - 3 * j = 3 * (m - 2 - j) := by omega
  have e2 : 3 * m - 3 - 3 * j = 3 * (m - 1 - j) := by omega
  rw [e0, e1, e2]

/-- The arrays and the normal cursor after the first `n` samples of the straight
stroke on a fresh segment configured by `denseOptions`. -/
theorem denseRun_normals (n : Nat) :
    (run Real.sqrt (BrushHelper.construct (denseOptions : Options ℝ)).createMesh
      (strokeSamples n))._vertices.length = 90000 ∧
    (run Real.sqrt (BrushHelper.construct (denseOptions : Options ℝ)).createMesh
      (strokeSamples n))._normals.length = 90000 ∧
    (run Real.sqrt (BrushHelper.construct (denseOptions : Options ℝ)).createMesh
      (strokeSamples n))._normalsCount = 6 * (n - 2) := by
  have hs := run_static Real.sqrt (BrushHelper.construct (denseOptions : Options ℝ)).createMesh
    (strokeSamples n)
  have hn := run_normalsCount Real.sqrt (strokeSamples n)
    (BrushHelper.construct (denseOptions : Options ℝ)).createMesh 0 rfl rfl
  rw [accepted_all Real.sqrt Real.sqrt_nonneg _ (le_refl (0 : ℝ))] at hn
  have hl : (strokeSamples n : List (Sample ℝ)).length = n := by
    unfold strokeSamples
    rw [List.length_map, List.length_range]
  rw [hl, Nat.zero_add] at hn
  exact ⟨hs.2.2.2.2.1, hs.2.2.2.2.2.1, hn⟩

/-- The accepted samples of a run keep their distance: each one is at distance at
least `_delta` from the one accepted before it, and the first one from the last
point the helper remembers. -/
theorem accepted_chain (sqrt : K → K) (cs : List (Sample K)) : ∀ (s : BrushHelper K),
    (∀ l, s._lastPoint = some l → ∀ a ∈ (accepted sqrt s cs).head?,
      s._delta ≤ l.distanceTo sqrt a.position) ∧
    List.Chain' (fun a b : Sample K => s._delta ≤ a.position.distanceTo sqrt b.position)
      (accepted sqrt s cs) := by
  induction cs with
  | nil =>
    intro s
    exact ⟨fun l _ a ha => by simp [accepted] at ha, List.chain'_nil⟩
  | cons c cs ih =>
    intro s
    cases ht : s.tooClose sqrt c.position
    · have hacc : accepted sqrt s (c :: cs) =
          c :: accepted sqrt (s.addPoint sqrt c.position c.orientation c.pressure) cs := by
        rw [accepted, ht]
        rfl
      have ha := BrushHelper.addPoint_accept sqrt s c.position c.orientation c.pressure ht
      obtain ⟨i1, i2⟩ := ih (s.addPoint sqrt c.position c.orientation c.pressure)
      rw [ha.2.2.2.2.1] at i1 i2
      rw [hacc]
      refine ⟨?_, ?_⟩
      · intro l hl a hmem
        simp only [List.head?_cons, Option.mem_def, Option.some.injEq] at hmem
        subst hmem
        have : ¬ l.distanceTo sqrt c.position < s._delta := by
          intro hlt
          simp [BrushHelper.tooClose, hl, hlt] at ht
        exact not_lt.mp this
      · rw [List.chain'_cons']
        exact ⟨fun b hb => i1 c.position ha.2.2.2.1 b hb, i2⟩
    · have hacc : accepted sqrt s (c :: cs) = accepted sqrt s cs := by
        rw [accepted, ht]
        rfl
      rw [hacc]
      exact ih s

/-- With `maxSpread = 0` the bound of lines 144-147 is 0 whatever the segment holds:
the test `maxSpread > 0` fails and `max` keeps the value `maxSpread`. -/
theorem BrushHelper.uvBound_zero (s : BrushHelper K) (h : s.options.maxSpread = 0) : s.uvBound = 0 := by
  unfold BrushHelper.uvBound
  rw [h, if_neg (fun hh => Nat.lt_irrefl 0 hh.1)]
  exact Nat.cast_zero

/-- The axis `(1, 0, 0)` rotated by a quaternion of norm 1 has squared length 1;
in general its squared length is the fourth power of the norm of the quaternion. -/
theorem applyQuaternion_axis_sq (q : THREE.Quaternion K) :
    ((Vector3.mk 1 0 0 : Vector3 K).applyQuaternion q).x *
        ((Vector3.mk 1 0 0 : Vector3 K).applyQuaternion q).x +
      ((Vector3.mk 1 0 0 : Vector3 K).applyQuaternion q).y *
        ((Vector3.mk 1 0 0 : Vector3 K).applyQuaternion q).y +
      ((Vector3.mk 1 0 0 : Vector3 K).applyQuaternion q).z *
        ((Vector3.mk 1 0 0 : Vector3 K).applyQuaternion q).z =
      (q.x * q.x + q.y * q.y + q.z * q.z + q.w * q.w) ^ 2 := by
  simp only [Vector3.applyQuaternion]
  ring

/-- The two vertices `p - t a` and `p + t a` of a rung with a unit axis `a`:
squared distance `(2t)^2`, equal exactly when `t = 0`. -/
theorem rung_apart (p a : Vector3 K) (t : K) (ha : a.x * a.x + a.y * a.y + a.z * a.z = 1) :
    (p.sub (a.multiplyScalar t)).distanceToSquared (p.add (a.multiplyScalar t)) =
      (2 * t) * (2 * t) ∧
    (p.sub (a.multiplyScalar t) = p.add (a.multiplyScalar t) ↔ t = 0) := by
  have hd : (p.sub (a.multiplyScalar t)).distanceToSquared (p.add (a.multiplyScalar t)) =
      (2 * t) * (2 * t) := by
    simp only [Vector3.distanceToSquared, Vector3.sub, Vector3.add, Vector3.multiplyScalar]
    linear_combination (4 * t * t) * ha
  refine ⟨hd, ?_, ?_⟩
  · intro he
    rw [he] at hd
    have h0 : (p.add (a.multiplyScalar t)).distanceToSquared (p.add (a.multiplyScalar t)) = 0 := by
      simp only [Vector3.distanceToSquared]
      ring
    rw [h0] at hd
    have : (2 * t) = 0 := by
      rcases mul_self_eq_zero.mp hd.symm with h
      exact h
    linarith
  · intro ht
    subst ht
    simp [Vector3.sub, Vector3.add, Vector3.multiplyScalar]

/-- Under the constant-thickness policy `addPoint` ignores its pressure argument. -/
theorem BrushHelper.addPoint_pressure_indep (sqrt : K → K) (s : BrushHelper K) (p : Vector3 K)
    (q : THREE.Quaternion K) (pr₁ pr₂ : K) (hp : s.options.enablePressure = false) :
    s.addPoint sqrt p q pr₁ = s.addPoint sqrt p q pr₂ := by
  have hu : ∀ m, s._computeUV m pr₁ = s._computeUV m pr₂ := by
    intro m
    unfold BrushHelper._computeUV
    rw [hp]
    rfl
  have ht : ∀ u : BrushHelper K, u.options.enablePressure = false →
      u._computeThickness pr₁ = u._computeThickness pr₂ := by
    intro u hu'
    unfold BrushHelper._computeThickness
    rw [hu']
    rfl
  have he : ∀ (u : BrushHelper K) (c : Nat), u.options.enablePressure = false →
      u.emitRung p q c pr₁ = u.emitRung p q c pr₂ := by
    intro u c hu'
    unfold BrushHelper.emitRung
    rw [ht u hu']
  have hr : ∀ (u : BrushHelper K) (c n : Nat), u.options.enablePressure = false →
      u.processPointRaw p q c n pr₁ = u.processPointRaw p q c n pr₂ := by
    intro u c n hu'
    unfold BrushHelper.processPointRaw
    rw [he u c hu']
  have hpp : ∀ (u : BrushHelper K) (c n : Nat), u.options.enablePressure = false →
      u._processPoint sqrt p q c n pr₁ = u._processPoint sqrt p q c n pr₂ := by
    intro u c n hu'
    unfold BrushHelper._processPoint
    rw [hr u c n hu']
  have ho : (s._computeUV s.uvBound pr₂).options.enablePressure = false := by
    rw [(BrushHelper.computeUV_fields s s.uvBound pr₂).1]
    exact hp
  unfold BrushHelper.addPoint
  simp only [hu, fun c n => hpp (s._computeUV s.uvBound pr₂) c n ho]

/-- Every call keeps the configuration. -/
theorem Op.apply_options (sqrt : K → K) (s : BrushHelper K) (o : Op K) :
    (o.apply sqrt s).options = s.options := by
  cases o with
  | createMesh => rfl
  | addPoint p q pr => exact (BrushHelper.addPoint_static sqrt s p q pr).1
  | setThickness v => rfl

/-- Under the constant-thickness policy two call sequences that differ only in
the pressure arguments lead to the same state. -/
theorem exec_pressure_indep (sqrt : K → K) (os₁ os₂ : List (Op K))
    (hsame : List.Forall₂ Op.samePressureless os₁ os₂) : ∀ s : BrushHelper K,
    s.options.enablePressure = false → exec sqrt s os₁ = exec sqrt s os₂ := by
  induction hsame with
  | nil => intro s _; rfl
  | @cons a b l₁ l₂ hab _ ih =>
    intro s hp
    have hstep : a.apply sqrt s = b.apply sqrt s := by
      cases a <;> cases b <;> simp only [Op.samePressureless] at hab
      · rfl
      · obtain ⟨h1, h2⟩ := hab
        subst h1 h2
        exact BrushHelper.addPoint_pressure_indep sqrt s _ _ _ _ hp
      · subst hab
        rfl
    show exec sqrt (a.apply sqrt s) l₁ = exec sqrt (b.apply sqrt s) l₂
    rw [hstep]
    exact ih _ (by rw [Op.apply_options]; exact hp)

/-- A write at or beyond the end of the array is dropped: the array is unchanged. -/
theorem write_of_length_le (a : Float32Array K) (i : Nat) (v : K) (h : a.length ≤ i) :
    a.write i v = a := by
  unfold Float32Array.write
  rw [if_neg (by omega)]

/-- With the vertex cursor at or beyond the end of the position array `emitRung`
writes nothing. -/
theorem BrushHelper.emitRung_full (s : BrushHelper K) (p : Vector3 K) (q : THREE.Quaternion K)
    (c : Nat) (pr : K) (h : s._vertices.length ≤ c) :
    (s.emitRung p q c pr)._vertices = s._vertices := by
  have hv := (BrushHelper.computeThickness_fields s pr).2.2.2.2.2.1
  unfold BrushHelper.emitRung
  generalize s._computeThickness pr = r at hv ⊢
  obtain ⟨t, s'⟩ := r
  simp only at hv
  have h' : s'._vertices.length ≤ c := by rw [hv]; exact h
  simp only
  rw [write_of_length_le _ c _ h', write_of_length_le _ (c + 1) _ (by omega),
    write_of_length_le _ (c + 2) _ (by omega), write_of_length_le _ (c + 3) _ (by omega),
    write_of_length_le _ (c + 4) _ (by omega), write_of_length_le _ (c + 5) _ (by omega), hv]

/-- With the UV cursor at or beyond the end of the UV array four pushes write nothing. -/
theorem BrushHelper.push4_full (s : BrushHelper K) (a b c d : K) (h : s._uvs.length ≤ s._uv) :
    ((((s.pushUV a).pushUV b).pushUV c).pushUV d)._uvs = s._uvs := by
  simp only [BrushHelper.pushUV]
  rw [write_of_length_le _ s._uv _ h, write_of_length_le _ (s._uv + 1) _ (by omega),
    write_of_length_le _ (s._uv + 1 + 1) _ (by omega),
    write_of_length_le _ (s._uv + 1 + 1 + 1) _ (by omega)]

/-- The state after the first `n` samples of the straight stroke on a fresh
segment configured by `pressureOptions`. -/
theorem pressureRun_fields (n : Nat) :
    (run Real.sqrt (BrushHelper.construct (pressureOptions : Options ℝ)).createMesh
      (strokeSamples n)).options = pressureOptions ∧
    (run Real.sqrt (BrushHelper.construct (pressureOptions : Options ℝ)).createMesh
      (strokeSamples n))._verticesCount = 6 * n ∧
    (run Real.sqrt (BrushHelper.construct (pressureOptions : Options ℝ)).createMesh
      (strokeSamples n))._uvCount = 4 * n ∧
    (run Real.sqrt (BrushHelper.construct (pressureOptions : Options ℝ)).createMesh
      (strokeSamples n))._uv = 4 * n ∧
    (run Real.sqrt (BrushHelper.construct (pressureOptions : Options ℝ)).createMesh
      (strokeSamples n))._uvs.length = 40000 ∧
    (run Real.sqrt (BrushHelper.construct (pressureOptions : Options ℝ)).createMesh
      (strokeSamples n))._vertices.length = 90000 ∧
    ∀ p, (run Real.sqrt (BrushHelper.construct (pressureOptions : Options ℝ)).createMesh
      (strokeSamples n)).tooClose Real.sqrt p = false := by
  have hs := run_static Real.sqrt
    (BrushHelper.construct (pressureOptions : Options ℝ)).createMesh (strokeSamples n)
  have hc := run_cursors Real.sqrt
    (BrushHelper.construct (pressureOptions : Options ℝ)).createMesh (strokeSamples n)
  have hu := (run_uv_pressure Real.sqrt (strokeSamples n)
    (BrushHelper.construct (pressureOptions : Options ℝ)).createMesh rfl).1
  have hd : (BrushHelper.construct (pressureOptions : Options ℝ)).createMesh._delta ≤ 0 :=
    le_refl (0 : ℝ)
  have hl : (strokeSamples n : List (Sample ℝ)).length = n := by
    unfold strokeSamples
    rw [List.length_map, List.length_range]
  rw [accepted_all Real.sqrt Real.sqrt_nonneg _ hd, hl] at hc hu
  refine ⟨hs.1, ?_, ?_, ?_, hs.2.2.2.2.2.2, hs.2.2.2.2.1, fun p => ?_⟩
  · rw [hc.1]; exact Nat.zero_add _
  · rw [hc.2]; exact Nat.zero_add _
  · rw [hu]; exact Nat.zero_add _
  · exact BrushHelper.tooClose_of_delta_nonpos Real.sqrt Real.sqrt_nonneg _
      (by rw [hs.2.1]; exact hd) p

/-- Whatever the capacity, `emitRung` leaves every position cell outside the six
at the cursor alone. -/
theorem BrushHelper.emitRung_other (s : BrushHelper K) (p : Vector3 K) (q : THREE.Quaternion K)
    (c : Nat) (pr : K) (i : Nat) (hi : i < c ∨ c + 6 ≤ i) :
    (s.emitRung p q c pr)._vertices.read i = s._vertices.read i := by
  have hv := (BrushHelper.computeThickness_fields s pr).2.2.2.2.2.1
  unfold BrushHelper.emitRung
  generalize s._computeThickness pr = r at hv ⊢
  obtain ⟨t, s'⟩ := r
  simp only at hv
  simp only [Float32Array.read_write, Float32Array.write_length]
  have e0 : i ≠ c := by omega
  have e1 : i ≠ c + 1 := by omega
  have e2 : i ≠ c + 2 := by omega
  have e3 : i ≠ c + 3 := by omega
  have e4 : i ≠ c + 4 := by omega
  have e5 : i ≠ c + 5 := by omega
  simp [e0, e1, e2, e3, e4, e5, hv]

/-- The position array after an accepted call: the rung at the cursor (when its six
cells exist), every other cell as before. -/
theorem BrushHelper.addPoint_vertices (sqrt : K → K) (s : BrushHelper K) (p : Vector3 K)
    (q : THREE.Quaternion K) (pr : K) (hacc : s.tooClose sqrt p = false) :
    (∀ i, i < s._verticesCount ∨ s._verticesCount + 6 ≤ i →
      (s.addPoint sqrt p q pr)._vertices.read i = s._vertices.read i) ∧
    (s._verticesCount + 6 ≤ s._vertices.length →
      Vector3.fromArray (s.addPoint sqrt p q pr)._vertices s._verticesCount =
        p.sub (((Vector3.mk 1 0 0).applyQuaternion q).multiplyScalar
          (s._computeThickness pr).1) ∧
      Vector3.fromArray (s.addPoint sqrt p q pr)._vertices (s._verticesCount + 3) =
        p.add (((Vector3.mk 1 0 0).applyQuaternion q).multiplyScalar
          (s._computeThickness pr).1)) := by
  have hu := BrushHelper.computeUV_fields s s.uvBound pr
  have ha := (BrushHelper.addPoint_arrays sqrt s p q pr hacc).1
  constructor
  · intro i hi
    rw [ha, BrushHelper.emitRung_other _ _ _ _ _ i hi, hu.2.2.2.2.2.1]
  · intro hb
    have he := BrushHelper.emitRung_vertices (s._computeUV s.uvBound pr) p q s._verticesCount pr
      (by rw [hu.2.2.2.2.2.1]; exact hb)
    have ht := (BrushHelper.computeThickness_congr s (s._computeUV s.uvBound pr) pr hu.1
      hu.2.2.2.2.2.2.2.2.2.2.1 hu.2.2.2.2.2.2.2.2.2.1).1
    rw [ht, ← ha] at he
    exact ⟨he.1, he.2.1⟩

/-- A run never touches a position cell below the vertex cursor it starts from. -/
theorem run_vertices_below (sqrt : K → K) (cs : List (Sample K)) : ∀ (s : BrushHelper K) (i : Nat),
    i < s._verticesCount → (run sqrt s cs)._vertices.read i = s._vertices.read i := by
  induction cs with
  | nil => intro s i _; rfl
  | cons c cs ih =>
    intro s i hi
    show (run sqrt (s.addPoint sqrt c.position c.orientation c.pressure) cs)._vertices.read i = _
    cases ht : s.tooClose sqrt c.position
    · have ha := BrushHelper.addPoint_accept sqrt s c.position c.orientation c.pressure ht
      rw [ih _ i (by rw [ha.1]; omega),
        (BrushHelper.addPoint_vertices sqrt s _ _ _ ht).1 i (Or.inl hi)]
    · rw [BrushHelper.addPoint_reject sqrt s _ _ _ ht]
      exact ih s i hi

/-- The position array after a run under the constant-thickness policy: the `j`-th
accepted sample `c` left the rung `c.position ∓ _thickness * rotate(c.orientation,
(1,0,0))` in the six cells at `_verticesCount + 6j` (when they exist). -/
theorem run_vertices_const (sqrt : K → K) (cs : List (Sample K)) : ∀ (s : BrushHelper K),
    s.options.enablePressure = false →
    ∀ j c, (accepted sqrt s cs)[j]? = some c →
      s._verticesCount + 6 * j + 6 ≤ s._vertices.length →
      Vector3.fromArray (run sqrt s cs)._vertices (s._verticesCount + 6 * j) =
        c.position.sub (((Vector3.mk 1 0 0).applyQuaternion c.orientation).multiplyScalar
          s._thickness) ∧
      Vector3.fromArray (run sqrt s cs)._vertices (s._verticesCount + 6 * j + 3) =
        c.position.add (((Vector3.mk 1 0 0).applyQuaternion c.orientation).multiplyScalar
          s._thickness) := by
  induction cs with
  | nil =>
    intro s _ j c hj
    simp [accepted] at hj
  | cons c cs ih =>
    intro s hp j d hj hb
    show Vector3.fromArray (run sqrt (s.addPoint sqrt c.position c.orientation c.pressure)
        cs)._vertices _ = _ ∧
      Vector3.fromArray (run sqrt (s.addPoint sqrt c.position c.orientation c.pressure)
        cs)._vertices _ = _
    cases ht : s.tooClose sqrt c.position
    · have hacc : accepted sqrt s (c :: cs) =
          c :: accepted sqrt (s.addPoint sqrt c.position c.orientation c.pressure) cs := by
        rw [accepted, ht]
        rfl
      rw [hacc] at hj
      have ha := BrushHelper.addPoint_accept sqrt s c.position c.orientation c.pressure ht
      have hst := BrushHelper.addPoint_static sqrt s c.position c.orientation c.pressure
      have hV := BrushHelper.addPoint_vertices sqrt s c.position c.orientation c.pressure ht
      cases j with
      | zero =>
        simp only [List.getElem?_cons_zero, Option.some.injEq] at hj
        subst hj
        obtain ⟨w1, w2⟩ := hV.2 (by omega)
        have hthk : (s._computeThickness c.pressure).1 = s._thickness := by
          unfold BrushHelper._computeThickness
          rw [hp]
          rfl
        rw [hthk] at w1 w2
        have below := run_vertices_below sqrt cs
          (s.addPoint sqrt c.position c.orientation c.pressure)
        rw [ha.1] at below
        simp only [Nat.mul_zero, Nat.add_zero]
        unfold Vector3.fromArray at w1 w2 ⊢
        rw [below _ (by omega), below _ (by omega), below _ (by omega), below _ (by omega),
          below _ (by omega), below _ (by omega)]
        exact ⟨w1, w2⟩
      | succ j =>
        simp only [List.getElem?_cons_succ] at hj
        have := ih (s.addPoint sqrt c.position c.orientation c.pressure)
          (by rw [hst.1]; exact hp) j d hj (by rw [ha.1, hst.2.2.2.2.1]; omega)
        rw [ha.1, hst.2.2.2.1] at this
        have e : s._verticesCount + 6 + 6 * j = s._verticesCount + 6 * (j + 1) := by ring
        rw [e] at this
        exact this
    · have hacc : accepted sqrt s (c :: cs) = accepted sqrt s cs := by
        rw [accepted, ht]
        rfl
      rw [hacc] at hj
      rw [BrushHelper.addPoint_reject sqrt s _ _ _ ht]
      exact ih s hp j d hj hb

/-- The window average over six vertices with a window of three triangles, written out. -/
theorem windowNormal_six (a : Float32Array K) :
    windowNormal a 6 3 =
      ((((Vector3.fromArray a 9).sub (Vector3.fromArray a 12)).cross
          ((Vector3.fromArray a 15).sub (Vector3.fromArray a 12))).add
        ((((Vector3.fromArray a 6).sub (Vector3.fromArray a 9)).cross
          ((Vector3.fromArray a 12).sub (Vector3.fromArray a 9))).add
        ((((Vector3.fromArray a 3).sub (Vector3.fromArray a 6)).cross
          ((Vector3.fromArray a 9).sub (Vector3.fromArray a 6))).add
          ⟨0, 0, 0⟩))).multiplyScalar (1 / ((3 : Nat) : K)) := rfl

/-- A complete triple of the normal array after `normalizeNormals`: the old triple
times `1 / sqrt` of its squared length. -/
theorem normalizeNormals_triple (sqrt : K → K) (a : Float32Array K) (k : Nat)
    (hb : 3 * k + 3 ≤ a.length) :
    Vector3.fromArray (normalizeNormals sqrt a) (3 * k) =
      (Vector3.fromArray a (3 * k)).multiplyScalar
        (1 / sqrt ((Vector3.fromArray a (3 * k)).x * (Vector3.fromArray a (3 * k)).x +
          (Vector3.fromArray a (3 * k)).y * (Vector3.fromArray a (3 * k)).y +
          (Vector3.fromArray a (3 * k)).z * (Vector3.fromArray a (3 * k)).z)) := by
  have h0 : 3 * k < 3 * (a.length / 3) := by omega
  have h1 : 3 * k + 1 < 3 * (a.length / 3) := by omega
  have h2 : 3 * k + 2 < 3 * (a.length / 3) := by omega
  have d0 : 3 * (3 * k / 3) = 3 * k := by omega
  have d1 : 3 * ((3 * k + 1) / 3) = 3 * k := by omega
  have d2 : 3 * ((3 * k + 2) / 3) = 3 * k := by omega
  simp only [normalizeNormals, Vector3.fromArray, Float32Array.read, Vector3.multiplyScalar,
    h0, h1, h2, d0, d1, d2, if_true]

/-- Over the reals a vector that is not zero, scaled by `1 / sqrt` of its squared
length, has length 1. -/
theorem length_normalized (v : Vector3 ℝ) (hv : v ≠ ⟨0, 0, 0⟩) :
    (v.multiplyScalar (1 / Real.sqrt (v.x * v.x + v.y * v.y + v.z * v.z))).length Real.sqrt =
      1 := by
  obtain ⟨x, y, z⟩ := v
  have hpos : 0 < x * x + y * y + z * z := by
    rcases lt_or_eq_of_le (by nlinarith [mul_self_nonneg x, mul_self_nonneg y, mul_self_nonneg z] :
        0 ≤ x * x + y * y + z * z) with h | h
    · exact h
    · exfalso
      apply hv
      have hx : x = 0 := by nlinarith [mul_self_nonneg x, mul_self_nonneg y, mul_self_nonneg z]
      have hy : y = 0 := by nlinarith [mul_self_nonneg x, mul_self_nonneg y, mul_self_nonneg z]
      have hz : z = 0 := by nlinarith [mul_self_nonneg x, mul_self_nonneg y, mul_self_nonneg z]
      rw [hx, hy, hz]
  have hs : 0 < Real.sqrt (x * x + y * y + z * z) := Real.sqrt_pos.mpr hpos
  have hss : Real.sqrt (x * x + y * y + z * z) * Real.sqrt (x * x + y * y + z * z) =
      x * x + y * y + z * z := Real.mul_self_sqrt (le_of_lt hpos)
  simp only [Vector3.length, Vector3.multiplyScalar]
  have : x * (1 / Real.sqrt (x * x + y * y + z * z)) *
        (x * (1 / Real.sqrt (x * x + y * y + z * z))) +
      y * (1 / Real.sqrt (x * x + y * y + z * z)) *
        (y * (1 / Real.sqrt (x * x + y * y + z * z))) +
      z * (1 / Real.sqrt (x * x + y * y + z * z)) *
        (z * (1 / Real.sqrt (x * x + y * y + z * z))) = 1 := by
    field_simp
  rw [this, Real.sqrt_one]

/-- The normal triples an accepted sample leaves behind once the segment holds
`r ≥ 2` rungs: each of the six triples from the normal cursor on is the window
average `n`, scaled by `1 / sqrt` of its squared length. -/
theorem BrushHelper.addPoint_normal_triple (sqrt : K → K) (s : BrushHelper K) (p : Vector3 K)
    (q : THREE.Quaternion K) (pr : K) (r a : Nat) (hacc : s.tooClose sqrt p = false)
    (hr : s._verticesCount = 6 * r) (h2 : 2 ≤ r) (h3 : s._normalsCount = 3 * a)
    (hbn : s._normalsCount + 18 ≤ s._normals.length) (t : Nat) (ht : t < 6) :
    Vector3.fromArray (s.addPoint sqrt p q pr)._normals (s._normalsCount + 3 * t) =
      (windowNormal (s.addPoint sqrt p q pr)._vertices (2 * r + 2)
        (BrushHelper.it (6 * r + 6))).multiplyScalar
        (1 / sqrt
          ((windowNormal (s.addPoint sqrt p q pr)._vertices (2 * r + 2)
              (BrushHelper.it (6 * r + 6))).x *
            (windowNormal (s.addPoint sqrt p q pr)._vertices (2 * r + 2)
              (BrushHelper.it (6 * r + 6))).x +
          (windowNormal (s.addPoint sqrt p q pr)._vertices (2 * r + 2)
              (BrushHelper.it (6 * r + 6))).y *
            (windowNormal (s.addPoint sqrt p q pr)._vertices (2 * r + 2)
              (BrushHelper.it (6 * r + 6))).y +
          (windowNormal (s.addPoint sqrt p q pr)._vertices (2 * r + 2)
              (BrushHelper.it (6 * r + 6))).z *
            (windowNormal (s.addPoint sqrt p q pr)._vertices (2 * r + 2)
              (BrushHelper.it (6 * r + 6))).z)) := by
  obtain ⟨n1, n2, -⟩ := (BrushHelper.addPoint_normals sqrt s p q pr hacc).2 (by omega)
  have hsm : BrushHelper.smoothedNormal (s.addPoint sqrt p q pr)._vertices (s._verticesCount + 6)
      (BrushHelper.it (s._verticesCount + 6)) =
      windowNormal (s.addPoint sqrt p q pr)._vertices (2 * r + 2)
        (BrushHelper.it (6 * r + 6)) := by
    have e : s._verticesCount + 6 = 3 * (2 * r + 2) := by omega
    have e' : 6 * r + 6 = 3 * (2 * r + 2) := by omega
    rw [e, e']
    exact smoothedNormal_eq _ _ _ (by have := it_le_three (3 * (2 * r + 2)); omega)
  rw [hsm] at n1
  have hw := (BrushHelper.writeNormal_spec s._normals s._normalsCount
    (windowNormal (s.addPoint sqrt p q pr)._vertices (2 * r + 2)
      (BrushHelper.it (6 * r + 6)))).1 hbn t ht
  have hl := BrushHelper.writeNormal_length s._normals s._normalsCount
    (windowNormal (s.addPoint sqrt p q pr)._vertices (2 * r + 2)
      (BrushHelper.it (6 * r + 6)))
  rw [← n1] at hw hl
  have e : s._normalsCount + 3 * t = 3 * (a + t) := by omega
  rw [n2, e, normalizeNormals_triple sqrt _ (a + t) (by rw [hl]; omega), ← e, hw]

/-- The state after any run on a fresh segment configured by `denseOptions`:
every sample is accepted. -/
theorem denseRun_of (cs : List (Sample ℝ)) :
    (run Real.sqrt (BrushHelper.construct (denseOptions : Options ℝ)).createMesh cs).options =
      denseOptions ∧
    (run Real.sqrt (BrushHelper.construct (denseOptions : Options ℝ)).createMesh
      cs)._verticesCount = 6 * cs.length ∧
    (run Real.sqrt (BrushHelper.construct (denseOptions : Options ℝ)).createMesh
      cs)._normalsCount = 6 * (cs.length - 2) ∧
    (run Real.sqrt (BrushHelper.construct (denseOptions : Options ℝ)).createMesh
      cs)._vertices.length = 90000 ∧
    (run Real.sqrt (BrushHelper.construct (denseOptions : Options ℝ)).createMesh
      cs)._normals.length = 90000 ∧
    (run Real.sqrt (BrushHelper.construct (denseOptions : Options ℝ)).createMesh
      cs)._uvs.length = 40000 ∧
    (∀ p, (run Real.sqrt (BrushHelper.construct (denseOptions : Options ℝ)).createMesh
      cs).tooClose Real.sqrt p = false) ∧
    (∀ j c, cs[j]? = some c → 6 * j + 6 ≤ 90000 →
      Vector3.fromArray
        (run Real.sqrt (BrushHelper.construct (denseOptions : Options ℝ)).createMesh
          cs)._vertices (6 * j) =
        c.position.sub ((Vector3.mk 1 0 0).applyQuaternion c.orientation) ∧
      Vector3.fromArray
        (run Real.sqrt (BrushHelper.construct (denseOptions : Options ℝ)).createMesh
          cs)._vertices (6 * j + 3) =
        c.position.add ((Vector3.mk 1 0 0).applyQuaternion c.orientation)) := by
  have hs := run_static Real.sqrt (BrushHelper.construct (denseOptions : Options ℝ)).createMesh cs
  have hc := run_cursors Real.sqrt (BrushHelper.construct (denseOptions : Options ℝ)).createMesh
    cs
  have hn := run_normalsCount Real.sqrt cs
    (BrushHelper.construct (denseOptions : Options ℝ)).createMesh 0 rfl rfl
  have hd : (BrushHelper.construct (denseOptions : Options ℝ)).createMesh._delta ≤ 0 :=
    le_refl (0 : ℝ)
  have hall := accepted_all Real.sqrt Real.sqrt_nonneg _ hd cs
  have hV := run_vertices_const Real.sqrt cs
    (BrushHelper.construct (denseOptions : Options ℝ)).createMesh rfl
  rw [hall] at hc hn hV
  rw [Nat.zero_add] at hn
  refine ⟨hs.1, ?_, hn, hs.2.2.2.2.1, hs.2.2.2.2.2.1, hs.2.2.2.2.2.2, fun p => ?_, ?_⟩
  · rw [hc.1]; exact Nat.zero_add _
  · exact BrushHelper.tooClose_of_delta_nonpos Real.sqrt Real.sqrt_nonneg _
      (by rw [hs.2.1]; exact hd) p
  · intro j c hj hb
    have h1 : (BrushHelper.construct (denseOptions : Options ℝ)).createMesh._thickness = 1 := by
      show (2 : ℝ) / 2 = 1
      norm_num
    have hm : ∀ v : Vector3 ℝ, v.multiplyScalar 1 = v := by
      intro v
      obtain ⟨x, y, z⟩ := v
      simp [Vector3.multiplyScalar]
    have := hV j c hj (by show 0 + 6 * j + 6 ≤ 90000; omega)
    rw [h1, hm] at this
    have e0 : (BrushHelper.construct (denseOptions : Options ℝ)).createMesh._verticesCount +
        6 * j = 6 * j := Nat.zero_add _
    rw [e0] at this
    exact this

/-- The vertices after three samples with the identity orientation on a fresh
segment configured by `denseOptions` (thickness 1): rung `j` is
`(x_j - 1, y_j, z_j)`, `(x_j + 1, y_j, z_j)`. -/
theorem denseRun_three (p₀ p₁ p₂ : Vector3 ℝ) :
    Vector3.fromArray
      ((run Real.sqrt (BrushHelper.construct (denseOptions : Options ℝ)).createMesh
        [⟨p₀, ⟨0, 0, 0, 1⟩, 1⟩, ⟨p₁, ⟨0, 0, 0, 1⟩, 1⟩]).addPoint Real.sqrt p₂ ⟨0, 0, 0, 1⟩
          1)._vertices 3 = ⟨p₀.x + 1, p₀.y, p₀.z⟩ ∧
    Vector3.fromArray
      ((run Real.sqrt (BrushHelper.construct (denseOptions : Options ℝ)).createMesh
        [⟨p₀, ⟨0, 0, 0, 1⟩, 1⟩, ⟨p₁, ⟨0, 0, 0, 1⟩, 1⟩]).addPoint Real.sqrt p₂ ⟨0, 0, 0, 1⟩
          1)._vertices 6 = ⟨p₁.x - 1, p₁.y, p₁.z⟩ ∧
    Vector3.fromArray
      ((run Real.sqrt (BrushHelper.construct (denseOptions : Options ℝ)).createMesh
        [⟨p₀, ⟨0, 0, 0, 1⟩, 1⟩, ⟨p₁, ⟨0, 0, 0, 1⟩, 1⟩]).addPoint Real.sqrt p₂ ⟨0, 0, 0, 1⟩
          1)._vertices 9 = ⟨p₁.x + 1, p₁.y, p₁.z⟩ ∧
    Vector3.fromArray
      ((run Real.sqrt (BrushHelper.construct (denseOptions : Options ℝ)).createMesh
        [⟨p₀, ⟨0, 0, 0, 1⟩, 1⟩, ⟨p₁, ⟨0, 0, 0, 1⟩, 1⟩]).addPoint Real.sqrt p₂ ⟨0, 0, 0, 1⟩
          1)._vertices 12 = ⟨p₂.x - 1, p₂.y, p₂.z⟩ ∧
    Vector3.fromArray
      ((run Real.sqrt (BrushHelper.construct (denseOptions : Options ℝ)).createMesh
        [⟨p₀, ⟨0, 0, 0, 1⟩, 1⟩, ⟨p₁, ⟨0, 0, 0, 1⟩, 1⟩]).addPoint Real.sqrt p₂ ⟨0, 0, 0, 1⟩
          1)._vertices 15 = ⟨p₂.x + 1, p₂.y, p₂.z⟩ := by
  have hV := (denseRun_of [⟨p₀, ⟨0, 0, 0, 1⟩, 1⟩, ⟨p₁, ⟨0, 0, 0, 1⟩, 1⟩,
    ⟨p₂, ⟨0, 0, 0, 1⟩, 1⟩]).2.2.2.2.2.2.2
  have hax : (Vector3.mk 1 0 0 : Vector3 ℝ).applyQuaternion ⟨0, 0, 0, 1⟩ = ⟨1, 0, 0⟩ := by
    simp [Vector3.applyQuaternion]
  have e : run Real.sqrt (BrushHelper.construct (denseOptions : Options ℝ)).createMesh
      [⟨p₀, ⟨0, 0, 0, 1⟩, 1⟩, ⟨p₁, ⟨0, 0, 0, 1⟩, 1⟩, ⟨p₂, ⟨0, 0, 0, 1⟩, 1⟩] =
      (run Real.sqrt (BrushHelper.construct (denseOptions : Options ℝ)).createMesh
        [⟨p₀, ⟨0, 0, 0, 1⟩, 1⟩, ⟨p₁, ⟨0, 0, 0, 1⟩, 1⟩]).addPoint Real.sqrt p₂ ⟨0, 0, 0, 1⟩
          1 := rfl
  rw [e] at hV
  have h0 := hV 0 ⟨p₀, ⟨0, 0, 0, 1⟩, 1⟩ rfl (by decide)
  have h1 := hV 1 ⟨p₁, ⟨0, 0, 0, 1⟩, 1⟩ rfl (by decide)
  have h2 := hV 2 ⟨p₂, ⟨0, 0, 0, 1⟩, 1⟩ rfl (by decide)
  simp only [hax, Vector3.sub, Vector3.add, sub_zero, add_zero] at h0 h1 h2
  exact ⟨h0.2, h1.1, h1.2, h2.1, h2.2⟩

/-- Every cell the UV loop assigns lies below `uv + 4 * fuel`. -/
theorem BrushHelper.uvLoopIndices_lt (max : K) (fuel : Nat) : ∀ (i uv x : Nat),
    x ∈ BrushHelper.uvLoopIndices max fuel i uv → x < uv + 4 * fuel := by
  induction fuel with
  | zero => intro i uv x hx; simp [BrushHelper.uvLoopIndices] at hx
  | succ f ih =>
    intro i uv x hx
    unfold BrushHelper.uvLoopIndices at hx
    by_cases hi : (i : K) ≤ max
    · rw [if_pos hi] at hx
      simp only [List.mem_cons] at hx
      rcases hx with h | h | h | h | h
      · omega
      · omega
      · omega
      · omega
      · have := ih (i + 1) (uv + 4) x h
        omega
    · rw [if_neg hi] at hx
      simp at hx

/-- The UV loop assigns the first cell of every rung `j ≤ max` within its fuel. -/
theorem BrushHelper.mem_uvLoopIndices (max : K) (fuel : Nat) : ∀ (i uv j : Nat),
    i ≤ j → j < i + fuel → (j : K) ≤ max →
    uv + 4 * (j - i) ∈ BrushHelper.uvLoopIndices max fuel i uv := by
  induction fuel with
  | zero => intro i uv j h1 h2; omega
  | succ f ih =>
    intro i uv j hij hjf hj
    have hi : (i : K) ≤ max := le_trans (by exact_mod_cast hij) hj
    unfold BrushHelper.uvLoopIndices
    rw [if_pos hi]
    by_cases hji : j = i
    · subst hji
      simp
    · have := ih (i + 1) (uv + 4) j (by omega) (by omega) hj
      have e : uv + 4 + 4 * (j - (i + 1)) = uv + 4 * (j - i) := by omega
      rw [e] at this
      simp only [List.mem_cons]
      exact Or.inr (Or.inr (Or.inr (Or.inr this)))

/-- One accepted call inside the capacity: with `k < L` rungs in a segment whose
arrays hold `9L`, `9L` and `4L` floats, the UV cursor of the pressure policy at
`4k`, and either the pressure policy or `maxSpread < L`, every cell the call
touches exists. -/
theorem BrushHelper.withinBuffers_of (s : BrushHelper K) (k L : Nat)
    (hv : s._verticesCount = 6 * k) (hn : s._normalsCount = 6 * (k - 2))
    (hu : s.options.enablePressure = true → s._uv = 4 * k)
    (hlv : s._vertices.length = 9 * L) (hln : s._normals.length = 9 * L)
    (hlu : s._uvs.length = 4 * L)
    (hcfg : s.options.enablePressure = true ∨ s.options.maxSpread < L) (hk : k < L) :
    s.withinBuffers := by
  refine ⟨?_, ?_, ?_⟩
  · intro i hi
    unfold BrushHelper.vertexIndices at hi
    rw [List.mem_append] at hi
    rcases hi with hi | hi
    · simp only [List.mem_cons, List.mem_singleton, List.not_mem_nil, or_false] at hi
      omega
    · by_cases hg : s._verticesCount ≥ 3 * 4
      · rw [if_pos hg, List.mem_flatMap] at hi
        obtain ⟨j, hj, hmem⟩ := hi
        have hj3 : j < 3 := lt_of_lt_of_le (List.mem_range.mp hj) (it_le_three _)
        simp only [List.mem_cons, List.mem_singleton, List.not_mem_nil, or_false] at hmem
        omega
      · rw [if_neg hg] at hi
        simp at hi
  · intro i hi
    unfold BrushHelper.normalIndices at hi
    by_cases hg : s._verticesCount ≥ 3 * 4
    · rw [if_pos hg, List.mem_append] at hi
      rcases hi with hi | hi
      · rw [List.mem_map] at hi
        obtain ⟨e, he, rfl⟩ := hi
        have := List.mem_range.mp he
        omega
      · have := List.mem_range.mp hi
        omega
    · rw [if_neg hg] at hi
      simp at hi
  · intro i hi
    unfold BrushHelper.uvIndices at hi
    cases hp : s.options.enablePressure
    · rw [hp] at hi
      simp only [Bool.false_eq_true, if_false] at hi
      have hlt := BrushHelper.uvLoopIndices_lt _ _ _ _ _ hi
      have hms : s.options.maxSpread < L := by
        rcases hcfg with h | h
        · rw [hp] at h; exact absurd h (by decide)
        · exact h
      have hfl : ⌊s.uvBound⌋₊ + 1 ≤ L := by
        by_cases h0 : s.options.maxSpread = 0
        · rw [BrushHelper.uvBound_zero s h0, Nat.floor_zero]
          omega
        · rw [BrushHelper.uvBound_eq s k (by omega) hv, Nat.floor_natCast]
          have : max s.options.maxSpread k < L := max_lt hms hk
          omega
      omega
    · rw [hp] at hi
      simp only [if_true, List.mem_cons, List.mem_singleton, List.not_mem_nil,
        or_false] at hi
      have := hu hp
      omega

/-- A run inside the capacity stays inside the arrays: started with `k` rungs, with
at most `L - k` more samples accepted, every accepted call touches existing cells
only and leaves the draw range within the `3L` allocated vertices. -/
theorem runWithinBuffers_of (sqrt : K → K) (cs : List (Sample K)) : ∀ (s : BrushHelper K)
    (k L : Nat), s._verticesCount = 6 * k → s._normalsCount = 6 * (k - 2) →
    (s.options.enablePressure = true → s._uv = 4 * k) →
    s._vertices.length = 9 * L → s._normals.length = 9 * L → s._uvs.length = 4 * L →
    (s.options.enablePressure = true ∨ s.options.maxSpread < L) →
    k + (accepted sqrt s cs).length ≤ L → runWithinBuffers sqrt s cs := by
  induction cs with
  | nil => intro s k L _ _ _ _ _ _ _ _; trivial
  | cons c cs ih =>
    intro s k L hv hn hu hlv hln hlu hcfg hk
    have hst := BrushHelper.addPoint_static sqrt s c.position c.orientation c.pressure
    cases ht : s.tooClose sqrt c.position
    · have hacc : accepted sqrt s (c :: cs) =
          c :: accepted sqrt (s.addPoint sqrt c.position c.orientation c.pressure) cs := by
        rw [accepted, ht]
        rfl
      rw [hacc, List.length_cons] at hk
      have ha := BrushHelper.addPoint_accept sqrt s c.position c.orientation c.pressure ht
      have hN := BrushHelper.addPoint_normals sqrt s c.position c.orientation c.pressure ht
      refine ⟨fun _ => ⟨BrushHelper.withinBuffers_of s k L hv hn hu hlv hln hlu hcfg (by omega),
        ?_⟩, ?_⟩
      · unfold BrushHelper.drawRangeWithin
        rw [ha.2.2.1, hst.2.2.2.2.1, hlv, hv]
        have e : 9 * L / 3 = 3 * L := by omega
        rw [e]
        have hle : ((2 * k + 2 : Nat) : K) ≤ ((3 * L : Nat) : K) := by
          exact_mod_cast (by omega : 2 * k + 2 ≤ 3 * L)
        have e2 : ((6 * k + 6 : Nat) : K) / 3 = ((2 * k + 2 : Nat) : K) := by
          push_cast
          ring
        simp only [zero_add]
        rw [e2]
        exact hle
      · apply ih _ (k + 1) L
        · rw [ha.1, hv]; ring
        · by_cases h12 : 12 ≤ s._verticesCount
          · rw [(hN.2 h12).2.2, hn]; omega
          · rw [(hN.1 (by omega)).2, hn]; omega
        · intro hp
          rw [hst.1] at hp
          rw [(addPoint_uv_pressure sqrt s c.position c.orientation c.pressure hp ht).1, hu hp]
          ring
        · rw [hst.2.2.2.2.1]; exact hlv
        · rw [hst.2.2.2.2.2.1]; exact hln
        · rw [hst.2.2.2.2.2.2]; exact hlu
        · rw [hst.1]; exact hcfg
        · omega
    · have hacc : accepted sqrt s (c :: cs) = accepted sqrt s cs := by
        rw [accepted, ht]
        rfl
      rw [hacc] at hk
      refine ⟨fun h => absurd (ht.symm.trans h) (by decide), ?_⟩
      rw [BrushHelper.addPoint_reject sqrt s _ _ _ ht]
      exact ih s k L hv hn hu hlv hln hlu hcfg hk

/-- Three cells that agree give the same vector. -/
theorem fromArray_congr (a b : Float32Array K) (c : Nat)
    (h : ∀ i, c ≤ i → i < c + 3 → a.read i = b.read i) :
    Vector3.fromArray a c = Vector3.fromArray b c := by
  unfold Vector3.fromArray
  rw [h c (by omega) (by omega), h (c + 1) (by omega) (by omega),
    h (c + 2) (by omega) (by omega)]

/-- The look-back window at the third rung and later covers three triangles. -/
theorem it_of_ge (vc : Nat) (h : 18 ≤ vc) : BrushHelper.it vc = 3 := by
  unfold BrushHelper.it
  rw [if_neg (by omega), if_neg (by omega)]

/-- The loop of `_processPoint` over a position array whose last five vertices are
`p₁ + o`, `p₂ - o`, `p₂ + o`, `p₃ - o`, `p₃ + o`: the cross products of the two
newest triangles add up to zero and the average of the three is
`(2/3) * (o × (p₂ - p₁))`. -/
theorem smoothedNormal_cancel (V : Float32Array K) (c : Nat) (o p₁ p₂ p₃ : Vector3 K)
    (h1 : Vector3.fromArray V (c + 3) = p₁.add o)
    (h2 : Vector3.fromArray V (c + 6) = p₂.sub o)
    (h3 : Vector3.fromArray V (c + 9) = p₂.add o)
    (h4 : Vector3.fromArray V (c + 12) = p₃.sub o)
    (h5 : Vector3.fromArray V (c + 15) = p₃.add o) :
    (BrushHelper.triangleCross V (c + 18) 0).add (BrushHelper.triangleCross V (c + 18) 3) =
      ⟨0, 0, 0⟩ ∧
    BrushHelper.smoothedNormal V (c + 18) 3 =
      (o.cross (p₂.sub p₁)).multiplyScalar (2 / 3) := by
  have e0 : c + 18 - 9 - 0 = c + 9 := by omega
  have e1 : c + 18 - 6 - 0 = c + 12 := by omega
  have e2 : c + 18 - 3 - 0 = c + 15 := by omega
  have e3 : c + 18 - 9 - 3 = c + 6 := by omega
  have e4 : c + 18 - 6 - 3 = c + 9 := by omega
  have e5 : c + 18 - 3 - 3 = c + 12 := by omega
  have e6 : c + 18 - 9 - 6 = c + 3 := by omega
  have e7 : c + 18 - 6 - 6 = c + 6 := by omega
  have e8 : c + 18 - 3 - 6 = c + 9 := by omega
  have t0 : BrushHelper.triangleCross V (c + 18) 0 =
      ((p₂.add o).sub (p₃.sub o)).cross ((p₃.add o).sub (p₃.sub o)) := by
    unfold BrushHelper.triangleCross
    simp only [e0, e1, e2, h3, h4, h5]
  have t1 : BrushHelper.triangleCross V (c + 18) 3 =
      ((p₂.sub o).sub (p₂.add o)).cross ((p₃.sub o).sub (p₂.add o)) := by
    unfold BrushHelper.triangleCross
    simp only [e3, e4, e5, h2, h3, h4]
  have t2 : BrushHelper.triangleCross V (c + 18) 6 =
      ((p₁.add o).sub (p₂.sub o)).cross ((p₂.add o).sub (p₂.sub o)) := by
    unfold BrushHelper.triangleCross
    simp only [e6, e7, e8, h1, h2, h3]
  have h3K : (3 : K) ≠ 0 := by norm_num
  constructor
  · rw [t0, t1]
    simp only [Vector3.add, Vector3.sub, Vector3.cross, Vector3.mk.injEq]
    exact ⟨by ring, by ring, by ring⟩
  · unfold BrushHelper.smoothedNormal
    have hr : List.range 3 = [0, 1, 2] := rfl
    rw [hr]
    simp only [List.foldl_cons, List.foldl_nil, Nat.mul_zero, Nat.mul_one]
    rw [t0, t1, show 3 * 2 = 6 from rfl, t2]
    simp only [Vector3.add, Vector3.sub, Vector3.cross, Vector3.divideScalar,
      Vector3.multiplyScalar, Vector3.mk.injEq, Nat.cast_ofNat]
    refine ⟨?_, ?_, ?_⟩ <;> field_simp <;> ring

/-- One call of `_computeThicknessWithPressure` from a stored pressure in
`[0, 0.8]` with a pressure `p ≥ 0`: the stored pressure stays in `[0, 0.8]`, the
smoothing factor is in `[0.2, 1]`, the result in `[0, 0.8 * _thickness]`, and
`_thickness` is unchanged. -/
theorem computeThicknessWithPressure_bounds (s : BrushHelper K) (p : K)
    (h0 : 0 ≤ s._lastPressure) (h1 : s._lastPressure ≤ 0.8) (ht : 0 ≤ s._thickness)
    (hp : 0 ≤ p) :
    (0 ≤ (s._computeThicknessWithPressure p).2._lastPressure ∧
      (s._computeThicknessWithPressure p).2._lastPressure ≤ 0.8) ∧
    (0.2 ≤ s.test p ∧ s.test p ≤ 1) ∧
    (0 ≤ (s._computeThicknessWithPressure p).1 ∧
      (s._computeThicknessWithPressure p).1 ≤ 0.8 * s._thickness) ∧
    (s._computeThicknessWithPressure p).2._thickness = s._thickness := by
  have hcap := BrushHelper.cap_eq_min (K := K)
  have c0 : 0 ≤ min p (0.8 : K) := le_min hp (by norm_num)
  have c1 : min p (0.8 : K) ≤ 0.8 := min_le_right _ _
  have habs : |s._lastPressure - min p 0.8| ≤ 0.8 := by
    rw [abs_le]
    constructor <;> linarith
  have hnn : 0 ≤ |s._lastPressure - min p 0.8| := abs_nonneg _
  have f0 : (0.2 : K) ≤ 1 - |s._lastPressure - min p 0.8| := by
    have : (0.2 : K) = 1 - 0.8 := by norm_num
    rw [this]
    linarith
  have f1 : 1 - |s._lastPressure - min p 0.8| ≤ 1 := by linarith
  have f00 : (0 : K) ≤ 1 - |s._lastPressure - min p 0.8| := le_trans (by norm_num) f0
  simp only [BrushHelper._computeThicknessWithPressure, BrushHelper.test, hcap]
  refine ⟨⟨c0, c1⟩, ⟨f0, f1⟩, ⟨?_, ?_⟩, trivial⟩
  · exact mul_nonneg (mul_nonneg (mul_nonneg ht c0) f00) f00
  · have a1 : s._thickness * min p 0.8 ≤ s._thickness * 0.8 :=
      mul_le_mul_of_nonneg_left c1 ht
    have a2 : s._thickness * min p 0.8 * (1 - |s._lastPressure - min p 0.8|) ≤
        s._thickness * min p 0.8 :=
      mul_le_of_le_one_right (mul_nonneg ht c0) f1
    have a3 : s._thickness * min p 0.8 * (1 - |s._lastPressure - min p 0.8|) *
        (1 - |s._lastPressure - min p 0.8|) ≤
        s._thickness * min p 0.8 * (1 - |s._lastPressure - min p 0.8|) :=
      mul_le_of_le_one_right (mul_nonneg (mul_nonneg ht c0) f00) f1
    linarith

/-- The stored pressure after `emitRung` is the one the thickness policy leaves. -/
theorem BrushHelper.emitRung_lastPressure (s : BrushHelper K) (p : Vector3 K)
    (q : THREE.Quaternion K) (vc : Nat) (pr : K) :
    (s.emitRung p q vc pr)._lastPressure = (s._computeThickness pr).2._lastPressure := by
  unfold BrushHelper.emitRung
  generalize s._computeThickness pr = r
  rfl

/-- The stored pressure after a call of `addPoint`: unchanged when the sample is
rejected or the thickness is constant, the capped pressure otherwise. -/
theorem BrushHelper.addPoint_lastPressure (sqrt : K → K) (s : BrushHelper K) (p : Vector3 K)
    (q : THREE.Quaternion K) (pr : K) :
    (s.addPoint sqrt p q pr)._lastPressure = s._lastPressure ∨
    (s.addPoint sqrt p q pr)._lastPressure = min pr 0.8 := by
  have hu := BrushHelper.computeUV_fields s s.uvBound pr
  have hl : ∀ (u : BrushHelper K) (vc nc : Nat),
      (u._processPoint sqrt p q vc nc pr)._lastPressure =
        (u._computeThickness pr).2._lastPressure := by
    intro u vc nc
    rw [← BrushHelper.emitRung_lastPressure u p q vc pr]
    unfold BrushHelper._processPoint BrushHelper.processPointRaw
    generalize u.emitRung p q vc pr = e
    by_cases hg : u._verticesCount ≥ 3 * 4
    · rw [if_pos hg]
      by_cases hg' : e._verticesCount ≥ 3 * 4
      · simp only [if_pos hg']
      · simp only [if_neg hg']
    · rw [if_neg hg]
      by_cases hg' : e._verticesCount ≥ 3 * 4
      · simp only [if_pos hg']
      · simp only [if_neg hg']
  cases h : s.tooClose sqrt p
  · have e : (s.addPoint sqrt p q pr)._lastPressure =
        ((s._computeUV s.uvBound pr)._processPoint sqrt p q
          (s._computeUV s.uvBound pr)._verticesCount
          (s._computeUV s.uvBound pr)._normalsCount pr)._lastPressure := by
      unfold BrushHelper.addPoint
      rw [h]
      rfl
    rw [e, hl]
    have hc := BrushHelper.computeThickness_congr s (s._computeUV s.uvBound pr) pr hu.1
      hu.2.2.2.2.2.2.2.2.2.2.1 hu.2.2.2.2.2.2.2.2.2.1
    rw [hc.2]
    unfold BrushHelper._computeThickness
    by_cases hp : s.options.enablePressure = true
    · rw [if_pos hp]
      right
      simp only [BrushHelper._computeThicknessWithPressure, BrushHelper.cap_eq_min]
    · rw [if_neg hp]
      left
      rfl
  · left
    rw [BrushHelper.addPoint_reject sqrt s p q pr h]

/-- The stored pressure stays in `[0, 0.8]` along any sequence of calls whose
`addPoint` pressures lie in `[0, 1]`. -/
theorem exec_lastPressure (sqrt : K → K) (ops : List (Op K)) : ∀ s : BrushHelper K,
    (∀ p q pr, Op.addPoint p q pr ∈ ops → 0 ≤ pr ∧ pr ≤ 1) →
    0 ≤ s._lastPressure ∧ s._lastPressure ≤ 0.8 →
    0 ≤ (exec sqrt s ops)._lastPressure ∧ (exec sqrt s ops)._lastPressure ≤ 0.8 := by
  induction ops with
  | nil => intro s _ h; exact h
  | cons o os ih =>
    intro s hops h
    show 0 ≤ (exec sqrt (o.apply sqrt s) os)._lastPressure ∧
      (exec sqrt (o.apply sqrt s) os)._lastPressure ≤ 0.8
    apply ih _ (fun p q pr hm => hops p q pr (List.mem_cons_of_mem _ hm))
    cases o with
    | createMesh => exact h
    | setThickness v => exact h
    | addPoint p q pr =>
      have hpr := (hops p q pr (List.mem_cons_self _ _)).1
      rcases BrushHelper.addPoint_lastPressure sqrt s p q pr with e | e
      · show 0 ≤ (s.addPoint sqrt p q pr)._lastPressure ∧ (s.addPoint sqrt p q pr)._lastPressure ≤ 0.8
        rw [e]
        exact h
      · show 0 ≤ (s.addPoint sqrt p q pr)._lastPressure ∧ (s.addPoint sqrt p q pr)._lastPressure ≤ 0.8
        rw [e]
        exact ⟨le_min hpr (by norm_num), min_le_right _ _⟩

/-- Every call of a sequence of `_computeThicknessWithPressure` calls finds a stored
pressure in `[0, 0.8]` and the `_thickness` of the start, when the start has a stored
pressure in `[0, 0.8]` and every pressure lies in `[0, 1]`. -/
theorem thicknessCalls_inv (ps : List K) : ∀ s : BrushHelper K,
    (∀ p ∈ ps, 0 ≤ p ∧ p ≤ 1) → 0 ≤ s._lastPressure → s._lastPressure ≤ 0.8 →
    0 ≤ s._thickness →
    ∀ c ∈ thicknessCalls s ps,
      0 ≤ c.1._lastPressure ∧ c.1._lastPressure ≤ 0.8 ∧ c.1._thickness = s._thickness ∧
      0 ≤ c.2 ∧ c.2 ≤ 1 := by
  induction ps with
  | nil =>
    intro s _ _ _ _ c hc
    simp [thicknessCalls] at hc
  | cons p ps ih =>
    intro s hps h0 h1 ht c hc
    have hp := hps p (List.mem_cons_self _ _)
    have hb := computeThicknessWithPressure_bounds s p h0 h1 ht hp.1
    rw [thicknessCalls, List.mem_cons] at hc
    rcases hc with rfl | hc
    · exact ⟨h0, h1, rfl, hp.1, hp.2⟩
    · have := ih _ (fun x hx => hps x (List.mem_cons_of_mem _ hx)) hb.1.1 hb.1.2
        (by rw [hb.2.2.2]; exact ht) c hc
      rw [hb.2.2.2] at this
      exact this

/-- The loop of `_getNextPowerTwo` started at `2 ^ k` with enough fuel returns a
power of two `2 ^ e ≥ nb` with `e ≥ k`, and `e > k` only if `2 ^ (e - 1) < nb`. -/
theorem PrimitivesRenderer.nextPowerTwoLoop_spec (nb : Int) (fuel : Nat) : ∀ k : Nat,
    (nb - 2 ^ k).toNat + 1 ≤ fuel →
    ∃ e : Nat, k ≤ e ∧ PrimitivesRenderer.nextPowerTwoLoop nb fuel (2 ^ k) = some (2 ^ e) ∧
      nb ≤ 2 ^ e ∧ (k < e → (2 : Int) ^ e < 2 * nb) ∧ ((2 : Int) ^ k ≥ nb → e = k) := by
  induction fuel with
  | zero => intro k h; omega
  | succ fuel ih =>
    intro k h
    have hpos : (0 : Int) < 2 ^ k := by positivity
    by_cases hlt : (2 : Int) ^ k < nb
    · have hk : (2 : Int) ^ (k + 1) = 2 ^ k * 2 := pow_succ 2 k
      obtain ⟨e, he, hr, hge, hlt2, -⟩ := ih (k + 1) (by rw [hk]; omega)
      refine ⟨e, by omega, ?_, hge, fun _ => ?_, fun hc => by omega⟩
      · rw [PrimitivesRenderer.nextPowerTwoLoop, if_pos hlt, ← hk]
        exact hr
      · by_cases h1 : k + 1 < e
        · exact hlt2 h1
        · have : e = k + 1 := by omega
          rw [this, hk]
          omega
    · refine ⟨k, le_refl k, ?_, by omega, fun h => absurd h (lt_irrefl k), fun _ => rfl⟩
      rw [PrimitivesRenderer.nextPowerTwoLoop, if_neg hlt]

/-- One more than an integer's natural part is at least its distance above 1. -/
theorem PrimitivesRenderer.fuel_bound (nb : Int) : (nb - 2 ^ 0).toNat + 1 ≤ nb.toNat + 1 := by
  have : (2 : Int) ^ 0 = 1 := rfl
  rw [this]
  omega

/-- An exponent `e` with `2 ^ e < 2 * nb` (or `e = 0`) is at most every exponent
`e'` with `nb ≤ 2 ^ e'`. -/
theorem PrimitivesRenderer.pow_least (nb : Int) (e e' : Nat)
    (hlt : 0 < e → (2 : Int) ^ e < 2 * nb) (he' : nb ≤ 2 ^ e') : e ≤ e' := by
  by_cases h0 : 0 < e
  · have h2 := hlt h0
    have h3 : (2 : Int) ^ e < 2 ^ (e' + 1) := by
      rw [pow_succ]
      omega
    have h4 : e < e' + 1 := (pow_lt_pow_iff_right₀ (by norm_num : (1 : Int) < 2)).mp h3
    omega
  · omega

/-- The inner loop of `initIndicesArray` appends `i * side + (j - 1)`, ..., `i * side`. -/
theorem PrimitivesRenderer.pushRow_eq (side i : Nat) : ∀ (j : Nat) (acc : List Nat),
    PrimitivesRenderer.pushRow side i j acc =
      acc ++ ((List.range j).map fun t => i * side + t).reverse := by
  intro j
  induction j with
  | zero => intro acc; simp [PrimitivesRenderer.pushRow]
  | succ j ih =>
    intro acc
    rw [PrimitivesRenderer.pushRow, ih, List.range_succ, List.map_append, List.reverse_append,
      List.append_assoc]
    rfl

/-- The outer loop of `initIndicesArray` appends `i * side - 1`, ..., `0`. -/
theorem PrimitivesRenderer.pushRows_eq (side : Nat) : ∀ (i : Nat) (acc : List Nat),
    PrimitivesRenderer.pushRows side i acc = acc ++ (List.range (i * side)).reverse := by
  intro i
  induction i with
  | zero => intro acc; simp [PrimitivesRenderer.pushRows]
  | succ i ih =>
    intro acc
    rw [PrimitivesRenderer.pushRows, ih, PrimitivesRenderer.pushRow_eq, List.append_assoc,
      ← List.reverse_append, Nat.succ_mul, List.range_add]

/-- The index array of a fresh renderer: `side * side - 1` down to `0`. -/
theorem PrimitivesRenderer.construct_eq (side : Nat) :
    PrimitivesRenderer.construct side =
      { _bufferSide := side, _indices := (List.range' 0 (side * side)).reverse } := by
  unfold PrimitivesRenderer.construct PrimitivesRenderer.initIndicesArray
  rw [PrimitivesRenderer.pushRows_eq, List.range_eq_range']
  rfl

/-- One call of `getAvailableIndex` on the array `n + m`, ..., `n + 1`, `n`. -/
theorem PrimitivesRenderer.getAvailableIndex_eq (side n m : Nat) :
    PrimitivesRenderer.getAvailableIndex
      { _bufferSide := side, _indices := (List.range' n (m + 1)).reverse } =
      (some { x := n % side, y := n / side },
        { _bufferSide := side, _indices := (List.range' (n + 1) m).reverse }) := by
  unfold PrimitivesRenderer.getAvailableIndex
  have h : (List.range' n (m + 1)).reverse = (List.range' (n + 1) m).reverse ++ [n] := by
    rw [List.range'_succ, List.reverse_cons]
  simp only [h, List.getLast?_concat, List.dropLast_concat]

/-- The renderer after `n ≤ side * side` calls on a fresh renderer. -/
theorem PrimitivesRenderer.afterCalls_eq (side : Nat) : ∀ n, n ≤ side * side →
    PrimitivesRenderer.afterCalls (PrimitivesRenderer.construct side) n =
      { _bufferSide := side, _indices := (List.range' n (side * side - n)).reverse } := by
  intro n
  induction n with
  | zero => intro _; exact PrimitivesRenderer.construct_eq side
  | succ n ih =>
    intro h
    have e : side * side - n = (side * side - (n + 1)) + 1 := by omega
    rw [PrimitivesRenderer.afterCalls, ih (by omega), e,
      PrimitivesRenderer.getAvailableIndex_eq]

/-- The `n`-th call on a fresh renderer returns cell `n` in row-major order. -/
theorem PrimitivesRenderer.nthCall_eq (side n : Nat) (h : n < side * side) :
    PrimitivesRenderer.nthCall (PrimitivesRenderer.construct side) n =
      some { x := n % side, y := n / side } := by
  have e : side * side - n = (side * side - (n + 1)) + 1 := by omega
  unfold PrimitivesRenderer.nthCall
  rw [PrimitivesRenderer.afterCalls_eq side n (by omega), e,
    PrimitivesRenderer.getAvailableIndex_eq]

/-- The entry of an event id after one `register`. -/
theorem EventDispatcher.register_events {E C : Type} [DecidableEq E] (s : EventDispatcher E C)
    (e' : E) (c : C) (e : E) :
    (s.register e' c)._events e =
      if e = e' then some ((s._events e').getD [] ++ [c]) else s._events e := by
  unfold EventDispatcher.register
  by_cases h : e = e'
  · subst h
    rw [if_pos rfl]
    cases hs : s._events e <;> simp [hs]
  · rw [if_neg h]
    simp [Function.update, h]

/-- What `dispatch` does after one more `register`. -/
theorem EventDispatcher.dispatch_register {E C D : Type} [DecidableEq E]
    (s : EventDispatcher E C) (e' : E) (c : C) (e : E) (d : D) :
    (s.register e' c).dispatch e d = s.dispatch e d ++ (if e' = e then [(c, d)] else []) := by
  unfold EventDispatcher.dispatch
  rw [EventDispatcher.register_events]
  by_cases h : e = e'
  · subst h
    rw [if_pos rfl, if_pos rfl]
    cases hs : s._events e <;> simp
  · rw [if_neg h, if_neg (fun h' => h h'.symm), List.append_nil]

/-- What `dispatch` does after a sequence of `register` calls. -/
theorem EventDispatcher.dispatch_registerAll {E C D : Type} [DecidableEq E] (rs : List (E × C)) :
    ∀ (s : EventDispatcher E C) (e : E) (d : D),
    (s.registerAll rs).dispatch e d =
      s.dispatch e d ++ (rs.filter fun r => decide (r.1 = e)).map fun r => (r.2, d) := by
  induction rs with
  | nil => intro s e d; simp [EventDispatcher.registerAll]
  | cons r rs ih =>
    intro s e d
    rw [EventDispatcher.registerAll, ih, EventDispatcher.dispatch_register, List.append_assoc]
    congr 1
    by_cases h : r.1 = e
    · simp [h]
    · simp [h]

/-- One call of `_triggerBoolButton`, by the stored value `prev` and the reading:
the stored value becomes the reading, the other buttons keep theirs, and the
events are `Down` on `false -> true`, `Up` on `true -> false`, an event without
status on `true -> true` and none on `false -> false`. -/
theorem ViveController.triggerBoolButton_spec (c : ViveController) (b : ButtonID) (v : Bool) :
    ((c._triggerBoolButton b v).1.buttons b).pressed = v ∧
    (∀ b', b' ≠ b → (c._triggerBoolButton b v).1.buttons b' = c.buttons b') ∧
    ((c.buttons b).pressed = false → v = true →
      (c._triggerBoolButton b v).2 = [{ type := b, status := some Status.Down }]) ∧
    ((c.buttons b).pressed = true → v = false →
      (c._triggerBoolButton b v).2 = [{ type := b, status := some Status.Up }]) ∧
    ((c.buttons b).pressed = true → v = true →
      (c._triggerBoolButton b v).2 = [{ type := b, status := none }]) ∧
    ((c.buttons b).pressed = false → v = false → (c._triggerBoolButton b v).2 = []) := by
  unfold ViveController._triggerBoolButton
  cases hp : (c.buttons b).pressed <;> cases v <;> simp [hp, Function.update]
  all_goals
    intro b' hb'
    simp [hb']

/-- The status events of a sequence of readings alternate, starting with `Down`
when the button is stored as released and with `Up` when it is stored as pressed;
the stored value at the end is the last reading. -/
theorem ViveController.feed_spec (b : ButtonID) (vs : List Bool) : ∀ c : ViveController,
    (((c.feed b vs).1.buttons b).pressed = vs.getLast?.getD (c.buttons b).pressed) ∧
    (∀ b', b' ≠ b → (c.feed b vs).1.buttons b' = c.buttons b') ∧
    (∀ e ∈ (c.feed b vs).2, e.type = b) ∧
    (∀ i x, ((c.feed b vs).2.filterMap fun e => e.status)[i]? = some x →
      x = if (decide (i % 2 = 0) != (c.buttons b).pressed) then Status.Down else Status.Up) := by
  induction vs with
  | nil =>
    intro c
    simp [ViveController.feed]
  | cons v vs ih =>
    intro c
    obtain ⟨i1, i2, i3, i4⟩ := ih (c._triggerBoolButton b v).1
    obtain ⟨s1, s2, s3, s4, s5, s6⟩ := ViveController.triggerBoolButton_spec c b v
    rw [s1] at i1 i4
    refine ⟨?_, ?_, ?_, ?_⟩
    · show ((ViveController.feed (c._triggerBoolButton b v).1 b vs).1.buttons b).pressed = _
      rw [i1]
      cases vs with
      | nil => rfl
      | cons w ws =>
        rw [List.getLast?_cons_cons]
        cases hl : (w :: ws).getLast? with
        | none => simp at hl
        | some y => rfl
    · intro b' hb'
      show (ViveController.feed (c._triggerBoolButton b v).1 b vs).1.buttons b' = _
      rw [i2 b' hb', s2 b' hb']
    · intro e he
      have he' : e ∈ (c._triggerBoolButton b v).2 ++
          (ViveController.feed (c._triggerBoolButton b v).1 b vs).2 := he
      rw [List.mem_append] at he'
      rcases he' with h | h
      · cases hp : (c.buttons b).pressed <;> cases v
        · rw [s6 hp rfl] at h; simp at h
        · rw [s3 hp rfl] at h; simp at h; rw [h]
        · rw [s4 hp rfl] at h; simp at h; rw [h]
        · rw [s5 hp rfl] at h; simp at h; rw [h]
      · exact i3 e h
    · intro i x hx
      have hx' : (((c._triggerBoolButton b v).2 ++
          (ViveController.feed (c._triggerBoolButton b v).1 b vs).2).filterMap
            fun e => e.status)[i]? = some x := hx
      rw [List.filterMap_append] at hx'
      cases hp : (c.buttons b).pressed <;> cases v
      · rw [s6 hp rfl] at hx'
        simpa using i4 i x hx'
      · rw [s3 hp rfl] at hx'
        cases i with
        | zero =>
          simp at hx'
          simp [hx'.symm]
        | succ j =>
          simp at hx'
          have := i4 j x hx'
          rw [this]
          rcases Nat.mod_two_eq_zero_or_one j with h | h <;> simp [h, Nat.add_mod]
      · rw [s4 hp rfl] at hx'
        cases i with
        | zero =>
          simp at hx'
          simp [hx'.symm]
        | succ j =>
          simp at hx'
          have := i4 j x hx'
          rw [this]
          rcases Nat.mod_two_eq_zero_or_one j with h | h <;> simp [h, Nat.add_mod]
      · rw [s5 hp rfl] at hx'
        simpa using i4 i x hx'

/-- A tree above a reference point has a top state, made after the reference point. -/
theorem Tree.Above.peek {S₀ : List (State K)} {H₀ : Heap K} {d : Nat} {t : Tree K}
    (h : Tree.Above S₀ H₀ d t) :
    ∃ st, t.peekState = some st ∧ H₀.next ≤ st.pos ∧ H₀.next ≤ st.hlu := by
  obtain ⟨G, hs, hl, hf, -, -⟩ := h
  have hne : G ≠ [] := by
    intro h0
    rw [h0] at hl
    simp at hl
  refine ⟨G.getLast hne, ?_, hf _ (List.getLast_mem hne)⟩
  unfold Tree.peekState
  rw [hs, List.getLast?_append_of_ne_nil _ hne, List.getLast?_eq_getLast _ hne]

/-- A change that keeps the states and every object of the reference point keeps
a tree above the reference point. -/
theorem Tree.Above.frame {S₀ : List (State K)} {H₀ : Heap K} {d : Nat} {t t' : Tree K}
    (h : Tree.Above S₀ H₀ d t) (hs : t'.states = t.states)
    (hv : ∀ a, a < H₀.next → t'.heap.vectors a = t.heap.vectors a)
    (hm : ∀ a, a < H₀.next → t'.heap.matrices a = t.heap.matrices a)
    (hq : ∀ a, t'.heap.quaternions a = t.heap.quaternions a)
    (hn : t'.heap.next = t.heap.next) : Tree.Above S₀ H₀ d t' := by
  obtain ⟨G, h1, h2, h3, h4, h5⟩ := h
  refine ⟨G, hs.trans h1, h2, h3, fun a ha => ?_, by rw [hn]; exact h5⟩
  rw [hv a ha, hm a ha, hq a]
  exact h4 a ha

/-- `_addMesh` changes the helper only. -/
theorem TreeTool.addMesh_above {S₀ : List (State K)} {H₀ : Heap K} {d : Nat} {t : Tree K}
    (h : Tree.Above S₀ H₀ d t) : Tree.Above S₀ H₀ d (TreeTool._addMesh t) :=
  h.frame rfl (fun _ _ => rfl) (fun _ _ => rfl) (fun _ => rfl) rfl

/-- `_draw` succeeds above a reference point and changes the helper only. -/
theorem TreeTool.draw_above (M : JSMath K) {S₀ : List (State K)} {H₀ : Heap K} {d : Nat}
    {t : Tree K} (h : Tree.Above S₀ H₀ d t) :
    ∃ t', TreeTool._draw M t = some t' ∧ Tree.Above S₀ H₀ d t' := by
  obtain ⟨st, hp, -, -⟩ := h.peek
  unfold TreeTool._draw
  rw [hp]
  exact ⟨_, rfl, h.frame rfl (fun _ _ => rfl) (fun _ _ => rfl) (fun _ => rfl) rfl⟩

/-- `_movePos` succeeds above a reference point and writes to the position object
of the top state only. -/
theorem TreeTool.movePos_above {S₀ : List (State K)} {H₀ : Heap K} {d : Nat}
    {t : Tree K} (h : Tree.Above S₀ H₀ d t) :
    ∃ t', TreeTool._movePos t = some t' ∧ Tree.Above S₀ H₀ d t' := by
  obtain ⟨st, hp, h1, -⟩ := h.peek
  unfold TreeTool._movePos
  rw [hp]
  refine ⟨_, rfl, h.frame rfl (fun a ha => ?_) (fun _ _ => rfl) (fun _ => rfl) rfl⟩
  exact Function.update_noteq (by omega) _ _

/-- `_updateAngle` succeeds above a reference point and writes to the `hlu` object
of the top state only. -/
theorem TreeTool.updateAngle_above {S₀ : List (State K)} {H₀ : Heap K} {d : Nat}
    {t : Tree K} (rmat : Matrix3 K) (h : Tree.Above S₀ H₀ d t) :
    ∃ t', TreeTool._updateAngle t rmat = some t' ∧ Tree.Above S₀ H₀ d t' := by
  obtain ⟨st, hp, -, h2⟩ := h.peek
  unfold TreeTool._updateAngle
  rw [hp]
  refine ⟨_, rfl, h.frame rfl (fun _ _ => rfl) (fun a ha => ?_) (fun _ => rfl) rfl⟩
  exact Function.update_noteq (by omega) _ _

/-- Every move and turn succeeds above a reference point and stays above it. -/
theorem Cmd.apply_above (M : JSMath K) {S₀ : List (State K)} {H₀ : Heap K} {d : Nat}
    {t : Tree K} (h : Tree.Above S₀ H₀ d t) (c : Cmd K)
    (hpush : ∀ m, c ≠ Cmd.pushState m) (hpop : ∀ m, c ≠ Cmd.popState m) :
    ∃ t', c.apply M t = some t' ∧ Tree.Above S₀ H₀ d t' := by
  obtain ⟨st, hp, -, -⟩ := h.peek
  cases c with
  | movePos => exact TreeTool.movePos_above h
  | drawForward =>
    obtain ⟨t₁, e₁, h₁⟩ := TreeTool.movePos_above h
    obtain ⟨t₂, e₂, h₂⟩ := TreeTool.draw_above M h₁
    refine ⟨t₂, ?_, h₂⟩
    show TreeTool.drawForward M t = some t₂
    unfold TreeTool.drawForward
    rw [e₁]
    exact e₂
  | moveForward => exact TreeTool.movePos_above (TreeTool.addMesh_above h)
  | turnLeft sign =>
    show ∃ t', TreeTool.turnLeft M sign t = some t' ∧ _
    unfold TreeTool.turnLeft
    rw [hp]
    exact TreeTool.updateAngle_above _ h
  | turnDown sign =>
    show ∃ t', TreeTool.turnDown M sign t = some t' ∧ _
    unfold TreeTool.turnDown
    rw [hp]
    exact TreeTool.updateAngle_above _ h
  | rollLeft sign =>
    show ∃ t', TreeTool.rollLeft M sign t = some t' ∧ _
    unfold TreeTool.rollLeft
    rw [hp]
    exact TreeTool.updateAngle_above _ h
  | turnAround => exact TreeTool.updateAngle_above _ h
  | pushState m => exact absurd rfl (hpush m)
  | popState m => exact absurd rfl (hpop m)

/-- What `Tree.pushState` does: one more state, whose three objects are new and
hold the values of the objects passed; no object that existed changes. -/
theorem Tree.pushState_spec (t : Tree K) (pos : Nat) (angle : K) (hlu : Nat) (step : K)
    (orientation : Nat) (pressure : K) :
    (t.pushState pos angle hlu step orientation pressure).states =
      t.states ++ [⟨t.heap.next, angle, t.heap.next + 1, step, t.heap.next + 2, pressure⟩] ∧
    (t.pushState pos angle hlu step orientation pressure).helper = t.helper ∧
    (t.pushState pos angle hlu step orientation pressure).heap.next = t.heap.next + 3 ∧
    (t.pushState pos angle hlu step orientation pressure).heap.vectors t.heap.next =
      t.heap.vectors pos ∧
    (t.pushState pos angle hlu step orientation pressure).heap.matrices (t.heap.next + 1) =
      t.heap.matrices hlu ∧
    (t.pushState pos angle hlu step orientation pressure).heap.quaternions (t.heap.next + 2) =
      t.heap.quaternions orientation ∧
    (∀ a, a < t.heap.next →
      (t.pushState pos angle hlu step orientation pressure).heap.vectors a = t.heap.vectors a ∧
      (t.pushState pos angle hlu step orientation pressure).heap.matrices a =
        t.heap.matrices a ∧
      (t.pushState pos angle hlu step orientation pressure).heap.quaternions a =
        t.heap.quaternions a) := by
  refine ⟨rfl, rfl, rfl, ?_, ?_, ?_, fun a ha => ⟨?_, ?_, ?_⟩⟩
  · simp [Tree.pushState, Heap.cloneVector, Heap.cloneMatrix, Heap.cloneQuaternion]
  · simp [Tree.pushState, Heap.cloneVector, Heap.cloneMatrix, Heap.cloneQuaternion]
  · simp [Tree.pushState, Heap.cloneVector, Heap.cloneMatrix, Heap.cloneQuaternion]
  · simp only [Tree.pushState, Heap.cloneVector, Heap.cloneMatrix, Heap.cloneQuaternion]
    exact Function.update_noteq (by omega) _ _
  · simp only [Tree.pushState, Heap.cloneVector, Heap.cloneMatrix, Heap.cloneQuaternion]
    exact Function.update_noteq (by omega) _ _
  · simp only [Tree.pushState, Heap.cloneVector, Heap.cloneMatrix, Heap.cloneQuaternion]
    exact Function.update_noteq (by omega) _ _

/-- `Tree.pushState` above a reference point opens one more bracket. -/
theorem Tree.pushState_opens {S₀ : List (State K)} {H₀ : Heap K} {d : Nat} {t : Tree K}
    (h : Tree.Above S₀ H₀ d t) (pos : Nat) (angle : K) (hlu : Nat) (step : K)
    (orientation : Nat) (pressure : K) :
    Tree.Above S₀ H₀ (d + 1) (t.pushState pos angle hlu step orientation pressure) := by
  obtain ⟨G, h1, h2, h3, h4, h5⟩ := h
  obtain ⟨p1, -, p3, -, -, -, p7⟩ := Tree.pushState_spec t pos angle hlu step orientation pressure
  refine ⟨G ++ [⟨t.heap.next, angle, t.heap.next + 1, step, t.heap.next + 2, pressure⟩],
    ?_, ?_, ?_, ?_, ?_⟩
  · rw [p1, h1, List.append_assoc]
  · rw [List.length_append, h2]
    rfl
  · intro st hst
    rw [List.mem_append, List.mem_singleton] at hst
    rcases hst with hst | hst
    · exact h3 st hst
    · rw [hst]
      exact ⟨h5, Nat.le_succ_of_le h5⟩
  · intro a ha
    have := p7 a (by omega)
    rw [this.1, this.2.1, this.2.2]
    exact h4 a ha
  · rw [p3]
    omega

/-- `TreeTool.pushState` succeeds above a reference point and opens one more bracket. -/
theorem TreeTool.pushState_above (M : JSMath K) {S₀ : List (State K)} {H₀ : Heap K} {d : Nat}
    {t : Tree K} (h : Tree.Above S₀ H₀ d t) (m : Bool) :
    ∃ t', TreeTool.pushState M t m = some t' ∧ Tree.Above S₀ H₀ (d + 1) t' := by
  obtain ⟨st, hp, -, -⟩ := h.peek
  have h1 := Tree.pushState_opens h st.pos st.angle st.hlu st.step st.orientation st.pressure
  unfold TreeTool.pushState
  rw [hp]
  cases m
  · exact ⟨_, rfl, h1⟩
  · exact TreeTool.draw_above M (TreeTool.addMesh_above h1)

/-- `Tree.popState` one bracket or more above a reference point closes one bracket. -/
theorem Tree.popState_closes {S₀ : List (State K)} {H₀ : Heap K} {d : Nat} {t : Tree K}
    (h : Tree.Above S₀ H₀ (d + 1) t) : Tree.Above S₀ H₀ d t.popState := by
  obtain ⟨G, h1, h2, h3, h4, h5⟩ := h
  have hne : G ≠ [] := by
    intro h0
    rw [h0] at h2
    simp at h2
  refine ⟨G.dropLast, ?_, ?_, fun st hst => h3 st (List.mem_of_mem_dropLast hst), h4, h5⟩
  · show t.states.dropLast = _
    rw [h1, List.dropLast_append_of_ne_nil _ hne]
  · rw [List.length_dropLast, h2]
    rfl

/-- `TreeTool.popState` one bracket or more above a reference point succeeds and
closes one bracket. -/
theorem TreeTool.popState_above (M : JSMath K) {S₀ : List (State K)} {H₀ : Heap K} {d : Nat}
    {t : Tree K} (h : Tree.Above S₀ H₀ (d + 1) t) (m : Bool) :
    ∃ t', TreeTool.popState M t m = some t' ∧ Tree.Above S₀ H₀ d t' := by
  have h1 := Tree.popState_closes h
  unfold TreeTool.popState
  cases m
  · exact ⟨_, rfl, h1⟩
  · exact TreeTool.draw_above M (TreeTool.addMesh_above h1)

/-- A sequence of calls that closes no bracket it has not opened succeeds above a
reference point and ends as many brackets above it as `depthAfter` says. -/
theorem interpret_above (M : JSMath K) {S₀ : List (State K)} {H₀ : Heap K} (w : List (Cmd K)) :
    ∀ (d k : Nat) (t : Tree K), Tree.Above S₀ H₀ d t → depthAfter d w = some k →
    ∃ t', interpret M t w = some t' ∧ Tree.Above S₀ H₀ k t' := by
  induction w with
  | nil =>
    intro d k t h hd
    have : d = k := by simpa [depthAfter] using hd
    subst this
    exact ⟨t, rfl, h⟩
  | cons c w ih =>
    intro d k t h hd
    have key : ∀ t₁ d₁, c.apply M t = some t₁ → Tree.Above S₀ H₀ d₁ t₁ →
        depthAfter d₁ w = some k → ∃ t', interpret M t (c :: w) = some t' ∧
          Tree.Above S₀ H₀ k t' := by
      intro t₁ d₁ e h₁ hd₁
      obtain ⟨t', e', h'⟩ := ih d₁ k t₁ h₁ hd₁
      refine ⟨t', ?_, h'⟩
      rw [interpret, e]
      exact e'
    cases c with
    | pushState m =>
      obtain ⟨t₁, e, h₁⟩ := TreeTool.pushState_above M h m
      exact key t₁ (d + 1) e h₁ (by simpa [depthAfter] using hd)
    | popState m =>
      cases d with
      | zero => simp [depthAfter] at hd
      | succ d =>
        obtain ⟨t₁, e, h₁⟩ := TreeTool.popState_above M h m
        exact key t₁ d e h₁ (by simpa [depthAfter] using hd)
    | movePos =>
      obtain ⟨t₁, e, h₁⟩ := Cmd.apply_above M h Cmd.movePos (by simp) (by simp)
      exact key t₁ d e h₁ (by cases d <;> simpa [depthAfter] using hd)
    | drawForward =>
      obtain ⟨t₁, e, h₁⟩ := Cmd.apply_above M h Cmd.drawForward (by simp) (by simp)
      exact key t₁ d e h₁ (by cases d <;> simpa [depthAfter] using hd)
    | moveForward =>
      obtain ⟨t₁, e, h₁⟩ := Cmd.apply_above M h Cmd.moveForward (by simp) (by simp)
      exact key t₁ d e h₁ (by cases d <;> simpa [depthAfter] using hd)
    | turnLeft s =>
      obtain ⟨t₁, e, h₁⟩ := Cmd.apply_above M h (Cmd.turnLeft s) (by simp) (by simp)
      exact key t₁ d e h₁ (by cases d <;> simpa [depthAfter] using hd)
    | turnDown s =>
      obtain ⟨t₁, e, h₁⟩ := Cmd.apply_above M h (Cmd.turnDown s) (by simp) (by simp)
      exact key t₁ d e h₁ (by cases d <;> simpa [depthAfter] using hd)
    | rollLeft s =>
      obtain ⟨t₁, e, h₁⟩ := Cmd.apply_above M h (Cmd.rollLeft s) (by simp) (by simp)
      exact key t₁ d e h₁ (by cases d <;> simpa [depthAfter] using hd)
    | turnAround =>
      obtain ⟨t₁, e, h₁⟩ := Cmd.apply_above M h Cmd.turnAround (by simp) (by simp)
      exact key t₁ d e h₁ (by cases d <;> simpa [depthAfter] using hd)

/-- A sequence of calls run after another: the second starts where the first ends. -/
theorem interpret_append (M : JSMath K) (w₁ w₂ : List (Cmd K)) : ∀ (t t₁ : Tree K),
    interpret M t w₁ = some t₁ → interpret M t (w₁ ++ w₂) = interpret M t₁ w₂ := by
  induction w₁ with
  | nil =>
    intro t t₁ h
    simp only [interpret, Option.some.injEq] at h
    rw [h]
    rfl
  | cons c w ih =>
    intro t t₁ h
    rw [List.cons_append, interpret]
    rw [interpret] at h
    cases hc : c.apply M t with
    | none => rw [hc] at h; simp at h
    | some t₂ =>
      rw [hc] at h
      exact ih t₂ t₁ h

/-- `_draw` on a tree with a state succeeds and changes the helper only. -/
theorem TreeTool.draw_some (M : JSMath K) (t : Tree K) (hne : t.states ≠ []) :
    ∃ t', TreeTool._draw M t = some t' ∧ t'.states = t.states ∧ t'.heap = t.heap := by
  have hp : t.peekState = some (t.states.getLast hne) := List.getLast?_eq_getLast _ hne
  unfold TreeTool._draw
  rw [hp]
  exact ⟨_, rfl, rfl, rfl⟩

/-- The last `popState` of a bracket: the states of the reference point are back
and every object of the reference point is as it was. -/
theorem TreeTool.popState_final (M : JSMath K) {S₀ : List (State K)} {H₀ : Heap K}
    {t : Tree K} (h : Tree.Above S₀ H₀ 0 t) (hne : S₀ ≠ []) (m : Bool) :
    ∃ t', TreeTool.popState M t m = some t' ∧ t'.states = S₀ ∧
      ∀ a, a < H₀.next →
        t'.heap.vectors a = H₀.vectors a ∧ t'.heap.matrices a = H₀.matrices a ∧
          t'.heap.quaternions a = H₀.quaternions a := by
  obtain ⟨G, h1, h2, -, h4, -⟩ := h
  have hs : t.popState.states = S₀ := by
    show t.states.dropLast = S₀
    rw [h1]
    match G, h2 with
    | [x], _ => exact List.dropLast_concat
  unfold TreeTool.popState
  cases m
  · exact ⟨_, rfl, hs, h4⟩
  · have hne' : (TreeTool._addMesh t.popState).states ≠ [] := by
      show t.popState.states ≠ []
      rw [hs]
      exact hne
    obtain ⟨t', e, d1, d2⟩ := TreeTool.draw_some M (TreeTool._addMesh t.popState) hne'
    refine ⟨t', e, d1.trans hs, ?_⟩
    rw [d2]
    exact h4

/-! ## The claims -/

/-- C1. Cursor arithmetic: on a segment freshly created by `createMesh`, after a
sequence of `addPoint` calls of which `k` were accepted (rejected calls
interleaved at will), `_verticesCount = 6k`, `_uvCount = 4k` and the draw range
is `(0, 2k)`; so `_verticesCount` is a multiple of 6 and `_uvCount` of 4. -/
theorem C1_cursor_arithmetic (sqrt : K → K) (h : BrushHelper K) (cs : List (Sample K)) :
    (run sqrt h.createMesh cs)._verticesCount = 6 * (accepted sqrt h.createMesh cs).length ∧
    (run sqrt h.createMesh cs)._uvCount = 4 * (accepted sqrt h.createMesh cs).length ∧
    (run sqrt h.createMesh cs).drawRange =
      ⟨0, 2 * ((accepted sqrt h.createMesh cs).length : K)⟩ ∧
    6 ∣ (run sqrt h.createMesh cs)._verticesCount ∧
    4 ∣ (run sqrt h.createMesh cs)._uvCount := by
  have hc := run_cursors sqrt h.createMesh cs
  have hd := run_drawRange sqrt h.createMesh cs (by simp [BrushHelper.createMesh])
  have hv : (run sqrt h.createMesh cs)._verticesCount =
      6 * (accepted sqrt h.createMesh cs).length := by
    rw [hc.1]; simp [BrushHelper.createMesh]
  have hu : (run sqrt h.createMesh cs)._uvCount =
      4 * (accepted sqrt h.createMesh cs).length := by
    rw [hc.2]; simp [BrushHelper.createMesh]
  refine ⟨hv, hu, ?_, ?_, ?_⟩
  · rw [hd, hv]
    congr 1
    push_cast
    ring
  · rw [hv]; exact Dvd.intro _ rfl
  · rw [hu]; exact Dvd.intro _ rfl

/-- C2. Rejection is a no-op: when the position lies at distance strictly below
`_delta` from the last accepted point, `addPoint` returns the helper state
unchanged, every field included. -/
theorem C2_reject_noop (sqrt : K → K) (s : BrushHelper K) (last p : Vector3 K)
    (q : THREE.Quaternion K) (pr : K) (hl : s._lastPoint = some last)
    (hd : last.distanceTo sqrt p < s._delta) :
    s.addPoint sqrt p q pr = s := by
  apply BrushHelper.addPoint_reject
  simp [BrushHelper.tooClose, hl, hd]

/-- Witness for C2: with spacing 2 and the last accepted point at the origin, the
point `(1, 0, 0)` is at Euclidean distance 1 and is rejected. -/
theorem C2_reject_noop_witness :
    (spacedHelper Real.sqrt)._lastPoint = some ⟨0, 0, 0⟩ ∧
    Vector3.distanceTo Real.sqrt ⟨0, 0, 0⟩ ⟨1, 0, 0⟩ < (spacedHelper Real.sqrt)._delta ∧
    (spacedHelper Real.sqrt).addPoint Real.sqrt ⟨1, 0, 0⟩ ⟨0, 0, 0, 1⟩ 1 =
      spacedHelper Real.sqrt :=
  have hd : Vector3.distanceTo Real.sqrt ⟨0, 0, 0⟩ ⟨1, 0, 0⟩ <
      (spacedHelper Real.sqrt)._delta := by
    rw [(spacedHelper_fields Real.sqrt).2.1]
    simp [Vector3.distanceTo, Vector3.distanceToSquared]
  ⟨(spacedHelper_fields Real.sqrt).1, hd,
    C2_reject_noop Real.sqrt (spacedHelper Real.sqrt) ⟨0, 0, 0⟩ ⟨1, 0, 0⟩ ⟨0, 0, 0, 1⟩ 1
      (spacedHelper_fields Real.sqrt).1 hd⟩

/-- C3, counterexample.  Spacing 2, last accepted point the origin.  The call at
`(1, 0, 0)` is rejected; the next call, at `(2, 0, 0)`, is at distance 1 from
it, closer than the spacing, and yet it is accepted: the cursor moves from 6 to 12. -/
theorem C3_consecutive_counterexample :
    Vector3.distanceTo Real.sqrt (⟨1, 0, 0⟩ : Vector3 ℝ) ⟨2, 0, 0⟩ <
      (spacedHelper Real.sqrt)._delta ∧
    ((spacedHelper Real.sqrt).addPoint Real.sqrt ⟨1, 0, 0⟩ ⟨0, 0, 0, 1⟩ 1)._verticesCount = 6 ∧
    (((spacedHelper Real.sqrt).addPoint Real.sqrt ⟨1, 0, 0⟩ ⟨0, 0, 0, 1⟩ 1).addPoint
      Real.sqrt ⟨2, 0, 0⟩ ⟨0, 0, 0, 1⟩ 1)._verticesCount = 12 ∧
    (((spacedHelper Real.sqrt).addPoint Real.sqrt ⟨1, 0, 0⟩ ⟨0, 0, 0, 1⟩ 1).addPoint
      Real.sqrt ⟨2, 0, 0⟩ ⟨0, 0, 0, 1⟩ 1)._verticesCount ≠
      ((spacedHelper Real.sqrt).addPoint Real.sqrt ⟨1, 0, 0⟩ ⟨0, 0, 0, 1⟩ 1)._verticesCount := by
  have hf := spacedHelper_fields Real.sqrt
  have h1 : (spacedHelper Real.sqrt).addPoint Real.sqrt ⟨1, 0, 0⟩ ⟨0, 0, 0, 1⟩ 1 =
      spacedHelper Real.sqrt := by
    apply BrushHelper.addPoint_reject
    simp [BrushHelper.tooClose, hf.1, hf.2.1, Vector3.distanceTo, Vector3.distanceToSquared]
  have h2 : (spacedHelper Real.sqrt).tooClose Real.sqrt ⟨2, 0, 0⟩ = false := by
    simp only [BrushHelper.tooClose, hf.1, hf.2.1, Vector3.distanceTo,
      Vector3.distanceToSquared, decide_eq_false_iff_not, not_lt]
    rw [Real.le_sqrt' (by norm_num)]
    norm_num
  refine ⟨?_, ?_, ?_, ?_⟩
  · rw [hf.2.1]
    simp only [Vector3.distanceTo, Vector3.distanceToSquared]
    rw [Real.sqrt_lt' (by norm_num)]
    norm_num
  · rw [h1, hf.2.2]
  · rw [h1, (BrushHelper.addPoint_accept Real.sqrt _ _ _ _ h2).1, hf.2.2]
  · rw [h1, (BrushHelper.addPoint_accept Real.sqrt _ _ _ _ h2).1, hf.2.2]
    decide

/-- C3, amended.  When the first of two consecutive calls is accepted and the
second position is closer to the first than `_delta`, the second call changes
nothing: vertex cursor, UV cursor and draw range stay as the first call left them. -/
theorem C3_consecutive_reject (sqrt : K → K) (s : BrushHelper K) (p₁ p₂ : Vector3 K)
    (q₁ q₂ : THREE.Quaternion K) (pr₁ pr₂ : K) (hacc : s.tooClose sqrt p₁ = false)
    (hd : p₁.distanceTo sqrt p₂ < s._delta) :
    ((s.addPoint sqrt p₁ q₁ pr₁).addPoint sqrt p₂ q₂ pr₂)._verticesCount =
      (s.addPoint sqrt p₁ q₁ pr₁)._verticesCount ∧
    ((s.addPoint sqrt p₁ q₁ pr₁).addPoint sqrt p₂ q₂ pr₂)._uvCount =
      (s.addPoint sqrt p₁ q₁ pr₁)._uvCount ∧
    ((s.addPoint sqrt p₁ q₁ pr₁).addPoint sqrt p₂ q₂ pr₂).drawRange =
      (s.addPoint sqrt p₁ q₁ pr₁).drawRange := by
  have ha := BrushHelper.addPoint_accept sqrt s p₁ q₁ pr₁ hacc
  have hr : (s.addPoint sqrt p₁ q₁ pr₁).addPoint sqrt p₂ q₂ pr₂ = s.addPoint sqrt p₁ q₁ pr₁ := by
    apply BrushHelper.addPoint_reject
    simp [BrushHelper.tooClose, ha.2.2.2.1, ha.2.2.2.2.1, hd]
  rw [hr]
  exact ⟨rfl, rfl, rfl⟩

/-- Witness for the amended C3: on a fresh segment with spacing 2 the call at the
origin is accepted, and the next call, at `(1, 0, 0)`, changes nothing. -/
theorem C3_consecutive_reject_witness :
    (BrushHelper.construct (spacedOptions : Options ℝ)).createMesh.tooClose Real.sqrt
      ⟨0, 0, 0⟩ = false ∧
    Vector3.distanceTo Real.sqrt (⟨0, 0, 0⟩ : Vector3 ℝ) ⟨1, 0, 0⟩ < 2 ∧
    ((spacedHelper Real.sqrt).addPoint Real.sqrt ⟨1, 0, 0⟩ ⟨0, 0, 0, 1⟩ 1)._verticesCount =
      (spacedHelper Real.sqrt)._verticesCount :=
  have hd : Vector3.distanceTo Real.sqrt (⟨0, 0, 0⟩ : Vector3 ℝ) ⟨1, 0, 0⟩ < 2 := by
    simp [Vector3.distanceTo, Vector3.distanceToSquared]
  ⟨rfl, hd,
    (C3_consecutive_reject Real.sqrt (BrushHelper.construct spacedOptions).createMesh
      ⟨0, 0, 0⟩ ⟨1, 0, 0⟩ ⟨0, 0, 0, 1⟩ ⟨0, 0, 0, 1⟩ 1 1 rfl hd).1⟩

/-- C4. A fresh segment: after `createMesh` all three arrays hold zeros, the
cursors are 0, the draw range is `(0, 0)`, and the next `addPoint` passes the
distance test for every position and every `_delta`, whatever the helper
held before. -/
theorem C4_createMesh_fresh (sqrt : K → K) (h : BrushHelper K) (p : Vector3 K)
    (q : THREE.Quaternion K) (pr : K) :
    (∀ i, h.createMesh._vertices.read i = 0) ∧
    (∀ i, h.createMesh._normals.read i = 0) ∧
    (∀ i, h.createMesh._uvs.read i = 0) ∧
    h.createMesh._vertices.length = h._vboLimit * 3 * 3 ∧
    h.createMesh._normals.length = h._vboLimit * 3 * 3 ∧
    h.createMesh._uvs.length = h._vboLimit * 2 * 2 ∧
    h.createMesh._verticesCount = 0 ∧
    h.createMesh._normalsCount = 0 ∧
    h.createMesh._uvCount = 0 ∧
    h.createMesh._uv = 0 ∧
    h.createMesh.drawRange = ⟨0, 0⟩ ∧
    h.createMesh.tooClose sqrt p = false ∧
    (h.createMesh.addPoint sqrt p q pr)._verticesCount = 6 ∧
    (h.createMesh.addPoint sqrt p q pr)._lastPoint = some p := by
  have ht : h.createMesh.tooClose sqrt p = false := rfl
  have ha := BrushHelper.addPoint_accept sqrt h.createMesh p q pr ht
  refine ⟨fun _ => rfl, fun _ => rfl, fun _ => rfl, rfl, rfl, rfl, rfl, rfl, rfl, rfl, rfl,
    ht, ?_, ha.2.2.2.1⟩
  rw [ha.1]
  rfl

/-- C5. Rung geometry: an accepted sample at position `p` with orientation `q`,
made with vertex cursor `c = _verticesCount` inside the position array, writes
`p - o` into cells `c..c+2` and `p + o` into cells `c+3..c+5`, where
`o = t * rotate(q, (1,0,0))` and `t` is the thickness the active policy returns,
and changes no other cell; with the identity orientation the two vertices are
`(p.x - t, p.y, p.z)` and `(p.x + t, p.y, p.z)`, whose midpoint is `p`. -/
theorem C5_rung_geometry (sqrt : K → K) (s : BrushHelper K) (p : Vector3 K)
    (q : THREE.Quaternion K) (pr : K) (hacc : s.tooClose sqrt p = false)
    (hb : s._verticesCount + 6 ≤ s._vertices.length) :
    Vector3.fromArray (s.addPoint sqrt p q pr)._vertices s._verticesCount =
      p.sub (((Vector3.mk 1 0 0).applyQuaternion q).multiplyScalar (s._computeThickness pr).1) ∧
    Vector3.fromArray (s.addPoint sqrt p q pr)._vertices (s._verticesCount + 3) =
      p.add (((Vector3.mk 1 0 0).applyQuaternion q).multiplyScalar (s._computeThickness pr).1) ∧
    (∀ i, i < s._verticesCount ∨ s._verticesCount + 6 ≤ i →
      (s.addPoint sqrt p q pr)._vertices.read i = s._vertices.read i) ∧
    (q = ⟨0, 0, 0, 1⟩ →
      Vector3.fromArray (s.addPoint sqrt p q pr)._vertices s._verticesCount =
        ⟨p.x - (s._computeThickness pr).1, p.y, p.z⟩ ∧
      Vector3.fromArray (s.addPoint sqrt p q pr)._vertices (s._verticesCount + 3) =
        ⟨p.x + (s._computeThickness pr).1, p.y, p.z⟩ ∧
      ((Vector3.fromArray (s.addPoint sqrt p q pr)._vertices s._verticesCount).add
        (Vector3.fromArray (s.addPoint sqrt p q pr)._vertices
          (s._verticesCount + 3))).divideScalar 2 = p) := by
  have hu := BrushHelper.computeUV_fields s s.uvBound pr
  have hb' : s._verticesCount + 6 ≤ (s._computeUV s.uvBound pr)._vertices.length := by
    rw [hu.2.2.2.2.2.1]; exact hb
  have he := BrushHelper.emitRung_vertices (s._computeUV s.uvBound pr) p q s._verticesCount pr hb'
  have ht := (BrushHelper.computeThickness_congr s (s._computeUV s.uvBound pr) pr hu.1
    hu.2.2.2.2.2.2.2.2.2.2.1 hu.2.2.2.2.2.2.2.2.2.1).1
  rw [ht, hu.2.2.2.2.2.1] at he
  rw [(BrushHelper.addPoint_arrays sqrt s p q pr hacc).1]
  refine ⟨he.1, he.2.1, he.2.2.1, ?_⟩
  intro hq
  rw [he.1, he.2.1, hq]
  obtain ⟨px, py, pz⟩ := p
  simp only [Vector3.applyQuaternion, Vector3.multiplyScalar, Vector3.sub, Vector3.add,
    Vector3.divideScalar, Vector3.mk.injEq]
  refine ⟨⟨?_, ?_, ?_⟩, ⟨?_, ?_, ?_⟩, ?_, ?_, ?_⟩ <;> ring

/-- Witness for C5: the first sample of a fresh segment, at `(3, 4, 5)` with the
identity orientation and constant thickness 1, gives the rung `(2, 4, 5)`, `(4, 4, 5)`. -/
theorem C5_rung_geometry_witness :
    (BrushHelper.construct (spacedOptions : Options ℝ)).createMesh.tooClose Real.sqrt
      ⟨3, 4, 5⟩ = false ∧
    (BrushHelper.construct (spacedOptions : Options ℝ)).createMesh._verticesCount + 6 ≤
      (BrushHelper.construct (spacedOptions : Options ℝ)).createMesh._vertices.length ∧
    Vector3.fromArray
      ((BrushHelper.construct (spacedOptions : Options ℝ)).createMesh.addPoint Real.sqrt
        ⟨3, 4, 5⟩ ⟨0, 0, 0, 1⟩ 1)._vertices 0 = ⟨2, 4, 5⟩ ∧
    Vector3.fromArray
      ((BrushHelper.construct (spacedOptions : Options ℝ)).createMesh.addPoint Real.sqrt
        ⟨3, 4, 5⟩ ⟨0, 0, 0, 1⟩ 1)._vertices 3 = ⟨4, 4, 5⟩ :=
  have hb : (BrushHelper.construct (spacedOptions : Options ℝ)).createMesh._verticesCount + 6 ≤
      (BrushHelper.construct (spacedOptions : Options ℝ)).createMesh._vertices.length := by
    decide
  have ht : ((BrushHelper.construct (spacedOptions : Options ℝ)).createMesh._computeThickness
      1).1 = 1 := by
    norm_num [BrushHelper._computeThickness, BrushHelper.createMesh, BrushHelper.construct,
      spacedOptions]
  have h := (C5_rung_geometry Real.sqrt
    (BrushHelper.construct (spacedOptions : Options ℝ)).createMesh ⟨3, 4, 5⟩ ⟨0, 0, 0, 1⟩ 1
    rfl hb).2.2.2 rfl
  ⟨rfl, hb, Eq.trans h.1 (by rw [ht]; norm_num), Eq.trans h.2.1 (by rw [ht]; norm_num)⟩

/-- C6. Pressure-driven thickness: `_computeThicknessWithPressure` returns
`_thickness * c * (1 - |prev - c|)^2` with `c = min(p, 0.8)` and `prev` the stored
`_lastPressure` (0 at construction), and stores `c` as the new `_lastPressure`.
The smoothing factor `1 - |prev - c|` (the local `test`) is therefore 1 on the
second sample of the pressures `[1.0, 1.0]`, and on the second sample of
`[0.0, 0.8]` it is strictly smaller than on the second sample of `[0.8, 0.8]`. -/
theorem C6_pressure_thickness (s : BrushHelper K) (p : K) :
    (s._computeThicknessWithPressure p).1 =
      s._thickness * min p 0.8 * (1 - |s._lastPressure - min p 0.8|) ^ 2 ∧
    (s._computeThicknessWithPressure p).2._lastPressure = min p 0.8 ∧
    s.test p = 1 - |s._lastPressure - min p 0.8| ∧
    (s._computeThicknessWithPressure p).1 = s._thickness * min p 0.8 * s.test p ^ 2 ∧
    (BrushHelper.construct s.options)._lastPressure = 0 ∧
    (s._computeThicknessWithPressure 1.0).2.test 1.0 = 1 ∧
    (s._computeThicknessWithPressure 0.0).2.test 0.8 <
      (s._computeThicknessWithPressure 0.8).2.test 0.8 := by
  have hcap := BrushHelper.cap_eq_min (K := K)
  refine ⟨?_, ?_, ?_, ?_, rfl, ?_, ?_⟩
  · simp only [BrushHelper._computeThicknessWithPressure, hcap]
    ring
  · simp only [BrushHelper._computeThicknessWithPressure, hcap]
  · simp only [BrushHelper.test, hcap]
  · simp only [BrushHelper._computeThicknessWithPressure, BrushHelper.test, hcap]
    ring
  · simp only [BrushHelper._computeThicknessWithPressure, BrushHelper.test, hcap]
    norm_num
  · simp only [BrushHelper._computeThicknessWithPressure, BrushHelper.test, hcap]
    norm_num

/-- C7. Pressure-independent UV re-derivation: with `enablePressure` false and
`maxSpread ≥ 1`, an accepted `addPoint` that finds `r` rungs in the segment leaves
`(i/M, 0)` in UV cells `4i, 4i+1` and `(i/M, 1)` in cells `4i+2, 4i+3` for every
`i` from 0 to `M = max(maxSpread, r)` (the four cells being cells of the array). -/
theorem C7_uv_rederivation (sqrt : K → K) (s : BrushHelper K) (p : Vector3 K)
    (q : THREE.Quaternion K) (pr : K) (r M i : Nat)
    (hp : s.options.enablePressure = false) (hm : 1 ≤ s.options.maxSpread)
    (hr : s._verticesCount = 6 * r) (hM : M = max s.options.maxSpread r)
    (hacc : s.tooClose sqrt p = false) (hi : i ≤ M) (hb : 4 * i + 4 ≤ s._uvs.length) :
    (s.addPoint sqrt p q pr)._uvs.read (4 * i) = (i : K) / (M : K) ∧
    (s.addPoint sqrt p q pr)._uvs.read (4 * i + 1) = 0 ∧
    (s.addPoint sqrt p q pr)._uvs.read (4 * i + 2) = (i : K) / (M : K) ∧
    (s.addPoint sqrt p q pr)._uvs.read (4 * i + 3) = 1 := by
  rw [(BrushHelper.addPoint_arrays sqrt s p q pr hacc).2.1, BrushHelper.uvBound_eq s r hm hr,
    ← hM]
  unfold BrushHelper._computeUV
  rw [hp]
  simp only [Bool.false_eq_true, if_false]
  unfold BrushHelper._computeUVWithoutPressure
  rw [Nat.floor_natCast]
  exact BrushHelper.uvLoop_written (M : K) (M + 1) 0 _ rfl i (Nat.zero_le i) (by omega)
    (by exact_mod_cast hi) hb

/-- Witness for C7: `maxSpread = 5`; the seventh accepted sample of a stroke finds
`r = 6` rungs, so `M = 6`, and the u-values at `i = 0, 3, 6` are `0`, `1/2`, `1`. -/
theorem C7_uv_rederivation_witness :
    (run Real.sqrt (BrushHelper.construct (denseOptions : Options ℝ)).createMesh
      (strokeSamples 6)).options.enablePressure = false ∧
    (run Real.sqrt (BrushHelper.construct (denseOptions : Options ℝ)).createMesh
      (strokeSamples 6))._verticesCount = 6 * 6 ∧
    ((run Real.sqrt (BrushHelper.construct (denseOptions : Options ℝ)).createMesh
      (strokeSamples 6)).addPoint Real.sqrt ⟨0, 6, 0⟩ ⟨0, 0, 0, 1⟩ 1)._uvs.read 0 = 0 ∧
    ((run Real.sqrt (BrushHelper.construct (denseOptions : Options ℝ)).createMesh
      (strokeSamples 6)).addPoint Real.sqrt ⟨0, 6, 0⟩ ⟨0, 0, 0, 1⟩ 1)._uvs.read 12 = 1 / 2 ∧
    ((run Real.sqrt (BrushHelper.construct (denseOptions : Options ℝ)).createMesh
      (strokeSamples 6)).addPoint Real.sqrt ⟨0, 6, 0⟩ ⟨0, 0, 0, 1⟩ 1)._uvs.read 24 = 1 :=
  have hf := denseRun_fields 6
  have hp : (run Real.sqrt (BrushHelper.construct (denseOptions : Options ℝ)).createMesh
      (strokeSamples 6)).options.enablePressure = false := by rw [hf.1]; rfl
  have hm : 1 ≤ (run Real.sqrt (BrushHelper.construct (denseOptions : Options ℝ)).createMesh
      (strokeSamples 6)).options.maxSpread := by rw [hf.1]; decide
  have hM : 6 = max (run Real.sqrt (BrushHelper.construct (denseOptions : Options ℝ)).createMesh
      (strokeSamples 6)).options.maxSpread 6 := by rw [hf.1]; decide
  have hb : ∀ i, i ≤ 6 → 4 * i + 4 ≤ (run Real.sqrt
      (BrushHelper.construct (denseOptions : Options ℝ)).createMesh
      (strokeSamples 6))._uvs.length := by rw [hf.2.2.1]; omega
  ⟨hp, hf.2.1,
    (C7_uv_rederivation Real.sqrt _ ⟨0, 6, 0⟩ ⟨0, 0, 0, 1⟩ 1 6 6 0 hp hm hf.2.1 hM
      (hf.2.2.2 _) (by decide) (hb _ (by decide))).1.trans (by norm_num),
    (C7_uv_rederivation Real.sqrt _ ⟨0, 6, 0⟩ ⟨0, 0, 0, 1⟩ 1 6 6 3 hp hm hf.2.1 hM
      (hf.2.2.2 _) (by decide) (hb _ (by decide))).1.trans (by norm_num),
    (C7_uv_rederivation Real.sqrt _ ⟨0, 6, 0⟩ ⟨0, 0, 0, 1⟩ 1 6 6 6 hp hm hf.2.1 hM
      (hf.2.2.2 _) (by decide) (hb _ (by decide))).1.trans (by norm_num)⟩

/-- C8. Pressure-driven UV: with `enablePressure` true, after a sequence of calls
on a fresh segment of which `k` were accepted, with pressures `p_0 .. p_{k-1}`,
the UV array holds `(p_j, 0, p_j, 1)` in cells `4j .. 4j+3` for every `j < k`
(the raw pressure; the four cells being cells of the array), every cell from
`4k` on is still 0, and `_uv = _uvCount = 4k`. -/
theorem C8_pressure_uv (sqrt : K → K) (h : BrushHelper K) (cs : List (Sample K))
    (hp : h.options.enablePressure = true) :
    (∀ j c, (accepted sqrt h.createMesh cs)[j]? = some c →
      4 * j + 4 ≤ (run sqrt h.createMesh cs)._uvs.length →
      (run sqrt h.createMesh cs)._uvs.read (4 * j) = c.pressure ∧
      (run sqrt h.createMesh cs)._uvs.read (4 * j + 1) = 0 ∧
      (run sqrt h.createMesh cs)._uvs.read (4 * j + 2) = c.pressure ∧
      (run sqrt h.createMesh cs)._uvs.read (4 * j + 3) = 1) ∧
    (∀ i, 4 * (accepted sqrt h.createMesh cs).length ≤ i →
      (run sqrt h.createMesh cs)._uvs.read i = 0) ∧
    (run sqrt h.createMesh cs)._uv = 4 * (accepted sqrt h.createMesh cs).length ∧
    (run sqrt h.createMesh cs)._uvCount = 4 * (accepted sqrt h.createMesh cs).length := by
  obtain ⟨r1, r2, r3⟩ := run_uv_pressure sqrt cs h.createMesh hp
  have h0 : h.createMesh._uv = 0 := rfl
  rw [h0] at r1 r2 r3
  simp only [Nat.zero_add] at r1 r2 r3
  refine ⟨?_, ?_, r1, ?_⟩
  · intro j c hj hb
    rw [(run_static sqrt h.createMesh cs).2.2.2.2.2.2] at hb
    exact r3 j c hj hb
  · intro i hi
    rw [r2 i (Or.inr hi)]
    rfl
  · rw [(run_cursors sqrt h.createMesh cs).2]
    exact Nat.zero_add _

/-- Witness for C8: two samples of the straight stroke under the pressure policy;
the second one (pressure 1) leaves `1` in UV cell 4, and the cursor ends at 8. -/
theorem C8_pressure_uv_witness :
    (BrushHelper.construct (pressureOptions : Options ℝ)).options.enablePressure = true ∧
    (run Real.sqrt (BrushHelper.construct (pressureOptions : Options ℝ)).createMesh
      (strokeSamples 2))._uvs.read 4 = 1 ∧
    (run Real.sqrt (BrushHelper.construct (pressureOptions : Options ℝ)).createMesh
      (strokeSamples 2))._uv = 8 :=
  have hall : accepted Real.sqrt (BrushHelper.construct (pressureOptions : Options ℝ)).createMesh
      (strokeSamples 2) = strokeSamples 2 :=
    accepted_all Real.sqrt Real.sqrt_nonneg _ (le_refl (0 : ℝ)) _
  have hc := C8_pressure_uv Real.sqrt (BrushHelper.construct (pressureOptions : Options ℝ))
    (strokeSamples 2) rfl
  ⟨rfl,
    (hc.1 1 ⟨⟨0, ((1 : Nat) : ℝ), 0⟩, ⟨0, 0, 0, 1⟩, 1⟩ (by rw [hall]; rfl)
      (by rw [(run_static Real.sqrt _ _).2.2.2.2.2.2]; decide)).1,
    by rw [hc.2.2.1, hall]; rfl⟩

/-- C9. Smoothed normal: an accepted sample that finds `r ≥ 2` rungs in the
segment writes a normal.  With `V` the vertex list after the call (it has
`m = 2r + 2` vertices, the last two being the rung just emitted) and `T` the
look-back window, the vector written before normalisation is
`(1/T) * Σ_{j<T} (V[m-3-j] - V[m-2-j]) × (V[m-1-j] - V[m-2-j])`; it is written to
the six normal triples (18 floats) from the normal cursor on, no other normal cell
changes, and the array is then normalised. -/
theorem C9_smoothed_normal (sqrt : K → K) (s : BrushHelper K) (p : Vector3 K)
    (q : THREE.Quaternion K) (pr : K) (r : Nat) (hacc : s.tooClose sqrt p = false)
    (hr : s._verticesCount = 6 * r) (h2 : 2 ≤ r) (hbv : 6 * r + 6 ≤ s._vertices.length)
    (hbn : s._normalsCount + 18 ≤ s._normals.length) :
    (∀ t, t < 6 →
      Vector3.fromArray
        ((s._computeUV s.uvBound pr).processPointRaw p q s._verticesCount s._normalsCount
          pr)._normals (s._normalsCount + 3 * t) =
        windowNormal (s.addPoint sqrt p q pr)._vertices (2 * r + 2)
          (BrushHelper.it (6 * r + 6))) ∧
    (∀ i, i < s._normalsCount ∨ s._normalsCount + 18 ≤ i →
      ((s._computeUV s.uvBound pr).processPointRaw p q s._verticesCount s._normalsCount
        pr)._normals.read i = s._normals.read i) ∧
    (s.addPoint sqrt p q pr)._normals =
      normalizeNormals sqrt
        ((s._computeUV s.uvBound pr).processPointRaw p q s._verticesCount s._normalsCount
          pr)._normals ∧
    vertexAt (s.addPoint sqrt p q pr)._vertices (2 * r) =
      p.sub (((Vector3.mk 1 0 0).applyQuaternion q).multiplyScalar (s._computeThickness pr).1) ∧
    vertexAt (s.addPoint sqrt p q pr)._vertices (2 * r + 1) =
      p.add (((Vector3.mk 1 0 0).applyQuaternion q).multiplyScalar
        (s._computeThickness pr).1) := by
  obtain ⟨n1, n2, -⟩ := (BrushHelper.addPoint_normals sqrt s p q pr hacc).2 (by omega)
  have hw := BrushHelper.writeNormal_spec s._normals s._normalsCount
    (BrushHelper.smoothedNormal (s.addPoint sqrt p q pr)._vertices (s._verticesCount + 6)
      (BrushHelper.it (s._verticesCount + 6)))
  have hsm : BrushHelper.smoothedNormal (s.addPoint sqrt p q pr)._vertices (s._verticesCount + 6)
      (BrushHelper.it (s._verticesCount + 6)) =
      windowNormal (s.addPoint sqrt p q pr)._vertices (2 * r + 2)
        (BrushHelper.it (6 * r + 6)) := by
    have e : s._verticesCount + 6 = 3 * (2 * r + 2) := by omega
    have e' : 6 * r + 6 = 3 * (2 * r + 2) := by omega
    rw [e, e']
    exact smoothedNormal_eq _ _ _ (by have := it_le_three (3 * (2 * r + 2)); omega)
  have hu := BrushHelper.computeUV_fields s s.uvBound pr
  have he := BrushHelper.emitRung_vertices (s._computeUV s.uvBound pr) p q s._verticesCount pr
    (by rw [hu.2.2.2.2.2.1]; omega)
  have ht := (BrushHelper.computeThickness_congr s (s._computeUV s.uvBound pr) pr hu.1
    hu.2.2.2.2.2.2.2.2.2.2.1 hu.2.2.2.2.2.2.2.2.2.1).1
  rw [ht, ← (BrushHelper.addPoint_arrays sqrt s p q pr hacc).1] at he
  refine ⟨?_, ?_, n2, ?_, ?_⟩
  · intro t ht6
    rw [n1, hw.1 hbn t ht6, hsm]
  · intro i hi
    rw [n1, hw.2 i hi]
  · unfold vertexAt
    have e : 3 * (2 * r) = s._verticesCount := by omega
    rw [e]
    exact he.1
  · unfold vertexAt
    have e : 3 * (2 * r + 1) = s._verticesCount + 3 := by omega
    rw [e]
    exact he.2.1

/-- Witness for C9: the third sample of the straight stroke finds `r = 2` rungs;
the first normal triple it writes is the window average over the six vertices. -/
theorem C9_smoothed_normal_witness :
    (run Real.sqrt (BrushHelper.construct (denseOptions : Options ℝ)).createMesh
      (strokeSamples 2)).tooClose Real.sqrt ⟨0, 2, 0⟩ = false ∧
    (run Real.sqrt (BrushHelper.construct (denseOptions : Options ℝ)).createMesh
      (strokeSamples 2))._verticesCount = 6 * 2 ∧
    (run Real.sqrt (BrushHelper.construct (denseOptions : Options ℝ)).createMesh
      (strokeSamples 2))._normalsCount + 18 ≤
      (run Real.sqrt (BrushHelper.construct (denseOptions : Options ℝ)).createMesh
        (strokeSamples 2))._normals.length ∧
    ((run Real.sqrt (BrushHelper.construct (denseOptions : Options ℝ)).createMesh
      (strokeSamples 2)).addPoint Real.sqrt ⟨0, 2, 0⟩ ⟨0, 0, 0, 1⟩ 1)._normals =
      normalizeNormals Real.sqrt
        (((run Real.sqrt (BrushHelper.construct (denseOptions : Options ℝ)).createMesh
          (strokeSamples 2))._computeUV
            (run Real.sqrt (BrushHelper.construct (denseOptions : Options ℝ)).createMesh
              (strokeSamples 2)).uvBound 1).processPointRaw ⟨0, 2, 0⟩ ⟨0, 0, 0, 1⟩
          (run Real.sqrt (BrushHelper.construct (denseOptions : Options ℝ)).createMesh
            (strokeSamples 2))._verticesCount
          (run Real.sqrt (BrushHelper.construct (denseOptions : Options ℝ)).createMesh
            (strokeSamples 2))._normalsCount 1)._normals :=
  have hf := denseRun_fields 2
  have hn := denseRun_normals 2
  have hbv : 6 * 2 + 6 ≤ (run Real.sqrt
      (BrushHelper.construct (denseOptions : Options ℝ)).createMesh
      (strokeSamples 2))._vertices.length := by rw [hn.1]; decide
  have hbn : (run Real.sqrt (BrushHelper.construct (denseOptions : Options ℝ)).createMesh
      (strokeSamples 2))._normalsCount + 18 ≤
      (run Real.sqrt (BrushHelper.construct (denseOptions : Options ℝ)).createMesh
        (strokeSamples 2))._normals.length := by rw [hn.2.1, hn.2.2]; decide
  ⟨hf.2.2.2 _, hf.2.1, hbn,
    (C9_smoothed_normal Real.sqrt _ ⟨0, 2, 0⟩ ⟨0, 0, 0, 1⟩ 1 2 (hf.2.2.2 _) hf.2.1
      (le_refl 2) hbv hbn).2.2.1⟩

/-- C10, the code at the failing input.  On a fresh segment with every sample
accepted, the second sample (the one that brings the segment to 2 rungs) writes
no normal at all: the normal array and the normal cursor stay as they were.  The
third sample and all later ones use a window of 3 triangles: for a local cursor
`6r + 6` with `r ≥ 2` the tests `verticesCount - 9 = 0` and
`verticesCount - 12 = 3` both fail. -/
theorem C10_lookback_window_code :
    ((run Real.sqrt (BrushHelper.construct (denseOptions : Options ℝ)).createMesh
      (strokeSamples 1)).addPoint Real.sqrt ⟨0, 1, 0⟩ ⟨0, 0, 0, 1⟩ 1)._verticesCount = 12 ∧
    ((run Real.sqrt (BrushHelper.construct (denseOptions : Options ℝ)).createMesh
      (strokeSamples 1)).addPoint Real.sqrt ⟨0, 1, 0⟩ ⟨0, 0, 0, 1⟩ 1)._normals =
      (run Real.sqrt (BrushHelper.construct (denseOptions : Options ℝ)).createMesh
        (strokeSamples 1))._normals ∧
    ((run Real.sqrt (BrushHelper.construct (denseOptions : Options ℝ)).createMesh
      (strokeSamples 1)).addPoint Real.sqrt ⟨0, 1, 0⟩ ⟨0, 0, 0, 1⟩ 1)._normalsCount = 0 ∧
    (∀ i, (run Real.sqrt (BrushHelper.construct (denseOptions : Options ℝ)).createMesh
      (strokeSamples 1))._normals.read i = 0) ∧
    BrushHelper.it 18 = 3 ∧
    (∀ r, BrushHelper.it (6 * (r + 2) + 6) = 3) := by
  have hf := denseRun_fields 1
  have hn := denseRun_normals 1
  have ha := BrushHelper.addPoint_accept Real.sqrt _ ⟨0, 1, 0⟩ ⟨0, 0, 0, 1⟩ 1 (hf.2.2.2 ⟨0, 1, 0⟩)
  have hN := (BrushHelper.addPoint_normals Real.sqrt _ ⟨0, 1, 0⟩ ⟨0, 0, 0, 1⟩ 1
    (hf.2.2.2 ⟨0, 1, 0⟩)).1 (by rw [hf.2.1]; decide)
  refine ⟨by rw [ha.1, hf.2.1], hN.1, by rw [hN.2, hn.2.2], ?_, by decide, ?_⟩
  · intro i
    have h0 := (BrushHelper.addPoint_normals Real.sqrt
      (BrushHelper.construct (denseOptions : Options ℝ)).createMesh ⟨0, ((0 : Nat) : ℝ), 0⟩
      ⟨0, 0, 0, 1⟩ 1 rfl).1 (by decide)
    show (run Real.sqrt ((BrushHelper.construct (denseOptions : Options ℝ)).createMesh.addPoint
      Real.sqrt ⟨0, ((0 : Nat) : ℝ), 0⟩ ⟨0, 0, 0, 1⟩ 1) [])._normals.read i = 0
    show ((BrushHelper.construct (denseOptions : Options ℝ)).createMesh.addPoint
      Real.sqrt ⟨0, ((0 : Nat) : ℝ), 0⟩ ⟨0, 0, 0, 1⟩ 1)._normals.read i = 0
    rw [h0.1]
    rfl
  · intro r
    unfold BrushHelper.it
    rw [if_neg (by omega), if_neg (by omega)]

/-- C14. First-sample scenario: on a fresh segment `addPoint(p0, identity, 1.0)` is
accepted; afterwards `_verticesCount = 6`, the draw range is `(0, 2)`,
`_normalsCount = 0` and every cell of the normal array is still 0. -/
theorem C14_first_sample (sqrt : K → K) (h : BrushHelper K) (p0 : Vector3 K) :
    h.createMesh.tooClose sqrt p0 = false ∧
    (h.createMesh.addPoint sqrt p0 ⟨0, 0, 0, 1⟩ 1.0)._verticesCount = 6 ∧
    (h.createMesh.addPoint sqrt p0 ⟨0, 0, 0, 1⟩ 1.0).drawRange = ⟨0, 2⟩ ∧
    (h.createMesh.addPoint sqrt p0 ⟨0, 0, 0, 1⟩ 1.0)._normalsCount = 0 ∧
    (∀ i, (h.createMesh.addPoint sqrt p0 ⟨0, 0, 0, 1⟩ 1.0)._normals.read i = 0) := by
  have ht : h.createMesh.tooClose sqrt p0 = false := rfl
  have ha := BrushHelper.addPoint_accept sqrt h.createMesh p0 ⟨0, 0, 0, 1⟩ 1.0 ht
  have hn := (BrushHelper.addPoint_normals sqrt h.createMesh p0 ⟨0, 0, 0, 1⟩ 1.0 ht).1
    (by show 0 < 12; decide)
  refine ⟨ht, ?_, ?_, ?_, ?_⟩
  · rw [ha.1]; rfl
  · rw [ha.2.2.1]
    congr 1
    show (((0 + 6 : Nat) : K)) / 3 = 2
    norm_num
  · rw [hn.2]; rfl
  · intro i
    rw [hn.1]
    rfl

/-- C15, counterexample.  `maxSpread = 5`, six rungs in the segment: the bound
handed to the UV policy is 6, above `maxSpread`. -/
theorem C15_uv_bound_counterexample :
    (run Real.sqrt (BrushHelper.construct (denseOptions : Options ℝ)).createMesh
      (strokeSamples 6)).options.maxSpread = 5 ∧
    (run Real.sqrt (BrushHelper.construct (denseOptions : Options ℝ)).createMesh
      (strokeSamples 6))._verticesCount / 6 = 6 ∧
    (run Real.sqrt (BrushHelper.construct (denseOptions : Options ℝ)).createMesh
      (strokeSamples 6)).uvBound = 6 ∧
    ¬ (run Real.sqrt (BrushHelper.construct (denseOptions : Options ℝ)).createMesh
      (strokeSamples 6)).uvBound ≤
      ((run Real.sqrt (BrushHelper.construct (denseOptions : Options ℝ)).createMesh
        (strokeSamples 6)).options.maxSpread : ℝ) := by
  have hf := denseRun_fields 6
  have hm : (run Real.sqrt (BrushHelper.construct (denseOptions : Options ℝ)).createMesh
      (strokeSamples 6)).options.maxSpread = 5 := by rw [hf.1]; rfl
  have hb := BrushHelper.uvBound_eq _ 6 (by rw [hm]; decide) hf.2.1
  rw [hm] at hb
  have hb6 : (run Real.sqrt (BrushHelper.construct (denseOptions : Options ℝ)).createMesh
      (strokeSamples 6)).uvBound = 6 := by rw [hb]; norm_num
  refine ⟨hm, by rw [hf.2.1], hb6, ?_⟩
  rw [hb6, hm]
  norm_num

/-- C15, amended.  When `maxSpread > 0` and the segment holds `r` rungs, the bound
handed to the UV policy is `max(maxSpread, r)`: it is `maxSpread` while
`r < maxSpread`, and from `r ≥ maxSpread` on it is the rung index `r` itself, so it
keeps growing with the rung index and is never below `maxSpread`. -/
theorem C15_uv_bound (s : BrushHelper K) (r : Nat) (hm : 0 < s.options.maxSpread)
    (hr : s._verticesCount = 6 * r) :
    s.uvBound = ((max s.options.maxSpread r : Nat) : K) ∧
    (s.options.maxSpread ≤ r → s.uvBound = (r : K)) ∧
    (r < s.options.maxSpread → s.uvBound = (s.options.maxSpread : K)) ∧
    (s.options.maxSpread : K) ≤ s.uvBound := by
  have hb := BrushHelper.uvBound_eq s r hm hr
  refine ⟨hb, ?_, ?_, ?_⟩
  · intro h
    rw [hb, max_eq_right h]
  · intro h
    rw [hb, max_eq_left (le_of_lt h)]
  · rw [hb]
    exact_mod_cast le_max_left _ _

/-- Witness for the amended C15: `maxSpread = 5` and six rungs give the bound 6. -/
theorem C15_uv_bound_witness :
    0 < (run Real.sqrt (BrushHelper.construct (denseOptions : Options ℝ)).createMesh
      (strokeSamples 6)).options.maxSpread ∧
    (run Real.sqrt (BrushHelper.construct (denseOptions : Options ℝ)).createMesh
      (strokeSamples 6))._verticesCount = 6 * 6 ∧
    (run Real.sqrt (BrushHelper.construct (denseOptions : Options ℝ)).createMesh
      (strokeSamples 6)).uvBound = ((6 : Nat) : ℝ) :=
  have hf := denseRun_fields 6
  have hm : 0 < (run Real.sqrt (BrushHelper.construct (denseOptions : Options ℝ)).createMesh
      (strokeSamples 6)).options.maxSpread := by rw [hf.1]; decide
  ⟨hm, hf.2.1, (C15_uv_bound _ 6 hm hf.2.1).2.1 (by rw [hf.1]; decide)⟩

/-- C17, counterexample.  Spacing 2, last accepted point the origin: the sample at
`(2, 0, 0)` is at distance exactly 2, not strictly more than the spacing, and it
is accepted. -/
theorem C17_spacing_counterexample :
    (spacedHelper Real.sqrt)._lastPoint = some ⟨0, 0, 0⟩ ∧
    Vector3.distanceTo Real.sqrt (⟨0, 0, 0⟩ : Vector3 ℝ) ⟨2, 0, 0⟩ =
      (spacedHelper Real.sqrt)._delta ∧
    (spacedHelper Real.sqrt).tooClose Real.sqrt ⟨2, 0, 0⟩ = false ∧
    ((spacedHelper Real.sqrt).addPoint Real.sqrt ⟨2, 0, 0⟩ ⟨0, 0, 0, 1⟩ 1)._verticesCount =
      12 := by
  have hf := spacedHelper_fields Real.sqrt
  have hd : Vector3.distanceTo Real.sqrt (⟨0, 0, 0⟩ : Vector3 ℝ) ⟨2, 0, 0⟩ = 2 := by
    simp only [Vector3.distanceTo, Vector3.distanceToSquared]
    have : ((0 : ℝ) - 2) * (0 - 2) + (0 - 0) * (0 - 0) + (0 - 0) * (0 - 0) = 2 * 2 := by
      norm_num
    rw [this, Real.sqrt_mul_self (by norm_num)]
  have h2 : (spacedHelper Real.sqrt).tooClose Real.sqrt ⟨2, 0, 0⟩ = false := by
    simp only [BrushHelper.tooClose, hf.1, hf.2.1, hd, lt_self_iff_false, decide_False]
  refine ⟨hf.1, by rw [hd, hf.2.1], h2, ?_⟩
  rw [(BrushHelper.addPoint_accept Real.sqrt _ _ _ _ h2).1, hf.2.2]

/-- C17, amended.  In every run on a fresh segment each accepted sample other than
the first lies at a distance of at least `_delta` (not strictly more) from the
sample accepted before it. -/
theorem C17_spacing (sqrt : K → K) (h : BrushHelper K) (cs : List (Sample K)) :
    List.Chain'
      (fun a b : Sample K => h.createMesh._delta ≤ a.position.distanceTo sqrt b.position)
      (accepted sqrt h.createMesh cs) :=
  (accepted_chain sqrt cs h.createMesh).2

/-- C19, the code at the failing input.  With `maxSpread = 0` and the
pressure-independent policy the bound `max` handed to `_computeUVWithoutPressure`
is 0 on every sample of a run, the loop `for (i = 0; i <= max; i++)` runs its body
once, and that body evaluates `i / max` as `0 / 0`. -/
theorem C19_division_by_zero_code :
    (∀ n, (run Real.sqrt (BrushHelper.construct (unboundedOptions : Options ℝ)).createMesh
      (strokeSamples n)).uvBound = 0) ∧
    (BrushHelper.construct (unboundedOptions : Options ℝ)).createMesh._computeUV
      (BrushHelper.construct (unboundedOptions : Options ℝ)).createMesh.uvBound 1 =
      (((({ (BrushHelper.construct (unboundedOptions : Options ℝ)).createMesh with
        _uv := 0 } : BrushHelper ℝ).pushUV (((0 : Nat) : ℝ) / 0)).pushUV 0).pushUV
          (((0 : Nat) : ℝ) / 0)).pushUV 1 := by
  constructor
  · intro n
    apply BrushHelper.uvBound_zero
    rw [(run_static Real.sqrt _ _).1]
    rfl
  · rw [BrushHelper.uvBound_zero _ rfl]
    unfold BrushHelper._computeUV
    rw [if_neg (by decide)]
    unfold BrushHelper._computeUVWithoutPressure
    rw [Nat.floor_zero]
    unfold BrushHelper.uvLoop
    rw [if_pos (by norm_num)]
    unfold BrushHelper.uvLoop
    rfl

/-- C20. Normal cursor: after a run on a fresh segment with `k` accepted samples
`_normalsCount = 6 * max(0, k - 2)`.  An accepted sample that finds `k - 1 ≥ 2`
accepted samples before it (the `k`-th, `k ≥ 3`) has its normal cursor at
`6(k - 3)`, writes the averaged normal to the floats `[6(k-3), 6k)` and to no
other normal cell before the array is normalised, and leaves `_normalsCount` at
`6(k - 2)` and `_verticesCount` at `6k`, so every normal written belongs to a
vertex already emitted and the first twelve floats written overwrite the normals
of the two previous rungs. -/
theorem C20_normal_cursor (sqrt : K → K) (h : BrushHelper K) (cs : List (Sample K))
    (p : Vector3 K) (q : THREE.Quaternion K) (pr : K)
    (hacc : (run sqrt h.createMesh cs).tooClose sqrt p = false)
    (hk : 2 ≤ (accepted sqrt h.createMesh cs).length) :
    (∀ cs', (run sqrt h.createMesh cs')._normalsCount =
      6 * ((accepted sqrt h.createMesh cs').length - 2)) ∧
    (run sqrt h.createMesh cs)._normalsCount =
      6 * ((accepted sqrt h.createMesh cs).length + 1 - 3) ∧
    (∀ i, i < 6 * ((accepted sqrt h.createMesh cs).length + 1 - 3) ∨
        6 * ((accepted sqrt h.createMesh cs).length + 1) ≤ i →
      (((run sqrt h.createMesh cs)._computeUV (run sqrt h.createMesh cs).uvBound
        pr).processPointRaw p q (run sqrt h.createMesh cs)._verticesCount
        (run sqrt h.createMesh cs)._normalsCount pr)._normals.read i =
        (run sqrt h.createMesh cs)._normals.read i) ∧
    (6 * ((accepted sqrt h.createMesh cs).length + 1) ≤
        (run sqrt h.createMesh cs)._normals.length →
      ∀ t, t < 6 →
        Vector3.fromArray
          (((run sqrt h.createMesh cs)._computeUV (run sqrt h.createMesh cs).uvBound
            pr).processPointRaw p q (run sqrt h.createMesh cs)._verticesCount
            (run sqrt h.createMesh cs)._normalsCount pr)._normals
          (6 * ((accepted sqrt h.createMesh cs).length + 1 - 3) + 3 * t) =
          BrushHelper.smoothedNormal
            ((run sqrt h.createMesh cs).addPoint sqrt p q pr)._vertices
            ((run sqrt h.createMesh cs)._verticesCount + 6)
            (BrushHelper.it ((run sqrt h.createMesh cs)._verticesCount + 6))) ∧
    ((run sqrt h.createMesh cs).addPoint sqrt p q pr)._normalsCount =
      6 * ((accepted sqrt h.createMesh cs).length + 1 - 2) ∧
    ((run sqrt h.createMesh cs).addPoint sqrt p q pr)._verticesCount =
      6 * ((accepted sqrt h.createMesh cs).length + 1) := by
  have hN : ∀ cs', (run sqrt h.createMesh cs')._normalsCount =
      6 * ((accepted sqrt h.createMesh cs').length - 2) := by
    intro cs'
    have := run_normalsCount sqrt cs' h.createMesh 0 rfl rfl
    rw [Nat.zero_add] at this
    exact this
  have hv := (run_cursors sqrt h.createMesh cs).1
  have hv' : (run sqrt h.createMesh cs)._verticesCount =
      6 * (accepted sqrt h.createMesh cs).length := by
    rw [hv]; exact Nat.zero_add _
  have hnc : (run sqrt h.createMesh cs)._normalsCount =
      6 * ((accepted sqrt h.createMesh cs).length + 1 - 3) := by
    rw [hN cs]
    congr 1
  obtain ⟨n1, -, n3⟩ := (BrushHelper.addPoint_normals sqrt _ p q pr hacc).2
    (by rw [hv']; omega)
  have hw := BrushHelper.writeNormal_spec (run sqrt h.createMesh cs)._normals
    (run sqrt h.createMesh cs)._normalsCount
    (BrushHelper.smoothedNormal ((run sqrt h.createMesh cs).addPoint sqrt p q pr)._vertices
      ((run sqrt h.createMesh cs)._verticesCount + 6)
      (BrushHelper.it ((run sqrt h.createMesh cs)._verticesCount + 6)))
  refine ⟨hN, hnc, ?_, ?_, ?_, ?_⟩
  · intro i hi
    rw [n1]
    exact hw.2 i (by rw [hnc]; omega)
  · intro hb t ht
    rw [n1, ← hnc]
    exact hw.1 (by rw [hnc]; omega) t ht
  · rw [n3, hnc]; omega
  · rw [(BrushHelper.addPoint_accept sqrt _ p q pr hacc).1, hv']; ring

/-- Witness for C20: the third sample of the straight stroke (`k = 3`) leaves the
normal cursor at 6 and the vertex cursor at 18. -/
theorem C20_normal_cursor_witness :
    (run Real.sqrt (BrushHelper.construct (denseOptions : Options ℝ)).createMesh
      (strokeSamples 2)).tooClose Real.sqrt ⟨0, 2, 0⟩ = false ∧
    2 ≤ (accepted Real.sqrt (BrushHelper.construct (denseOptions : Options ℝ)).createMesh
      (strokeSamples 2)).length ∧
    ((run Real.sqrt (BrushHelper.construct (denseOptions : Options ℝ)).createMesh
      (strokeSamples 2)).addPoint Real.sqrt ⟨0, 2, 0⟩ ⟨0, 0, 0, 1⟩ 1)._normalsCount = 6 ∧
    ((run Real.sqrt (BrushHelper.construct (denseOptions : Options ℝ)).createMesh
      (strokeSamples 2)).addPoint Real.sqrt ⟨0, 2, 0⟩ ⟨0, 0, 0, 1⟩ 1)._verticesCount = 18 :=
  have hall : accepted Real.sqrt (BrushHelper.construct (denseOptions : Options ℝ)).createMesh
      (strokeSamples 2) = strokeSamples 2 :=
    accepted_all Real.sqrt Real.sqrt_nonneg _ (le_refl (0 : ℝ)) _
  have hk : 2 ≤ (accepted Real.sqrt
      (BrushHelper.construct (denseOptions : Options ℝ)).createMesh
      (strokeSamples 2)).length := by rw [hall]; exact le_refl 2
  have hc := C20_normal_cursor Real.sqrt (BrushHelper.construct (denseOptions : Options ℝ))
    (strokeSamples 2) ⟨0, 2, 0⟩ ⟨0, 0, 0, 1⟩ 1 ((denseRun_fields 2).2.2.2 _) hk
  ⟨(denseRun_fields 2).2.2.2 _, hk, by rw [hc.2.2.2.2.1, hall]; rfl,
    by rw [hc.2.2.2.2.2, hall]; rfl⟩

/-- C18. Rung vertices are distinct unless the thickness is zero: for an accepted
sample with a unit orientation quaternion (the six cells at the cursor being
cells of the array) the two vertices written are equal if and only if the
thickness `t` returned by the thickness policy is 0; their squared distance is
`(2t)^2`, so with a square root satisfying `sqrt(x * x) = |x|` they are `2|t|`
apart. -/
theorem C18_rung_distinct (sqrt : K → K) (s : BrushHelper K) (p : Vector3 K)
    (q : THREE.Quaternion K) (pr : K) (hacc : s.tooClose sqrt p = false)
    (hb : s._verticesCount + 6 ≤ s._vertices.length)
    (hq : q.x * q.x + q.y * q.y + q.z * q.z + q.w * q.w = 1)
    (hs : ∀ x, sqrt (x * x) = |x|) :
    (Vector3.fromArray (s.addPoint sqrt p q pr)._vertices s._verticesCount =
        Vector3.fromArray (s.addPoint sqrt p q pr)._vertices (s._verticesCount + 3) ↔
      (s._computeThickness pr).1 = 0) ∧
    (Vector3.fromArray (s.addPoint sqrt p q pr)._vertices s._verticesCount).distanceToSquared
        (Vector3.fromArray (s.addPoint sqrt p q pr)._vertices (s._verticesCount + 3)) =
      (2 * (s._computeThickness pr).1) * (2 * (s._computeThickness pr).1) ∧
    (Vector3.fromArray (s.addPoint sqrt p q pr)._vertices s._verticesCount).distanceTo sqrt
        (Vector3.fromArray (s.addPoint sqrt p q pr)._vertices (s._verticesCount + 3)) =
      2 * |(s._computeThickness pr).1| := by
  have hu := BrushHelper.computeUV_fields s s.uvBound pr
  have he := BrushHelper.emitRung_vertices (s._computeUV s.uvBound pr) p q s._verticesCount pr
    (by rw [hu.2.2.2.2.2.1]; exact hb)
  have ht := (BrushHelper.computeThickness_congr s (s._computeUV s.uvBound pr) pr hu.1
    hu.2.2.2.2.2.2.2.2.2.2.1 hu.2.2.2.2.2.2.2.2.2.1).1
  rw [ht, ← (BrushHelper.addPoint_arrays sqrt s p q pr hacc).1] at he
  have ha : ((Vector3.mk 1 0 0 : Vector3 K).applyQuaternion q).x *
        ((Vector3.mk 1 0 0 : Vector3 K).applyQuaternion q).x +
      ((Vector3.mk 1 0 0 : Vector3 K).applyQuaternion q).y *
        ((Vector3.mk 1 0 0 : Vector3 K).applyQuaternion q).y +
      ((Vector3.mk 1 0 0 : Vector3 K).applyQuaternion q).z *
        ((Vector3.mk 1 0 0 : Vector3 K).applyQuaternion q).z = 1 := by
    rw [applyQuaternion_axis_sq, hq]
    norm_num
  obtain ⟨r1, r2⟩ := rung_apart p ((Vector3.mk 1 0 0 : Vector3 K).applyQuaternion q)
    (s._computeThickness pr).1 ha
  rw [he.1, he.2.1]
  refine ⟨r2, r1, ?_⟩
  unfold Vector3.distanceTo
  rw [r1, hs, abs_mul, abs_two]

/-- Witness for C18: the first sample of a fresh segment with the identity
orientation and constant thickness 1; the two vertices are 2 apart. -/
theorem C18_rung_distinct_witness :
    (BrushHelper.construct (spacedOptions : Options ℝ)).createMesh.tooClose Real.sqrt
      ⟨3, 4, 5⟩ = false ∧
    ((0 : ℝ) * 0 + 0 * 0 + 0 * 0 + 1 * 1 = 1) ∧
    (Vector3.fromArray
      ((BrushHelper.construct (spacedOptions : Options ℝ)).createMesh.addPoint Real.sqrt
        ⟨3, 4, 5⟩ ⟨0, 0, 0, 1⟩ 1)._vertices 0).distanceTo Real.sqrt
      (Vector3.fromArray
        ((BrushHelper.construct (spacedOptions : Options ℝ)).createMesh.addPoint Real.sqrt
          ⟨3, 4, 5⟩ ⟨0, 0, 0, 1⟩ 1)._vertices 3) = 2 :=
  have hq : ((0 : ℝ) * 0 + 0 * 0 + 0 * 0 + 1 * 1 = 1) := by norm_num
  have ht : ((BrushHelper.construct (spacedOptions : Options ℝ)).createMesh._computeThickness
      1).1 = 1 := by
    norm_num [BrushHelper._computeThickness, BrushHelper.createMesh, BrushHelper.construct,
      spacedOptions]
  ⟨rfl, hq,
    ((C18_rung_distinct Real.sqrt (BrushHelper.construct (spacedOptions : Options ℝ)).createMesh
      ⟨3, 4, 5⟩ ⟨0, 0, 0, 1⟩ 1 rfl (by decide) hq Real.sqrt_mul_self_eq_abs).2.2).trans
      (by rw [ht]; norm_num)⟩

/-- C13. Pressure independence of the constant-thickness policy: with
`enablePressure` false the thickness of every rung is the stored `_thickness`
(`options.brushThickness / 2` at construction, `v / 2` after `setThickness(v)`,
kept by `createMesh` and `addPoint`), and two sequences of `createMesh`,
`addPoint` and `setThickness` calls that differ only in the pressure arguments end
in the same state, every field included. -/
theorem C13_pressure_independence (sqrt : K → K) (s : BrushHelper K) (os₁ os₂ : List (Op K))
    (hp : s.options.enablePressure = false)
    (hsame : List.Forall₂ Op.samePressureless os₁ os₂) :
    exec sqrt s os₁ = exec sqrt s os₂ ∧
    (∀ pr, ((exec sqrt s os₁)._computeThickness pr).1 = (exec sqrt s os₁)._thickness) ∧
    (BrushHelper.construct s.options)._thickness = s.options.brushThickness / 2 ∧
    (∀ v, (s.setThickness v)._thickness = v / 2) ∧
    s.createMesh._thickness = s._thickness ∧
    (∀ p q pr, (s.addPoint sqrt p q pr)._thickness = s._thickness) := by
  have hopt : ∀ (os : List (Op K)) (u : BrushHelper K), (exec sqrt u os).options = u.options := by
    intro os
    induction os with
    | nil => intro u; rfl
    | cons o os ih =>
      intro u
      show (exec sqrt (o.apply sqrt u) os).options = _
      rw [ih, Op.apply_options]
  refine ⟨exec_pressure_indep sqrt os₁ os₂ hsame s hp, ?_, rfl, fun _ => rfl, rfl, ?_⟩
  · intro pr
    unfold BrushHelper._computeThickness
    rw [hopt, hp]
    rfl
  · intro p q pr
    exact (BrushHelper.addPoint_static sqrt s p q pr).2.2.2.1

/-- Witness for C13: a constructed helper with the constant-thickness policy; the
strokes `createMesh, addPoint(p, q, 0.2), setThickness(4), addPoint(p', q, 0.9)`
and the same calls with pressures `1.0` and `0.0` end in the same state. -/
theorem C13_pressure_independence_witness :
    (BrushHelper.construct (spacedOptions : Options ℝ)).options.enablePressure = false ∧
    List.Forall₂ Op.samePressureless
      [Op.createMesh, Op.addPoint (⟨0, 0, 0⟩ : Vector3 ℝ) ⟨0, 0, 0, 1⟩ 0.2, Op.setThickness 4,
        Op.addPoint ⟨0, 3, 0⟩ ⟨0, 0, 0, 1⟩ 0.9]
      [Op.createMesh, Op.addPoint ⟨0, 0, 0⟩ ⟨0, 0, 0, 1⟩ 1.0, Op.setThickness 4,
        Op.addPoint ⟨0, 3, 0⟩ ⟨0, 0, 0, 1⟩ 0.0] ∧
    exec Real.sqrt (BrushHelper.construct (spacedOptions : Options ℝ))
      [Op.createMesh, Op.addPoint ⟨0, 0, 0⟩ ⟨0, 0, 0, 1⟩ 0.2, Op.setThickness 4,
        Op.addPoint ⟨0, 3, 0⟩ ⟨0, 0, 0, 1⟩ 0.9] =
    exec Real.sqrt (BrushHelper.construct (spacedOptions : Options ℝ))
      [Op.createMesh, Op.addPoint ⟨0, 0, 0⟩ ⟨0, 0, 0, 1⟩ 1.0, Op.setThickness 4,
        Op.addPoint ⟨0, 3, 0⟩ ⟨0, 0, 0, 1⟩ 0.0] :=
  have hsame : List.Forall₂ Op.samePressureless
      [Op.createMesh, Op.addPoint (⟨0, 0, 0⟩ : Vector3 ℝ) ⟨0, 0, 0, 1⟩ 0.2, Op.setThickness 4,
        Op.addPoint ⟨0, 3, 0⟩ ⟨0, 0, 0, 1⟩ 0.9]
      [Op.createMesh, Op.addPoint ⟨0, 0, 0⟩ ⟨0, 0, 0, 1⟩ 1.0, Op.setThickness 4,
        Op.addPoint ⟨0, 3, 0⟩ ⟨0, 0, 0, 1⟩ 0.0] := by
    refine List.Forall₂.cons ?_ (List.Forall₂.cons ?_ (List.Forall₂.cons ?_
      (List.Forall₂.cons ?_ List.Forall₂.nil)))
    · exact trivial
    · exact ⟨rfl, rfl⟩
    · exact rfl
    · exact ⟨rfl, rfl⟩
  ⟨rfl, hsame,
    (C13_pressure_independence Real.sqrt (BrushHelper.construct (spacedOptions : Options ℝ))
      _ _ rfl hsame).1⟩

/-- C16, counterexample.  Pressure policy, default capacity of 10000 rungs: after
10000 accepted samples the UV array (40000 floats) is full.  One more `addPoint`
is accepted all the same: `_uvCount` becomes 40004, past the end of the UV
array, `_verticesCount` becomes 60006 (10001 rungs), the draw range grows to
20002 vertices, and the UV array is left as it was, the four writes being
dropped. -/
theorem C16_capacity_counterexample :
    (run Real.sqrt (BrushHelper.construct (pressureOptions : Options ℝ)).createMesh
      (strokeSamples 10000))._verticesCount = 6 * 10000 ∧
    (run Real.sqrt (BrushHelper.construct (pressureOptions : Options ℝ)).createMesh
      (strokeSamples 10000))._uv =
      (run Real.sqrt (BrushHelper.construct (pressureOptions : Options ℝ)).createMesh
        (strokeSamples 10000))._uvs.length ∧
    ((run Real.sqrt (BrushHelper.construct (pressureOptions : Options ℝ)).createMesh
      (strokeSamples 10000)).addPoint Real.sqrt ⟨0, 10000, 0⟩ ⟨0, 0, 0, 1⟩ 1)._uvCount =
      40004 ∧
    ((run Real.sqrt (BrushHelper.construct (pressureOptions : Options ℝ)).createMesh
      (strokeSamples 10000)).addPoint Real.sqrt ⟨0, 10000, 0⟩ ⟨0, 0, 0, 1⟩ 1)._uvs.length <
      ((run Real.sqrt (BrushHelper.construct (pressureOptions : Options ℝ)).createMesh
        (strokeSamples 10000)).addPoint Real.sqrt ⟨0, 10000, 0⟩ ⟨0, 0, 0, 1⟩ 1)._uvCount ∧
    ((run Real.sqrt (BrushHelper.construct (pressureOptions : Options ℝ)).createMesh
      (strokeSamples 10000)).addPoint Real.sqrt ⟨0, 10000, 0⟩ ⟨0, 0, 0, 1⟩
        1)._verticesCount = 60006 ∧
    ((run Real.sqrt (BrushHelper.construct (pressureOptions : Options ℝ)).createMesh
      (strokeSamples 10000)).addPoint Real.sqrt ⟨0, 10000, 0⟩ ⟨0, 0, 0, 1⟩ 1).drawRange =
      ⟨0, 20002⟩ ∧
    ((run Real.sqrt (BrushHelper.construct (pressureOptions : Options ℝ)).createMesh
      (strokeSamples 10000)).addPoint Real.sqrt ⟨0, 10000, 0⟩ ⟨0, 0, 0, 1⟩ 1)._uvs =
      (run Real.sqrt (BrushHelper.construct (pressureOptions : Options ℝ)).createMesh
        (strokeSamples 10000))._uvs := by
  obtain ⟨ho, hv, huc, hu, hl, -, ht⟩ := pressureRun_fields 10000
  have ha := BrushHelper.addPoint_accept Real.sqrt _ ⟨0, 10000, 0⟩ ⟨0, 0, 0, 1⟩ 1
    (ht ⟨0, 10000, 0⟩)
  have hs := BrushHelper.addPoint_static Real.sqrt
    (run Real.sqrt (BrushHelper.construct (pressureOptions : Options ℝ)).createMesh
      (strokeSamples 10000)) ⟨0, 10000, 0⟩ ⟨0, 0, 0, 1⟩ 1
  have hr := BrushHelper.addPoint_arrays Real.sqrt _ ⟨0, 10000, 0⟩ ⟨0, 0, 0, 1⟩ 1
    (ht ⟨0, 10000, 0⟩)
  have hp : (run Real.sqrt (BrushHelper.construct (pressureOptions : Options ℝ)).createMesh
      (strokeSamples 10000)).options.enablePressure = true := by rw [ho]; rfl
  refine ⟨hv, ?_, ?_, ?_, ?_, ?_, ?_⟩
  · omega
  · rw [ha.2.1]; omega
  · rw [hs.2.2.2.2.2.2, ha.2.1]; omega
  · rw [ha.1]; omega
  · have h3 : (((6 * 10000 + 6 : Nat) : ℝ)) / 3 = 20002 := by norm_num
    rw [ha.2.2.1, hv, h3]
  · rw [hr.2.1]
    unfold BrushHelper._computeUV
    rw [hp, if_pos rfl]
    exact BrushHelper.push4_full _ _ _ _ _ (by omega)

/-- C16, amended.  `addPoint` has no capacity guard: an accepted call advances
`_verticesCount` by 6, `_uvCount` by 4 and the draw range to
`(0, _verticesCount / 3)` whatever the arrays can hold; when the vertex cursor
stands at or beyond the end of the position array the position array is left
unchanged, and under the pressure policy with the UV cursor at or beyond the end
of the UV array the UV array is left unchanged: the out-of-range writes are
dropped. -/
theorem C16_no_capacity_guard (sqrt : K → K) (s : BrushHelper K) (p : Vector3 K)
    (q : THREE.Quaternion K) (pr : K) (hacc : s.tooClose sqrt p = false) :
    (s.addPoint sqrt p q pr)._verticesCount = s._verticesCount + 6 ∧
    (s.addPoint sqrt p q pr)._uvCount = s._uvCount + 4 ∧
    (s.addPoint sqrt p q pr).drawRange = ⟨0, ((s._verticesCount + 6 : Nat) : K) / 3⟩ ∧
    (s._vertices.length ≤ s._verticesCount → (s.addPoint sqrt p q pr)._vertices = s._vertices) ∧
    (s.options.enablePressure = true → s._uvs.length ≤ s._uv →
      (s.addPoint sqrt p q pr)._uvs = s._uvs) := by
  have ha := BrushHelper.addPoint_accept sqrt s p q pr hacc
  have hr := BrushHelper.addPoint_arrays sqrt s p q pr hacc
  have hu := BrushHelper.computeUV_fields s s.uvBound pr
  refine ⟨ha.1, ha.2.1, ha.2.2.1, ?_, ?_⟩
  · intro hfull
    rw [hr.1, BrushHelper.emitRung_full _ _ _ _ _ (by rw [hu.2.2.2.2.2.1]; exact hfull),
      hu.2.2.2.2.2.1]
  · intro hp hfull
    rw [hr.2.1]
    unfold BrushHelper._computeUV
    rw [hp, if_pos rfl]
    exact BrushHelper.push4_full _ _ _ _ _ hfull

/-- Witness for the amended C16: the call that follows 10000 accepted samples is
accepted and moves the vertex cursor from 60000 to 60006. -/
theorem C16_no_capacity_guard_witness :
    (run Real.sqrt (BrushHelper.construct (pressureOptions : Options ℝ)).createMesh
      (strokeSamples 10000)).tooClose Real.sqrt ⟨0, 10000, 0⟩ = false ∧
    ((run Real.sqrt (BrushHelper.construct (pressureOptions : Options ℝ)).createMesh
      (strokeSamples 10000)).addPoint Real.sqrt ⟨0, 10000, 0⟩ ⟨0, 0, 0, 1⟩
        1)._verticesCount =
      (run Real.sqrt (BrushHelper.construct (pressureOptions : Options ℝ)).createMesh
        (strokeSamples 10000))._verticesCount + 6 :=
  ⟨(pressureRun_fields 10000).2.2.2.2.2.2 _,
    (C16_no_capacity_guard Real.sqrt _ ⟨0, 10000, 0⟩ ⟨0, 0, 0, 1⟩ 1
      ((pressureRun_fields 10000).2.2.2.2.2.2 _)).1⟩

/-- C11, counterexample.  Three samples along the x axis with the identity
orientation: the rungs lie on the stroke's own line, the six vertices are
collinear, and the normal averaged by the third sample is the zero vector.  It
cannot be normalised: in exact arithmetic the first triple written stays
`(0, 0, 0)`, of length 0 (in JavaScript `0 * (1 / 0)` is `NaN`), not 1. -/
theorem C11_unit_length_counterexample :
    (run Real.sqrt (BrushHelper.construct (denseOptions : Options ℝ)).createMesh
      [⟨⟨0, 0, 0⟩, ⟨0, 0, 0, 1⟩, 1⟩, ⟨⟨3, 0, 0⟩, ⟨0, 0, 0, 1⟩, 1⟩]).tooClose Real.sqrt
      ⟨6, 0, 0⟩ = false ∧
    (run Real.sqrt (BrushHelper.construct (denseOptions : Options ℝ)).createMesh
      [⟨⟨0, 0, 0⟩, ⟨0, 0, 0, 1⟩, 1⟩, ⟨⟨3, 0, 0⟩, ⟨0, 0, 0, 1⟩, 1⟩])._verticesCount = 12 ∧
    Vector3.fromArray
      ((run Real.sqrt (BrushHelper.construct (denseOptions : Options ℝ)).createMesh
        [⟨⟨0, 0, 0⟩, ⟨0, 0, 0, 1⟩, 1⟩, ⟨⟨3, 0, 0⟩, ⟨0, 0, 0, 1⟩, 1⟩]).addPoint Real.sqrt
          ⟨6, 0, 0⟩ ⟨0, 0, 0, 1⟩ 1)._normals 0 = ⟨0, 0, 0⟩ ∧
    (Vector3.fromArray
      ((run Real.sqrt (BrushHelper.construct (denseOptions : Options ℝ)).createMesh
        [⟨⟨0, 0, 0⟩, ⟨0, 0, 0, 1⟩, 1⟩, ⟨⟨3, 0, 0⟩, ⟨0, 0, 0, 1⟩, 1⟩]).addPoint Real.sqrt
          ⟨6, 0, 0⟩ ⟨0, 0, 0, 1⟩ 1)._normals 0).length Real.sqrt ≠ 1 := by
  obtain ⟨-, hv, hn, -, hnl, -, ht, -⟩ := denseRun_of
    [⟨⟨0, 0, 0⟩, ⟨0, 0, 0, 1⟩, 1⟩, ⟨⟨3, 0, 0⟩, ⟨0, 0, 0, 1⟩, 1⟩]
  obtain ⟨v3, v6, v9, v12, v15⟩ := denseRun_three ⟨0, 0, 0⟩ ⟨3, 0, 0⟩ ⟨6, 0, 0⟩
  have hw : windowNormal
      ((run Real.sqrt (BrushHelper.construct (denseOptions : Options ℝ)).createMesh
        [⟨⟨0, 0, 0⟩, ⟨0, 0, 0, 1⟩, 1⟩, ⟨⟨3, 0, 0⟩, ⟨0, 0, 0, 1⟩, 1⟩]).addPoint Real.sqrt
          ⟨6, 0, 0⟩ ⟨0, 0, 0, 1⟩ 1)._vertices (2 * 2 + 2) (BrushHelper.it (6 * 2 + 6)) =
      ⟨0, 0, 0⟩ := by
    show windowNormal _ 6 3 = _
    rw [windowNormal_six, v3, v6, v9, v12, v15]
    simp [Vector3.sub, Vector3.cross, Vector3.add, Vector3.multiplyScalar]
  have h3 := BrushHelper.addPoint_normal_triple Real.sqrt _ ⟨6, 0, 0⟩ ⟨0, 0, 0, 1⟩ 1 2 0
    (ht ⟨6, 0, 0⟩) hv (le_refl 2) hn (by rw [hn, hnl]; decide) 0 (by decide)
  rw [hw, hn] at h3
  have hz : Vector3.fromArray
      ((run Real.sqrt (BrushHelper.construct (denseOptions : Options ℝ)).createMesh
        [⟨⟨0, 0, 0⟩, ⟨0, 0, 0, 1⟩, 1⟩, ⟨⟨3, 0, 0⟩, ⟨0, 0, 0, 1⟩, 1⟩]).addPoint Real.sqrt
          ⟨6, 0, 0⟩ ⟨0, 0, 0, 1⟩ 1)._normals 0 = ⟨0, 0, 0⟩ := by
    refine Eq.trans h3 ?_
    simp [Vector3.multiplyScalar]
  refine ⟨ht _, hv, hz, ?_⟩
  rw [hz]
  simp [Vector3.length]

/-- C11, amended.  Over the reals: an accepted sample that finds `r ≥ 2` rungs in
the segment (normal cursor a multiple of 3, the 18 normal cells and the six
position cells at the cursors being cells of the arrays) leaves length 1 in each
of the six normal triples it writes, provided the averaged vector it writes
before normalisation is not the zero vector. -/
theorem C11_unit_length (s : BrushHelper ℝ) (p : Vector3 ℝ) (q : THREE.Quaternion ℝ) (pr : ℝ)
    (r a : Nat) (hacc : s.tooClose Real.sqrt p = false) (hr : s._verticesCount = 6 * r)
    (h2 : 2 ≤ r) (h3 : s._normalsCount = 3 * a)
    (hbn : s._normalsCount + 18 ≤ s._normals.length)
    (_hbv : s._verticesCount + 6 ≤ s._vertices.length)
    (hne : windowNormal (s.addPoint Real.sqrt p q pr)._vertices (2 * r + 2)
      (BrushHelper.it (6 * r + 6)) ≠ ⟨0, 0, 0⟩) :
    ∀ t, t < 6 →
      (Vector3.fromArray (s.addPoint Real.sqrt p q pr)._normals
        (s._normalsCount + 3 * t)).length Real.sqrt = 1 := by
  intro t ht
  rw [BrushHelper.addPoint_normal_triple Real.sqrt s p q pr r a hacc hr h2 h3 hbn t ht]
  exact length_normalized _ hne

/-- Witness for the amended C11: the third sample of a straight stroke along the
y axis; the averaged normal is `(0, 0, 2/3)` and the first triple written has
length 1. -/
theorem C11_unit_length_witness :
    (run Real.sqrt (BrushHelper.construct (denseOptions : Options ℝ)).createMesh
      [⟨⟨0, 0, 0⟩, ⟨0, 0, 0, 1⟩, 1⟩, ⟨⟨0, 1, 0⟩, ⟨0, 0, 0, 1⟩, 1⟩]).tooClose Real.sqrt
      ⟨0, 2, 0⟩ = false ∧
    (run Real.sqrt (BrushHelper.construct (denseOptions : Options ℝ)).createMesh
      [⟨⟨0, 0, 0⟩, ⟨0, 0, 0, 1⟩, 1⟩, ⟨⟨0, 1, 0⟩, ⟨0, 0, 0, 1⟩, 1⟩])._verticesCount = 6 * 2 ∧
    windowNormal
      ((run Real.sqrt (BrushHelper.construct (denseOptions : Options ℝ)).createMesh
        [⟨⟨0, 0, 0⟩, ⟨0, 0, 0, 1⟩, 1⟩, ⟨⟨0, 1, 0⟩, ⟨0, 0, 0, 1⟩, 1⟩]).addPoint Real.sqrt
          ⟨0, 2, 0⟩ ⟨0, 0, 0, 1⟩ 1)._vertices (2 * 2 + 2) (BrushHelper.it (6 * 2 + 6)) =
      ⟨0, 0, 2 / 3⟩ ∧
    (Vector3.fromArray
      ((run Real.sqrt (BrushHelper.construct (denseOptions : Options ℝ)).createMesh
        [⟨⟨0, 0, 0⟩, ⟨0, 0, 0, 1⟩, 1⟩, ⟨⟨0, 1, 0⟩, ⟨0, 0, 0, 1⟩, 1⟩]).addPoint Real.sqrt
          ⟨0, 2, 0⟩ ⟨0, 0, 0, 1⟩ 1)._normals 0).length Real.sqrt = 1 :=
  have hd := denseRun_of [⟨⟨0, 0, 0⟩, ⟨0, 0, 0, 1⟩, 1⟩, ⟨⟨0, 1, 0⟩, ⟨0, 0, 0, 1⟩, 1⟩]
  have hv3 := denseRun_three ⟨0, 0, 0⟩ ⟨0, 1, 0⟩ ⟨0, 2, 0⟩
  have hw : windowNormal
      ((run Real.sqrt (BrushHelper.construct (denseOptions : Options ℝ)).createMesh
        [⟨⟨0, 0, 0⟩, ⟨0, 0, 0, 1⟩, 1⟩, ⟨⟨0, 1, 0⟩, ⟨0, 0, 0, 1⟩, 1⟩]).addPoint Real.sqrt
          ⟨0, 2, 0⟩ ⟨0, 0, 0, 1⟩ 1)._vertices (2 * 2 + 2) (BrushHelper.it (6 * 2 + 6)) =
      ⟨0, 0, 2 / 3⟩ := by
    show windowNormal _ 6 3 = _
    rw [windowNormal_six, hv3.1, hv3.2.1, hv3.2.2.1, hv3.2.2.2.1, hv3.2.2.2.2]
    simp only [Vector3.sub, Vector3.cross, Vector3.add, Vector3.multiplyScalar,
      Vector3.mk.injEq]
    norm_num
  have hne : windowNormal
      ((run Real.sqrt (BrushHelper.construct (denseOptions : Options ℝ)).createMesh
        [⟨⟨0, 0, 0⟩, ⟨0, 0, 0, 1⟩, 1⟩, ⟨⟨0, 1, 0⟩, ⟨0, 0, 0, 1⟩, 1⟩]).addPoint Real.sqrt
          ⟨0, 2, 0⟩ ⟨0, 0, 0, 1⟩ 1)._vertices (2 * 2 + 2) (BrushHelper.it (6 * 2 + 6)) ≠
      ⟨0, 0, 0⟩ := by
    rw [hw]
    simp
  have hc := C11_unit_length _ ⟨0, 2, 0⟩ ⟨0, 0, 0, 1⟩ 1 2 0 (hd.2.2.2.2.2.2.1 _) hd.2.1
    (le_refl 2) hd.2.2.1 (by rw [hd.2.2.1, hd.2.2.2.2.1]; decide)
    (by rw [hd.2.1, hd.2.2.2.1]; decide) hne 0 (by decide)
  ⟨hd.2.2.2.2.2.2.1 _, hd.2.1, hw, by rw [hd.2.2.1] at hc; exact hc⟩

/-- C12, counterexample.  Pressure-independent policy with `maxSpread = 10000`,
default capacity: the very first `addPoint` on a fresh segment runs the UV loop
for `i = 0 .. 10000` and assigns `_uvs[40000]`, one past the last cell of the UV
array (40000 floats). -/
theorem C12_within_buffers_counterexample :
    (BrushHelper.construct (wideOptions : Options ℝ)).createMesh._uvs.length = 40000 ∧
    (BrushHelper.construct (wideOptions : Options ℝ)).createMesh.tooClose Real.sqrt
      ⟨0, 0, 0⟩ = false ∧
    (accepted Real.sqrt (BrushHelper.construct (wideOptions : Options ℝ)).createMesh
      [⟨⟨0, 0, 0⟩, ⟨0, 0, 0, 1⟩, 1⟩]).length ≤ 10000 ∧
    40000 ∈ (BrushHelper.construct (wideOptions : Options ℝ)).createMesh.uvIndices
      (BrushHelper.construct (wideOptions : Options ℝ)).createMesh.uvBound ∧
    ¬ runWithinBuffers Real.sqrt (BrushHelper.construct (wideOptions : Options ℝ)).createMesh
      [⟨⟨0, 0, 0⟩, ⟨0, 0, 0, 1⟩, 1⟩] := by
  have hb : (BrushHelper.construct (wideOptions : Options ℝ)).createMesh.uvBound =
      ((10000 : Nat) : ℝ) := by
    rw [BrushHelper.uvBound_eq _ 0 (by show 1 ≤ 10000; omega) rfl]
    rfl
  have hmem : 40000 ∈ (BrushHelper.construct (wideOptions : Options ℝ)).createMesh.uvIndices
      (BrushHelper.construct (wideOptions : Options ℝ)).createMesh.uvBound := by
    unfold BrushHelper.uvIndices
    rw [if_neg (by decide), hb, Nat.floor_natCast]
    exact BrushHelper.mem_uvLoopIndices ((10000 : Nat) : ℝ) (10000 + 1) 0 0 10000
      (Nat.zero_le _) (by omega) (le_refl _)
  have hlen : (BrushHelper.construct (wideOptions : Options ℝ)).createMesh._uvs.length =
      40000 := by
    show 10000 * 2 * 2 = 40000
    omega
  refine ⟨hlen, rfl, ?_, hmem, ?_⟩
  · rw [accepted_all Real.sqrt Real.sqrt_nonneg _ (le_refl (0 : ℝ))]
    show 1 ≤ 10000
    omega
  · intro h
    have := (h.1 rfl).1.2.2 40000 hmem
    rw [hlen] at this
    omega

/-- C12, amended.  For a configuration with the pressure policy, or with
`maxSpread` below the capacity `_vboLimit` of a segment in rungs (10000 for a
constructed helper), and for every run on a fresh segment with at most `_vboLimit`
accepted samples: every cell an accepted `addPoint` assigns or reads in the
position, normal and UV arrays is a cell of the array allocated by `createMesh`,
and the end of the draw range never exceeds the number of allocated vertices. -/
theorem C12_within_buffers (sqrt : K → K) (h : BrushHelper K) (cs : List (Sample K))
    (hcfg : h.options.enablePressure = true ∨ h.options.maxSpread < h._vboLimit)
    (hk : (accepted sqrt h.createMesh cs).length ≤ h._vboLimit) :
    runWithinBuffers sqrt h.createMesh cs ∧
    (BrushHelper.construct h.options)._vboLimit = 10000 := by
  refine ⟨?_, rfl⟩
  apply runWithinBuffers_of sqrt cs h.createMesh 0 h._vboLimit rfl rfl (fun _ => rfl)
  · show h._vboLimit * 3 * 3 = 9 * h._vboLimit
    omega
  · show h._vboLimit * 3 * 3 = 9 * h._vboLimit
    omega
  · show h._vboLimit * 2 * 2 = 4 * h._vboLimit
    omega
  · exact hcfg
  · rw [Nat.zero_add]; exact hk

/-- Witness for the amended C12: `maxSpread = 5`, three accepted samples of the
straight stroke. -/
theorem C12_within_buffers_witness :
    ((BrushHelper.construct (denseOptions : Options ℝ)).options.enablePressure = true ∨
      (BrushHelper.construct (denseOptions : Options ℝ)).options.maxSpread <
        (BrushHelper.construct (denseOptions : Options ℝ))._vboLimit) ∧
    (accepted Real.sqrt (BrushHelper.construct (denseOptions : Options ℝ)).createMesh
      (strokeSamples 3)).length ≤ (BrushHelper.construct (denseOptions : Options ℝ))._vboLimit ∧
    runWithinBuffers Real.sqrt (BrushHelper.construct (denseOptions : Options ℝ)).createMesh
      (strokeSamples 3) :=
  have hcfg : (BrushHelper.construct (denseOptions : Options ℝ)).options.enablePressure = true ∨
      (BrushHelper.construct (denseOptions : Options ℝ)).options.maxSpread <
        (BrushHelper.construct (denseOptions : Options ℝ))._vboLimit :=
    Or.inr (by show 5 < 10000; omega)
  have hk : (accepted Real.sqrt (BrushHelper.construct (denseOptions : Options ℝ)).createMesh
      (strokeSamples 3)).length ≤
      (BrushHelper.construct (denseOptions : Options ℝ))._vboLimit := by
    rw [accepted_all Real.sqrt Real.sqrt_nonneg _ (le_refl (0 : ℝ))]
    show (strokeSamples 3 : List (Sample ℝ)).length ≤ 10000
    unfold strokeSamples
    rw [List.length_map, List.length_range]
    omega
  ⟨hcfg, hk, (C12_within_buffers Real.sqrt (BrushHelper.construct (denseOptions : Options ℝ))
    (strokeSamples 3) hcfg hk).1⟩

/-- C21. Cancellation in the averaged normal.  Three consecutive accepted samples
`p₁, p₂, p₃` whose rungs were emitted with the same offset vector `o` (same
orientation and thickness), the six cells of each rung and the eighteen normal
cells existing: in the loop of the third call the cross products of the two newest
triangles add up to zero, each of the six normal triples written before
normalisation is `(2/3) * (o × (p₂ - p₁))`, where `p₃` does not occur, and this
vector is perpendicular to `o`. -/
theorem C21_normal_cancellation (sqrt : K → K) (s s₁ s₂ : BrushHelper K)
    (p₁ p₂ p₃ o : Vector3 K) (q₁ q₂ q₃ : THREE.Quaternion K) (pr₁ pr₂ pr₃ : K)
    (hs₁ : s₁ = s.addPoint sqrt p₁ q₁ pr₁) (hs₂ : s₂ = s₁.addPoint sqrt p₂ q₂ pr₂)
    (hacc₁ : s.tooClose sqrt p₁ = false) (hacc₂ : s₁.tooClose sqrt p₂ = false)
    (hacc₃ : s₂.tooClose sqrt p₃ = false)
    (ho₁ : ((Vector3.mk 1 0 0).applyQuaternion q₁).multiplyScalar (s._computeThickness pr₁).1 = o)
    (ho₂ : ((Vector3.mk 1 0 0).applyQuaternion q₂).multiplyScalar (s₁._computeThickness pr₂).1 = o)
    (ho₃ : ((Vector3.mk 1 0 0).applyQuaternion q₃).multiplyScalar (s₂._computeThickness pr₃).1 = o)
    (hbv : s._verticesCount + 18 ≤ s._vertices.length)
    (hbn : s₂._normalsCount + 18 ≤ s₂._normals.length) :
    (BrushHelper.triangleCross (s₂.addPoint sqrt p₃ q₃ pr₃)._vertices (s₂._verticesCount + 6) 0).add
      (BrushHelper.triangleCross (s₂.addPoint sqrt p₃ q₃ pr₃)._vertices (s₂._verticesCount + 6) 3) =
      ⟨0, 0, 0⟩ ∧
    (∀ t, t < 6 →
      Vector3.fromArray
        ((s₂._computeUV s₂.uvBound pr₃).processPointRaw p₃ q₃ s₂._verticesCount s₂._normalsCount
          pr₃)._normals (s₂._normalsCount + 3 * t) =
        (o.cross (p₂.sub p₁)).multiplyScalar (2 / 3)) ∧
    ((o.cross (p₂.sub p₁)).multiplyScalar (2 / 3)).x * o.x +
      ((o.cross (p₂.sub p₁)).multiplyScalar (2 / 3)).y * o.y +
      ((o.cross (p₂.sub p₁)).multiplyScalar (2 / 3)).z * o.z = 0 := by
  have a₁ := BrushHelper.addPoint_accept sqrt s p₁ q₁ pr₁ hacc₁
  have a₂ := BrushHelper.addPoint_accept sqrt s₁ p₂ q₂ pr₂ hacc₂
  have l₁ := (BrushHelper.addPoint_static sqrt s p₁ q₁ pr₁).2.2.2.2.1
  have l₂ := (BrushHelper.addPoint_static sqrt s₁ p₂ q₂ pr₂).2.2.2.2.1
  rw [← hs₁] at a₁ l₁
  rw [← hs₂] at a₂ l₂
  have c₁ : s₁._verticesCount = s._verticesCount + 6 := a₁.1
  have c₂ : s₂._verticesCount = s._verticesCount + 12 := by rw [a₂.1, c₁]
  have v₁ := BrushHelper.addPoint_vertices sqrt s p₁ q₁ pr₁ hacc₁
  have v₂ := BrushHelper.addPoint_vertices sqrt s₁ p₂ q₂ pr₂ hacc₂
  have v₃ := BrushHelper.addPoint_vertices sqrt s₂ p₃ q₃ pr₃ hacc₃
  rw [← hs₁, ho₁] at v₁
  rw [← hs₂, ho₂] at v₂
  rw [ho₃] at v₃
  have r₁ := (v₁.2 (by omega)).2
  have r₂ := v₂.2 (by omega)
  have r₃ := v₃.2 (by omega)
  rw [c₁, show s._verticesCount + 6 + 3 = s._verticesCount + 9 from rfl] at r₂
  rw [c₂, show s._verticesCount + 12 + 3 = s._verticesCount + 15 from rfl] at r₃
  have k₁ : Vector3.fromArray (s₂.addPoint sqrt p₃ q₃ pr₃)._vertices (s._verticesCount + 3) =
      p₁.add o := by
    rw [← r₁]
    refine (fromArray_congr _ s₂._vertices _ fun i h1 h2 => ?_).trans
      (fromArray_congr _ _ _ fun i h1 h2 => ?_)
    · exact v₃.1 i (Or.inl (by omega))
    · exact v₂.1 i (Or.inl (by omega))
  have k₂ : Vector3.fromArray (s₂.addPoint sqrt p₃ q₃ pr₃)._vertices (s._verticesCount + 6) =
      p₂.sub o := by
    rw [← r₂.1]
    exact fromArray_congr _ _ _ fun i h1 h2 => v₃.1 i (Or.inl (by omega))
  have k₃ : Vector3.fromArray (s₂.addPoint sqrt p₃ q₃ pr₃)._vertices (s._verticesCount + 9) =
      p₂.add o := by
    rw [← r₂.2]
    exact fromArray_congr _ _ _ fun i h1 h2 => v₃.1 i (Or.inl (by omega))
  have hc := smoothedNormal_cancel (s₂.addPoint sqrt p₃ q₃ pr₃)._vertices s._verticesCount
    o p₁ p₂ p₃ k₁ k₂ k₃ r₃.1 r₃.2
  have e : s₂._verticesCount + 6 = s._verticesCount + 18 := by omega
  obtain ⟨n1, -, -⟩ := (BrushHelper.addPoint_normals sqrt s₂ p₃ q₃ pr₃ hacc₃).2 (by omega)
  rw [e] at n1 ⊢
  rw [it_of_ge _ (by omega), hc.2] at n1
  refine ⟨hc.1, fun t ht => ?_, ?_⟩
  · rw [n1]
    exact (BrushHelper.writeNormal_spec _ _ _).1 hbn t ht
  · simp only [Vector3.cross, Vector3.sub, Vector3.multiplyScalar]
    ring

/-- Witness for C21: three samples one unit apart along the y axis on a fresh
segment with constant thickness 1 and the identity orientation, so `o = (1, 0, 0)`:
the first normal triple written by the third call is `(2/3) * ((1,0,0) × (0,1,0))`. -/
theorem C21_normal_cancellation_witness :
    Vector3.fromArray
      (((run Real.sqrt (BrushHelper.construct (denseOptions : Options ℝ)).createMesh
          (strokeSamples 2))._computeUV
        (run Real.sqrt (BrushHelper.construct (denseOptions : Options ℝ)).createMesh
          (strokeSamples 2)).uvBound 1).processPointRaw ⟨0, 2, 0⟩ ⟨0, 0, 0, 1⟩
        (run Real.sqrt (BrushHelper.construct (denseOptions : Options ℝ)).createMesh
          (strokeSamples 2))._verticesCount
        (run Real.sqrt (BrushHelper.construct (denseOptions : Options ℝ)).createMesh
          (strokeSamples 2))._normalsCount 1)._normals
      ((run Real.sqrt (BrushHelper.construct (denseOptions : Options ℝ)).createMesh
          (strokeSamples 2))._normalsCount + 3 * 0) =
      ((Vector3.mk 1 0 0 : Vector3 ℝ).cross
        ((Vector3.mk 0 ((1 : Nat) : ℝ) 0).sub (Vector3.mk 0 ((0 : Nat) : ℝ) 0))).multiplyScalar
        (2 / 3) :=
  have hax : ∀ u : BrushHelper ℝ, u.options = denseOptions → u._thickness = 1 → ∀ pr : ℝ,
      ((Vector3.mk 1 0 0 : Vector3 ℝ).applyQuaternion ⟨0, 0, 0, 1⟩).multiplyScalar
        (u._computeThickness pr).1 = ⟨1, 0, 0⟩ := by
    intro u hu ht pr
    unfold BrushHelper._computeThickness
    rw [hu]
    simp [denseOptions, ht, Vector3.applyQuaternion, Vector3.multiplyScalar]
  have f₀ := denseRun_of ([] : List (Sample ℝ))
  have f₁ := denseRun_of (strokeSamples 1 : List (Sample ℝ))
  have f₂ := denseRun_of (strokeSamples 2 : List (Sample ℝ))
  have t₀ := (run_static Real.sqrt (BrushHelper.construct (denseOptions : Options ℝ)).createMesh
    ([] : List (Sample ℝ))).2.2.2.1
  have t₁ := (run_static Real.sqrt (BrushHelper.construct (denseOptions : Options ℝ)).createMesh
    (strokeSamples 1 : List (Sample ℝ))).2.2.2.1
  have t₂ := (run_static Real.sqrt (BrushHelper.construct (denseOptions : Options ℝ)).createMesh
    (strokeSamples 2 : List (Sample ℝ))).2.2.2.1
  have th : (BrushHelper.construct (denseOptions : Options ℝ)).createMesh._thickness = 1 := by
    simp [BrushHelper.construct, BrushHelper.createMesh, denseOptions]
  (C21_normal_cancellation Real.sqrt
    (run Real.sqrt (BrushHelper.construct (denseOptions : Options ℝ)).createMesh [])
    (run Real.sqrt (BrushHelper.construct (denseOptions : Options ℝ)).createMesh
      (strokeSamples 1))
    (run Real.sqrt (BrushHelper.construct (denseOptions : Options ℝ)).createMesh
      (strokeSamples 2))
    ⟨0, ((0 : Nat) : ℝ), 0⟩ ⟨0, ((1 : Nat) : ℝ), 0⟩ ⟨0, 2, 0⟩ ⟨1, 0, 0⟩
    ⟨0, 0, 0, 1⟩ ⟨0, 0, 0, 1⟩ ⟨0, 0, 0, 1⟩ 1 1 1 rfl rfl
    (f₀.2.2.2.2.2.2.1 _) (f₁.2.2.2.2.2.2.1 _) (f₂.2.2.2.2.2.2.1 _)
    (hax _ f₀.1 (t₀.trans th) 1) (hax _ f₁.1 (t₁.trans th) 1) (hax _ f₂.1 (t₂.trans th) 1)
    (by rw [f₀.2.1, f₀.2.2.2.1]; decide)
    (by rw [f₂.2.2.1, f₂.2.2.2.2.1]; decide)).2.1 0 (by decide)

/-- C22. Bounds of the pressure-driven thickness.  Take a helper as constructed
and then used by any sequence of `createMesh`, `addPoint` and `setThickness` calls,
with `_thickness ≥ 0`, and call `_computeThicknessWithPressure` on it any number of
times; every pressure fed, in `addPoint` or directly, lies in `[0, 1]`.  Then there
is one call per pressure and, for every call, `_lastPressure` lies in `[0, 0.8]`
after the call, the smoothing factor `1 - |prev - c|` (the local `test`) lies in
`[0.2, 1]`, and the returned thickness lies in `[0, 0.8 * _thickness]`. -/
theorem C22_thickness_bounds (sqrt : K → K) (options : Options K) (ops : List (Op K))
    (ps : List K) (hops : ∀ p q pr, Op.addPoint p q pr ∈ ops → 0 ≤ pr ∧ pr ≤ 1)
    (hps : ∀ p ∈ ps, 0 ≤ p ∧ p ≤ 1)
    (ht : 0 ≤ (exec sqrt (BrushHelper.construct options) ops)._thickness) :
    (thicknessCalls (exec sqrt (BrushHelper.construct options) ops) ps).map Prod.snd = ps ∧
    ∀ c ∈ thicknessCalls (exec sqrt (BrushHelper.construct options) ops) ps,
      (0 ≤ (c.1._computeThicknessWithPressure c.2).2._lastPressure ∧
        (c.1._computeThicknessWithPressure c.2).2._lastPressure ≤ 0.8) ∧
      (0.2 ≤ c.1.test c.2 ∧ c.1.test c.2 ≤ 1) ∧
      (0 ≤ (c.1._computeThicknessWithPressure c.2).1 ∧
        (c.1._computeThicknessWithPressure c.2).1 ≤ 0.8 * c.1._thickness) := by
  have h0 : 0 ≤ (BrushHelper.construct options)._lastPressure ∧
      (BrushHelper.construct options)._lastPressure ≤ 0.8 := by
    show (0 : K) ≤ 0 ∧ (0 : K) ≤ 0.8
    exact ⟨le_refl _, by norm_num⟩
  have hi := exec_lastPressure sqrt ops (BrushHelper.construct options) hops h0
  constructor
  · generalize exec sqrt (BrushHelper.construct options) ops = s
    induction ps generalizing s with
    | nil => rfl
    | cons p ps ih =>
      rw [thicknessCalls, List.map_cons, ih (fun x hx => hps x (List.mem_cons_of_mem _ hx))]
  · intro c hc
    have hv := thicknessCalls_inv ps _ hps hi.1 hi.2 ht c hc
    have hb := computeThicknessWithPressure_bounds c.1 c.2 hv.1 hv.2.1
      (by rw [hv.2.2.1]; exact ht) hv.2.2.2.1
    exact ⟨hb.1, hb.2.1, hb.2.2.1⟩

/-- Witness for C22: a pressure-driven helper with base thickness 1 that has taken
one sample with pressure 1 is called with the pressures `0.5` and `1`; the first of
the two calls returns a thickness in `[0, 0.8]`. -/
theorem C22_thickness_bounds_witness :
    0 ≤ ((exec Real.sqrt (BrushHelper.construct (pressureOptions : Options ℝ))
        [Op.createMesh, Op.addPoint ⟨0, 0, 0⟩ ⟨0, 0, 0, 1⟩ 1])._computeThicknessWithPressure
          0.5).1 ∧
    ((exec Real.sqrt (BrushHelper.construct (pressureOptions : Options ℝ))
        [Op.createMesh, Op.addPoint ⟨0, 0, 0⟩ ⟨0, 0, 0, 1⟩ 1])._computeThicknessWithPressure
          0.5).1 ≤ 0.8 * 1 :=
  have hth : (exec Real.sqrt (BrushHelper.construct (pressureOptions : Options ℝ))
      [Op.createMesh, Op.addPoint ⟨0, 0, 0⟩ ⟨0, 0, 0, 1⟩ 1])._thickness = 1 := by
    show ((BrushHelper.construct (pressureOptions : Options ℝ)).createMesh.addPoint Real.sqrt
      ⟨0, 0, 0⟩ ⟨0, 0, 0, 1⟩ 1)._thickness = 1
    rw [(BrushHelper.addPoint_static Real.sqrt _ _ _ _).2.2.2.1]
    simp [BrushHelper.construct, BrushHelper.createMesh, pressureOptions]
  have h := (C22_thickness_bounds Real.sqrt (pressureOptions : Options ℝ)
    [Op.createMesh, Op.addPoint ⟨0, 0, 0⟩ ⟨0, 0, 0, 1⟩ 1] [0.5, 1]
    (by
      intro p q pr hm
      simp only [List.mem_cons, List.mem_singleton, Op.addPoint.injEq, List.mem_nil_iff,
        or_false, false_or, reduceCtorEq] at hm
      rw [hm.2.2]
      norm_num)
    (by
      intro p hp
      simp only [List.mem_cons, List.mem_singleton, List.mem_nil_iff, or_false] at hp
      rcases hp with rfl | rfl <;> norm_num)
    (by rw [hth]; norm_num)).2
    (exec Real.sqrt (BrushHelper.construct (pressureOptions : Options ℝ))
      [Op.createMesh, Op.addPoint ⟨0, 0, 0⟩ ⟨0, 0, 0, 1⟩ 1], 0.5) (List.mem_cons_self _ _)
  ⟨h.2.2.1, by have h2 := h.2.2.2; rw [hth] at h2; exact h2⟩

/-- C23. `_getNextPowerTwo` terminates for every integer `nb` (any bound of at
least `max(nb, 0) + 1` evaluations of the loop test is enough) and returns the
least power of two that is `≥ nb`: the result is `2 ^ e` for some `e ≥ 0`, it is
`≥ nb`, no power of two `≥ nb` is smaller, for `nb ≥ 1` it is `< 2 * nb`, and it is
1 when `nb ≤ 1`. -/
theorem C23_next_power_two (nb : Int) :
    ∃ e : Nat,
      (∀ fuel, nb.toNat + 1 ≤ fuel →
        PrimitivesRenderer._getNextPowerTwo fuel nb = some (2 ^ e)) ∧
      nb ≤ 2 ^ e ∧
      (∀ e' : Nat, nb ≤ 2 ^ e' → (2 : Int) ^ e ≤ 2 ^ e') ∧
      (1 ≤ nb → (2 : Int) ^ e < 2 * nb) ∧
      (nb ≤ 1 → (2 : Int) ^ e = 1) := by
  obtain ⟨e, -, hr, hge, hlt, hone⟩ :=
    PrimitivesRenderer.nextPowerTwoLoop_spec nb (nb.toNat + 1) 0
      (PrimitivesRenderer.fuel_bound nb)
  have h20 : (2 : Int) ^ 0 = 1 := rfl
  refine ⟨e, fun fuel hf => ?_, hge, fun e' he' => ?_, fun h1 => ?_, fun h1 => ?_⟩
  · obtain ⟨e₂, -, hr₂, hge₂, hlt₂, hone₂⟩ :=
      PrimitivesRenderer.nextPowerTwoLoop_spec nb fuel 0
        (le_trans (PrimitivesRenderer.fuel_bound nb) hf)
    have hee : e₂ = e :=
      le_antisymm (PrimitivesRenderer.pow_least nb e₂ e hlt₂ hge)
        (PrimitivesRenderer.pow_least nb e e₂ hlt hge₂)
    unfold PrimitivesRenderer._getNextPowerTwo
    rw [← hee]
    exact hr₂
  · exact pow_le_pow_right₀ (by norm_num) (PrimitivesRenderer.pow_least nb e e' hlt he')
  · by_cases h0 : 0 < e
    · exact hlt h0
    · have : e = 0 := by omega
      rw [this, h20]
      omega
  · rw [hone (by rw [h20]; exact h1), h20]

/-- C24. Particle texture cells are handed out once each in row-major order: on a
`PrimitivesRenderer` built with `bufferSide = s`, the `n`-th call of
`getAvailableIndex` (`n = 0, 1, ..., s * s - 1`) returns
`{ x: n mod s, y: floor(n / s) }`, with `0 ≤ x, y < s` and `y * s + x = n`, and
every cell of the `s`-by-`s` grid is returned by exactly one of those calls. -/
theorem C24_row_major_cells (s : Nat) :
    (∀ n, n < s * s →
      PrimitivesRenderer.nthCall (PrimitivesRenderer.construct s) n =
        some { x := n % s, y := n / s } ∧
      n % s < s ∧ n / s < s ∧ n / s * s + n % s = n) ∧
    (∀ x y, x < s → y < s →
      ∃ n, (n < s * s ∧
          PrimitivesRenderer.nthCall (PrimitivesRenderer.construct s) n = some { x := x, y := y }) ∧
        ∀ n', n' < s * s ∧
          PrimitivesRenderer.nthCall (PrimitivesRenderer.construct s) n' =
            some { x := x, y := y } → n' = n) := by
  constructor
  · intro n hn
    have hs : 0 < s := by
      rcases Nat.eq_zero_or_pos s with h | h
      · rw [h] at hn; omega
      · exact h
    refine ⟨PrimitivesRenderer.nthCall_eq s n hn, Nat.mod_lt _ hs, ?_, ?_⟩
    · exact Nat.div_lt_of_lt_mul hn
    · rw [Nat.mul_comm]
      exact Nat.div_add_mod n s
  · intro x y hx hy
    have hlt : y * s + x < s * s := by
      calc y * s + x < y * s + s := by omega
        _ = (y + 1) * s := by ring
        _ ≤ s * s := Nat.mul_le_mul_right s hy
    have hmod : (y * s + x) % s = x := by
      rw [Nat.add_comm, Nat.add_mul_mod_self_right, Nat.mod_eq_of_lt hx]
    have hdiv : (y * s + x) / s = y := by
      rw [Nat.add_comm, Nat.add_mul_div_right _ _ (by omega : 0 < s), Nat.div_eq_of_lt hx,
        Nat.zero_add]
    refine ⟨y * s + x, ⟨hlt, ?_⟩, ?_⟩
    · rw [PrimitivesRenderer.nthCall_eq s _ hlt, hmod, hdiv]
    · rintro n' ⟨hn', hc⟩
      rw [PrimitivesRenderer.nthCall_eq s _ hn'] at hc
      simp only [Option.some.injEq, Cell.mk.injEq] at hc
      rw [← hc.1, ← hc.2, Nat.mul_comm]
      exact (Nat.div_add_mod n' s).symm

/-- C25. EventDispatcher delivery: after any sequence of `register` calls on the
empty dispatcher, `dispatch(e, d)` calls exactly the callbacks registered under
`e`, once per registration and in registration order, each with the argument `d`,
and makes no call for a registration under another id; on an id without
registration it calls nothing (and returns); one more `register` leaves every
earlier delivery as it was and adds its callback at the end of the deliveries of
its own id. -/
theorem C25_dispatch_delivery {E C D : Type} [DecidableEq E] (rs : List (E × C)) (e : E) (d : D) :
    ((EventDispatcher.initial : EventDispatcher E C).registerAll rs).dispatch e d =
      ((rs.filter fun r => decide (r.1 = e)).map fun r => (r.2, d)) ∧
    ((∀ r ∈ rs, r.1 ≠ e) →
      ((EventDispatcher.initial : EventDispatcher E C).registerAll rs).dispatch e d = []) ∧
    (∀ (s : EventDispatcher E C) (e' : E) (c : C),
      (s.register e' c).dispatch e d =
        s.dispatch e d ++ (if e' = e then [(c, d)] else [])) := by
  have h := EventDispatcher.dispatch_registerAll rs (EventDispatcher.initial : EventDispatcher E C)
    e d
  have h0 : (EventDispatcher.initial : EventDispatcher E C).dispatch e d = [] := rfl
  rw [h0, List.nil_append] at h
  refine ⟨h, fun hno => ?_, fun s e' c => EventDispatcher.dispatch_register s e' c e d⟩
  rw [h]
  have : (rs.filter fun r => decide (r.1 = e)) = [] := by
    rw [List.filter_eq_nil_iff]
    intro r hr
    simpa using hno r hr
  rw [this]
  rfl

/-- C26. Button Down/Up alternation in `_triggerBoolButton`.  For every button and
every state, after a call `pressed` equals the reading, and the call dispatches
`{ type, status: 'Down' }` when the reading changes `false -> true`,
`{ type, status: 'Up' }` when it changes `true -> false`, `{ type }` when it stays
`true`, and nothing when it stays `false`.  For every sequence of readings fed for
one button from the constructed controller (`pressed = false`), `pressed` ends as
the last reading and the `i`-th event that carries a status carries `Down` for
even `i` and `Up` for odd `i` (counting from 0): the status events alternate
`Down, Up, Down, ...`, starting with `Down`. -/
theorem C26_button_alternation (b : ButtonID) (vs : List Bool) :
    (∀ (c : ViveController) (v : Bool),
      ((c._triggerBoolButton b v).1.buttons b).pressed = v ∧
      (c._triggerBoolButton b v).2 =
        match (c.buttons b).pressed, v with
        | false, true => [{ type := b, status := some Status.Down }]
        | true, false => [{ type := b, status := some Status.Up }]
        | true, true => [{ type := b, status := none }]
        | false, false => []) ∧
    ((ViveController.construct.feed b vs).1.buttons b).pressed = vs.getLast?.getD false ∧
    (∀ i x, ((ViveController.construct.feed b vs).2.filterMap fun e => e.status)[i]? = some x →
      x = if i % 2 = 0 then Status.Down else Status.Up) := by
  refine ⟨fun c v => ?_, (ViveController.feed_spec b vs ViveController.construct).1,
    fun i x hx => ?_⟩
  · obtain ⟨s1, -, s3, s4, s5, s6⟩ := ViveController.triggerBoolButton_spec c b v
    refine ⟨s1, ?_⟩
    cases hp : (c.buttons b).pressed <;> cases v
    · exact s6 hp rfl
    · exact s3 hp rfl
    · exact s4 hp rfl
    · exact s5 hp rfl
  · have h := (ViveController.feed_spec b vs ViveController.construct).2.2.2 i x hx
    rw [h]
    have hc : (ViveController.construct.buttons b).pressed = false := rfl
    rw [hc]
    by_cases hi : i % 2 = 0 <;> simp [hi]

/-- C27. Turtle bracket restore.  On a tree with a non-empty state stack,
`pushState` succeeds and pushes a state with the numbers of the top state and
three new objects that hold the values of its position, `hlu` matrix and
orientation.  For every sequence `u` of moves, turns and balanced brackets run
after it, the run of `pushState`, `u`, `popState` succeeds and leaves the state
stack exactly as it was before `pushState`, with every object that existed then
unchanged; in particular the top state is the same and its position and `hlu`
matrix hold the same values. -/
theorem C27_bracket_restore (M : JSMath K) (t : Tree K) (u : List (Cmd K)) (m₁ m₂ : Bool)
    (hne : t.states ≠ []) (hbal : balanced u = true) :
    (∃ st t₁, t.peekState = some st ∧ TreeTool.pushState M t m₁ = some t₁ ∧
      t₁.states = t.states ++
        [⟨t.heap.next, st.angle, t.heap.next + 1, st.step, t.heap.next + 2, st.pressure⟩] ∧
      t₁.heap.vectors t.heap.next = t.heap.vectors st.pos ∧
      t₁.heap.matrices (t.heap.next + 1) = t.heap.matrices st.hlu ∧
      t₁.heap.quaternions (t.heap.next + 2) = t.heap.quaternions st.orientation) ∧
    (∃ t', interpret M t (Cmd.pushState m₁ :: (u ++ [Cmd.popState m₂])) = some t' ∧
      t'.states = t.states ∧
      (∀ a, a < t.heap.next →
        t'.heap.vectors a = t.heap.vectors a ∧ t'.heap.matrices a = t.heap.matrices a ∧
          t'.heap.quaternions a = t.heap.quaternions a) ∧
      (∀ st, t.peekState = some st → st.pos < t.heap.next → st.hlu < t.heap.next →
        t'.peekState = some st ∧ t'.heap.vectors st.pos = t.heap.vectors st.pos ∧
          t'.heap.matrices st.hlu = t.heap.matrices st.hlu)) := by
  have hp : t.peekState = some (t.states.getLast hne) := List.getLast?_eq_getLast _ hne
  obtain ⟨p1, -, p3, p4, p5, p6, p7⟩ := Tree.pushState_spec t (t.states.getLast hne).pos
    (t.states.getLast hne).angle (t.states.getLast hne).hlu (t.states.getLast hne).step
    (t.states.getLast hne).orientation (t.states.getLast hne).pressure
  have habove : Tree.Above t.states t.heap 0
      (t.pushState (t.states.getLast hne).pos (t.states.getLast hne).angle
        (t.states.getLast hne).hlu (t.states.getLast hne).step
        (t.states.getLast hne).orientation (t.states.getLast hne).pressure) := by
    refine ⟨_, p1, rfl, ?_, p7, by rw [p3]; omega⟩
    intro st hst
    rw [List.mem_singleton] at hst
    rw [hst]
    exact ⟨le_refl _, Nat.le_succ _⟩
  have hpush : ∃ t₁, TreeTool.pushState M t m₁ = some t₁ ∧ Tree.Above t.states t.heap 0 t₁ ∧
      t₁.states = t.states ++
        [⟨t.heap.next, (t.states.getLast hne).angle, t.heap.next + 1,
          (t.states.getLast hne).step, t.heap.next + 2, (t.states.getLast hne).pressure⟩] ∧
      t₁.heap.vectors t.heap.next = t.heap.vectors (t.states.getLast hne).pos ∧
      t₁.heap.matrices (t.heap.next + 1) = t.heap.matrices (t.states.getLast hne).hlu ∧
      t₁.heap.quaternions (t.heap.next + 2) =
        t.heap.quaternions (t.states.getLast hne).orientation := by
    unfold TreeTool.pushState
    rw [hp]
    cases m₁
    · exact ⟨_, rfl, habove, p1, p4, p5, p6⟩
    · have hne' : (TreeTool._addMesh (t.pushState (t.states.getLast hne).pos
          (t.states.getLast hne).angle (t.states.getLast hne).hlu (t.states.getLast hne).step
          (t.states.getLast hne).orientation (t.states.getLast hne).pressure)).states ≠ [] := by
        show (t.pushState _ _ _ _ _ _).states ≠ []
        rw [p1]
        simp
      obtain ⟨t₁, e, d1, d2⟩ := TreeTool.draw_some M _ hne'
      refine ⟨t₁, e, (TreeTool.addMesh_above habove).frame d1 (fun _ _ => by rw [d2])
        (fun _ _ => by rw [d2]) (fun _ => by rw [d2]) (by rw [d2]), d1.trans p1, ?_, ?_, ?_⟩
      · rw [d2]; exact p4
      · rw [d2]; exact p5
      · rw [d2]; exact p6
  obtain ⟨t₁, e₁, a₁, q1, q4, q5, q6⟩ := hpush
  refine ⟨⟨_, t₁, hp, e₁, q1, q4, q5, q6⟩, ?_⟩
  have hd : depthAfter 0 u = some 0 := by
    unfold balanced at hbal
    exact eq_of_beq hbal
  obtain ⟨t₂, e₂, a₂⟩ := interpret_above M u 0 0 t₁ a₁ hd
  obtain ⟨t', e', hs', hh'⟩ := TreeTool.popState_final M a₂ hne m₂
  refine ⟨t', ?_, hs', hh', fun st hst h1 h2 => ⟨?_, (hh' _ h1).1, (hh' _ h2).2.1⟩⟩
  · rw [interpret]
    show (match TreeTool.pushState M t m₁ with
      | none => none
      | some t => interpret M t (u ++ [Cmd.popState m₂])) = some t'
    rw [e₁]
    show interpret M t₁ (u ++ [Cmd.popState m₂]) = some t'
    rw [interpret_append M u [Cmd.popState m₂] t₁ t₂ e₂, interpret]
    show (match TreeTool.popState M t₂ m₂ with
      | none => none
      | some t => interpret M t []) = some t'
    rw [e']
    rfl
  · unfold Tree.peekState at hst ⊢
    rw [hs']
    exact hst

/-- Witness for C27: on the initialised tree the bracket
`[ F + [ move ] | ]`, with a nested bracket, leaves the state stack as it was, and
the position object of the top state (reference 3) holds the value it held. -/
theorem C27_bracket_restore_witness :
    ∃ t', interpret (⟨Real.sqrt, Real.cos, Real.sin, Real.pi⟩ : JSMath ℝ) (turtleTree : Tree ℝ)
        (Cmd.pushState true ::
          ([Cmd.drawForward, Cmd.turnLeft 1, Cmd.pushState false, Cmd.movePos,
            Cmd.popState false, Cmd.turnAround] ++ [Cmd.popState true])) = some t' ∧
      t'.states = (turtleTree : Tree ℝ).states ∧
      t'.peekState = some ⟨3, 1, 4, 1, 5, 1⟩ ∧
      t'.heap.vectors 3 = (turtleTree : Tree ℝ).heap.vectors 3 :=
  have h := (C27_bracket_restore (⟨Real.sqrt, Real.cos, Real.sin, Real.pi⟩ : JSMath ℝ)
    (turtleTree : Tree ℝ)
    [Cmd.drawForward, Cmd.turnLeft 1, Cmd.pushState false, Cmd.movePos, Cmd.popState false,
      Cmd.turnAround] true true (by simp [turtleTree, Tree.init, Tree.pushState]) rfl).2
  Exists.elim h fun t' ht =>
    have hx := ht.2.2.2 ⟨3, 1, 4, 1, 5, 1⟩ rfl (by show 3 < 6; decide) (by show 4 < 6; decide)
    ⟨t', ht.1, ht.2.1, hx.1, hx.2.1⟩

end ArtFlow
